import Mathlib

/-!
# The SOC Monte-Carlo engine of `Model/neutral/Dynamic.cpp`

A shallow embedding of the rate calculators (`SOC_*`), of the predation step
(`DynamicPrey`), of `MonteCarlo` (rate-accounting phase, individual trial,
trial loop, timestep loop) and of `Migration`, followed by the properties
proved about them.

Conventions of the embedding.

* C `int` is `Int`. Populations and identifiers stay far below `2^31`, so no
  wrap-around is modelled.
* C `float` is `ℚ`. In the first embedding every formula is computed exactly.
  `x / 0` is `0` in `ℚ`; the only division whose divisor can be zero in the
  source is `1.0/(float)TotalInds` in `SOC_CC`, where the source gets `inf`
  and then `0/inf = 0`, the value the exact model also yields.
  The densities, the rate calculators `SOC_NDP`, `SOC_DP`, `SOC_CC`, `SOC_BP`
  and the number of migrants of `Migration` are embedded a second time, with
  the suffix `_float`, with the rounding of IEEE binary32 and binary64 (round
  to nearest, ties to even; the exponent range is not modelled). The
  statements about the value that one of these functions returns are made
  about the second embedding; the first one is the reference against which the
  rounding error is bounded, and carries the statements that hold whatever the
  computed value is.
* `v.at(i)` throws when `i` is out of range. The accessors below return a
  default record (all counters `0`) for a read and leave the vector unchanged
  for a write; theorems whose content depends on an index being valid assume it.
* `random()` reads the next element of an explicit stream carried by the state.
* A loop of the source that is not bounded by a counter (the rejection loop of
  `reorder_Sites`, the trial loop of `MonteCarlo`) takes a number of steps
  `fuel` and returns `none` when it is exhausted.
* The comparison `in < 10.0*log(sumOld)` of the trial loop is a parameter of
  the model, `trialGuard`; the statements tie it to `Real.log` through
  `guardIsLog`.
* `Site` and `Species` are classes of the repository whose sources are not
  part of `Dynamic.cpp`; their members are modelled from the specification and
  marked as such. The specification does not say whether
  `Site::get_NumberIndSpecies` counts the newborns of the current timestep;
  the trial phase is embedded a second time (`MonteCarlo_site_float`) with
  this accessor as a parameter and the rates computed in `float`.
-/

namespace DynamicModel

/-! ## Vector access -/

/-- Read `v.at(i)` for a C `int` index; the default value stands for the
out-of-range exception. -/
def atI {α : Type} [Inhabited α] (l : List α) (i : Int) : α :=
  if i < 0 then default else l.getD i.toNat default

/-- Apply `f` to the `n`-th element of a list, if there is one. -/
def modifyNth {α : Type} (f : α → α) : List α → Nat → List α
  | [], _ => []
  | a :: l, 0 => f a :: l
  | a :: l, n + 1 => a :: modifyNth f l n

/-- Write through `v.at(i)` for a C `int` index. -/
def modifyI {α : Type} (l : List α) (i : Int) (f : α → α) : List α :=
  if i < 0 then l else modifyNth f l i.toNat

/-- Conversion of a C `float` to `int`: truncation toward zero. -/
def cTrunc (q : ℚ) : Int := if 0 ≤ q then ⌊q⌋ else ⌈q⌉

/-! ## Data model -/

/-- The record `tListSpecies` filled by `init_Individuals`: the counters of
one species at one site. -/
structure tListSpecies where
  id : Int
  nOld : Int
  nOld_ini : Int
  nNew : Int
  nNew_born : Int
  deriving DecidableEq, Repr

instance : Inhabited tListSpecies := ⟨⟨0, 0, 0, 0, 0⟩⟩

/-- The record `tNeighborhood` read by `Migration`: a neighbour site id
(1-based) and the weight of the edge. -/
structure tNeighborhood where
  id : Int
  weight : Int
  deriving DecidableEq, Repr

instance : Inhabited tNeighborhood := ⟨⟨0, 0⟩⟩

/-- Modelled from the spec: class `Species` (its source is not in
`Dynamic.cpp`). §3: ordered lists of prey and predator ids (1-based), the four
vital rates and the carrying capacity last stored by `set_Data`. -/
structure Species where
  preys : List Int
  predators : List Int
  birthProbability : ℚ
  deathProbability : ℚ
  naturalDeathProbability : ℚ
  migrationProbability : ℚ
  cc : Int

instance : Inhabited Species := ⟨⟨[], [], 0, 0, 0, 0, 0⟩⟩

/-- Modelled from the spec: class `Site` (its source is not in `Dynamic.cpp`).
§3: fixed carrying capacity, the per-species counters, the shuffled list of
species ids, the neighbourhood list, reproductive exitus and preference per
species, and the public vector `MCdata` that `MonteCarlo` decrements. -/
structure Site where
  carryingCapacity : Int
  list_Species : List tListSpecies
  speciesOrdered : List Int
  neighborhood : List tNeighborhood
  reproductiveExitus : List ℚ
  pref : List ℚ
  MCdata : List Int

instance : Inhabited Site := ⟨⟨0, [], [], [], [], [], []⟩⟩

/-- The object `Dynamic`: the species, the sites, the site order shuffled by
`reorder_Sites`, the timestep, and the random stream with the number of
values already drawn from it. -/
structure Dynamic where
  _Species : List Species
  _Sites : List Site
  sitesOrdered : List Int
  mc_timestep : Int
  seedStream : Nat → Nat
  drawn : Nat

/-- Parts used by `Dynamic.cpp` that are neither in it nor fixed by the
specification: the macro `PRECISION` of `Dynamic.h`, and the permutation
computed by `Site::reorder_Species`, which receives the current order, the
random stream and the number of values drawn, and returns the new order and
the new number of values drawn. -/
structure Externals where
  PRECISION : Nat
  shuffle : List Int → (Nat → Nat) → Nat → List Int × Nat

/-! ## Members of `Species` -/

/-- Modelled from the spec: `Species::get_NumberPreys`, the length of the
prey list. -/
def Species.get_NumberPreys (s : Species) : Int := s.preys.length

/-- Modelled from the spec: `Species::get_NumberPredators`. -/
def Species.get_NumberPredators (s : Species) : Int := s.predators.length

/-- Modelled from the spec: `Species::ver_IsPredator`, §4.2 step 2: the
species has at least one prey. -/
def Species.ver_IsPredator (s : Species) : Bool := !s.preys.isEmpty

/-- Modelled from the spec: `Species::get_CC`, the capacity stored by
`set_Data`. -/
def Species.get_CC (s : Species) : Int := s.cc

/-- Modelled from the spec: `Species::set_Data(dp,bp,ndp,mp,cc)` stores the
five recomputed values. -/
def Species.set_Data (s : Species) (dp bp ndp mp : ℚ) (cc : Int) : Species :=
  { s with deathProbability := dp, birthProbability := bp,
           naturalDeathProbability := ndp, migrationProbability := mp, cc := cc }

/-- Modelled from the spec: `Species::ver_NaturalDeath`, §4.2 step 1:
`u1 < naturalDeathProbability`. -/
def Species.ver_NaturalDeath (s : Species) (u : ℚ) : Bool :=
  decide (u < s.naturalDeathProbability)

/-- Modelled from the spec: `Species::ver_Death`, §4.2 step 2:
`u2 < preyDeathProbability`. -/
def Species.ver_Death (s : Species) (u : ℚ) : Bool :=
  decide (u < s.deathProbability)

/-- Modelled from the spec: `Species::ver_Birth`, §4.2: `u < birthProbability`. -/
def Species.ver_Birth (s : Species) (u : ℚ) : Bool :=
  decide (u < s.birthProbability)

/-! ## Members of `Site` -/

/-- Modelled from the spec: `Site::get_Nold`, the `old` counter. -/
def Site.get_Nold (s : Site) (sp : Int) : Int := (atI s.list_Species sp).nOld

/-- Modelled from the spec: `Site::get_Nnew`, the `new` counter. -/
def Site.get_Nnew (s : Site) (sp : Int) : Int := (atI s.list_Species sp).nNew

/-- Modelled from the spec: `Site::get_NoldIni`, the `oldIni` snapshot. -/
def Site.get_NoldIni (s : Site) (sp : Int) : Int := (atI s.list_Species sp).nOld_ini

/-- Modelled from the spec: `Site::get_NnewBorn`, the `newborn` counter. -/
def Site.get_NnewBorn (s : Site) (sp : Int) : Int := (atI s.list_Species sp).nNew_born

/-- Modelled from the spec: `Site::set_Nold`. -/
def Site.set_Nold (s : Site) (sp : Int) (v : Int) : Site :=
  { s with list_Species := modifyI s.list_Species sp (fun e => { e with nOld := v }) }

/-- Modelled from the spec: `Site::set_Nnew`. -/
def Site.set_Nnew (s : Site) (sp : Int) (v : Int) : Site :=
  { s with list_Species := modifyI s.list_Species sp (fun e => { e with nNew := v }) }

/-- Modelled from the spec: `Site::set_NoldIni`. -/
def Site.set_NoldIni (s : Site) (sp : Int) (v : Int) : Site :=
  { s with list_Species := modifyI s.list_Species sp (fun e => { e with nOld_ini := v }) }

/-- Modelled from the spec: `Site::set_NnewBorn`. -/
def Site.set_NnewBorn (s : Site) (sp : Int) (v : Int) : Site :=
  { s with list_Species := modifyI s.list_Species sp (fun e => { e with nNew_born := v }) }

/-- Modelled from the spec: `Site::get_TotalPopulation`, §3: total population
is the sum of `old` over the species of the site. -/
def Site.get_TotalPopulation (s : Site) : Int := (s.list_Species.map (fun e => e.nOld)).sum

/-- Modelled from the spec: `Site::calculate_SumOld`, §4.2: the site's total
population, the sum of the `old` counters. -/
def Site.calculate_SumOld (s : Site) : Int := (s.list_Species.map (fun e => e.nOld)).sum

/-- Modelled from the spec: `Site::get_NumberIndSpecies`, the current
population of a species at the site, which the spec identifies with its `old`
counter (§4.1: density of species `k` is `old[k] / totalPopulation`). The
spec does not say whether the newborns registered in the current timestep are
counted; here they are not. -/
def Site.get_NumberIndSpecies (s : Site) (sp : Int) : Int := (atI s.list_Species sp).nOld

/-- Modelled from the spec: `Site::get_Density`, §4.1: `old[k] / totalPopulation`,
and `0` when the total population is `0`. -/
def Site.get_Density (s : Site) (sp : Int) : ℚ :=
  if s.get_TotalPopulation = 0 then 0
  else ((s.get_Nold sp : Int) : ℚ) / ((s.get_TotalPopulation : Int) : ℚ)

/-- Modelled from the spec: `Site::get_CarryingCapacity`, the fixed capacity. -/
def Site.get_CarryingCapacity (s : Site) : Int := s.carryingCapacity

/-- Modelled from the spec: `Site::get_ReproductiveExitus`. -/
def Site.get_ReproductiveExitus (s : Site) (sp : Int) : ℚ := atI s.reproductiveExitus sp

/-- Modelled from the spec: `Site::set_ReproductiveExitus`. -/
def Site.set_ReproductiveExitus (s : Site) (sp : Int) (v : ℚ) : Site :=
  { s with reproductiveExitus := modifyI s.reproductiveExitus sp (fun _ => v) }

/-- Modelled from the spec: `Site::set_Pref`, stores the preference scalar of
a species. -/
def Site.set_Pref (s : Site) (sp : Int) (v : ℚ) : Site :=
  { s with pref := modifyI s.pref sp (fun _ => v) }

/-- Modelled from the spec: `Site::to_Die`, §4.2: one individual leaves the
`old` counter of the species. -/
def Site.to_Die (s : Site) (sp : Int) : Site := s.set_Nold sp (s.get_Nold sp - 1)

/-- Modelled from the spec: `Site::to_Born`, §4.2 birth bookkeeping: a newborn
increments the `new` counter (not `old`) and the `newborn` counter. -/
def Site.to_Born (s : Site) (sp : Int) : Site :=
  (s.set_Nnew sp (s.get_Nnew sp + 1)).set_NnewBorn sp (s.get_NnewBorn sp + 1)

/-- The statement `MCdata.at(sp)--` that `MonteCarlo` and `DynamicPrey` apply
to the public vector `MCdata` of the site. -/
def Site.dec_MCdata (s : Site) (sp : Int) : Site :=
  { s with MCdata := modifyI s.MCdata sp (fun v => v - 1) }

/-! ## State access from `Dynamic` -/

/-- The site `this->_Sites.at(st)`. -/
def Dynamic.site (d : Dynamic) (st : Int) : Site := atI d._Sites st

/-- The species `this->_Species.at(sp)`. -/
def Dynamic.species (d : Dynamic) (sp : Int) : Species := atI d._Species sp

/-- Update of `this->_Sites.at(st)` in place. -/
def Dynamic.updSite (d : Dynamic) (st : Int) (f : Site → Site) : Dynamic :=
  { d with _Sites := modifyI d._Sites st f }

/-- Update of `this->_Species.at(sp)` in place. -/
def Dynamic.updSpecies (d : Dynamic) (sp : Int) (f : Species → Species) : Dynamic :=
  { d with _Species := modifyI d._Species sp f }

/-- One call of `random()`: the next value of the stream, and the state with
the stream advanced. -/
def Dynamic.random (d : Dynamic) : Nat × Dynamic :=
  (d.seedStream d.drawn, { d with drawn := d.drawn + 1 })

/-- The expression `(float)(random()%PRECISION)/PRECISION`. -/
def Dynamic.randomFraction (E : Externals) (d : Dynamic) : ℚ × Dynamic :=
  (((d.random.1 % E.PRECISION : Nat) : ℚ) / (E.PRECISION : ℚ), d.random.2)

/-! ## `get_NumberIndPreys`, `get_NumberIndPredators`, `get_DensityPredOfPrey` -/

/-- The inner loop shared by `get_NumberIndPreys` and
`get_NumberIndPredators`: add to `sum` the `old` counter of every entry of the
site whose id is `id`. -/
def sumOldWithId (s : Site) (id : Int) (sum : Int) : Int :=
  s.list_Species.foldl (fun sum e => if e.id = id then sum + e.nOld else sum) sum

/-- The function `Dynamic::get_NumberIndPreys`. -/
def get_NumberIndPreys (d : Dynamic) (st sp : Int) : Int :=
  (d.species sp).preys.foldl (fun sum prey => sumOldWithId (d.site st) prey sum) 0

/-- The function `Dynamic::get_NumberIndPredators`. -/
def get_NumberIndPredators (d : Dynamic) (st sp : Int) : Int :=
  (d.species sp).predators.foldl (fun sum predator => sumOldWithId (d.site st) predator sum) 0

/-- The function `Dynamic::get_DensityPredOfPrey`. -/
def get_DensityPredOfPrey (d : Dynamic) (st prey : Int) : ℚ :=
  let num_IndPredOfPrey := get_NumberIndPredators d st prey
  let num_TotalIndPredOfPrey := (d.site st).get_TotalPopulation
  if num_TotalIndPredOfPrey ≠ 0 then
    ((num_IndPredOfPrey : Int) : ℚ) / ((num_TotalIndPredOfPrey : Int) : ℚ)
  else 0

/-! ## The SOC calculators -/

/-- The function `Dynamic::SOC_MP`. -/
def SOC_MP (d : Dynamic) (sp st : Int) : ℚ :=
  let reproductiveExitus := (d.site st).get_ReproductiveExitus sp
  let Mp := 1 - reproductiveExitus
  Mp * (1 / 2)

/-- The accumulation `dx += d_predOfprey*(1-d_prey)` over the prey list, as
in `SOC_NDP` and `SOC_DP`. -/
def accum_dx (d : Dynamic) (sp st : Int) : ℚ :=
  (d.species sp).preys.foldl
    (fun dx prey =>
      let d_prey := (d.site st).get_Density (prey - 1)
      let d_predOfprey := get_DensityPredOfPrey d st (prey - 1)
      dx + d_predOfprey * (1 - d_prey)) 0

/-- The accumulation `dy += d_pred` (and `by += d_pred`) over the predator
list, as in `SOC_NDP`, `SOC_DP` and `SOC_BP`. -/
def accum_dy (d : Dynamic) (sp st : Int) : ℚ :=
  (d.species sp).predators.foldl
    (fun dy pred => dy + (d.site st).get_Density (pred - 1)) 0

/-- The function `Dynamic::SOC_NDP`. The source also accumulates `dy`, which it does not
use. -/
def SOC_NDP (d : Dynamic) (sp st : Int) : ℚ :=
  let num_SpeciesPredators := (d.species sp).get_NumberPredators
  let dx := accum_dx d sp st
  let proportion := (d.site st).get_Density sp
  let Dp := proportion * dx
  if num_SpeciesPredators = 0 ∧ proportion = 1 then 1 else Dp

/-- The function `Dynamic::SOC_DP`. -/
def SOC_DP (d : Dynamic) (sp st : Int) : ℚ :=
  let num_SpeciesPreys := (d.species sp).get_NumberPreys
  let num_SpeciesPredators := (d.species sp).get_NumberPredators
  let dx := accum_dx d sp st
  let dy := accum_dy d sp st
  let Dp := (d.site st).get_Density sp
  let Dp := if num_SpeciesPredators > 0 then Dp * (1 - dy) else Dp
  let Dp := if num_SpeciesPreys > 0 then Dp * dx else 1
  Dp * 1

/-- The loop of `SOC_CC` over the prey list: the pair
`(d_prey, d_predOfprey)` of accumulated prey densities and accumulated
predation pressures. -/
def accum_cc (d : Dynamic) (sp st : Int) : ℚ × ℚ :=
  (d.species sp).preys.foldl
    (fun acc prey =>
      (acc.1 + (d.site st).get_Density (prey - 1),
       acc.2 + get_DensityPredOfPrey d st (prey - 1))) (0, 0)

/-- The function `Dynamic::SOC_CC`. -/
def SOC_CC (d : Dynamic) (sp st : Int) : Int :=
  let num_SpeciesPreys := (d.species sp).get_NumberPreys
  if num_SpeciesPreys = 0 then
    let cc : ℚ := (((d.site st).get_CarryingCapacity : Int) : ℚ) / 1
    ⌊cc⌋
  else
    let d_prey := (accum_cc d sp st).1
    let d_predOfprey := (accum_cc d sp st).2
    let d_predOfprey :=
      if d_predOfprey = 0 then
        let TotalInds := (d.site st).get_TotalPopulation
        1 / ((TotalInds : Int) : ℚ)
      else d_predOfprey
    let a : ℚ := 1
    let cc := a * d_prey / d_predOfprey
    ⌊cc⌋

/-- The accumulation `bx += d_prey*(1.0-d_predOfprey)` of `SOC_BP`. -/
def accum_bx (d : Dynamic) (sp st : Int) : ℚ :=
  (d.species sp).preys.foldl
    (fun bx prey =>
      let d_prey := (d.site st).get_Density (prey - 1)
      let d_predOfprey := get_DensityPredOfPrey d st (prey - 1)
      bx + d_prey * (1 - d_predOfprey)) 0

/-- The function `Dynamic::SOC_BP`. -/
def SOC_BP (d : Dynamic) (sp st : Int) : ℚ :=
  let num_SpeciesPreys := (d.species sp).get_NumberPreys
  let num_SpeciesPredators := (d.species sp).get_NumberPredators
  let bx := accum_bx d sp st
  let by_ := accum_dy d sp st
  let Bp := 1 - (d.site st).get_Density sp
  let Bp := if num_SpeciesPreys > 0 then Bp * bx else Bp
  let Bp := if num_SpeciesPredators > 0 ∧ by_ > 0 then Bp * (1 - by_) else Bp
  Bp * 1

/-- The function `Dynamic::SOC`: recompute the five values and store them in the species. -/
def SOC (d : Dynamic) (sp st : Int) : Dynamic :=
  let bp := SOC_BP d sp st
  let dp := SOC_DP d sp st
  let mp := SOC_MP d sp st
  let ndp := SOC_NDP d sp st
  let cc := SOC_CC d sp st
  d.updSpecies sp (fun s => s.set_Data dp bp ndp mp cc)

/-! ## The rate-accounting phase of `MonteCarlo` -/

/-- The body of the loop `for (sp=0; sp<_Species.size(); sp++)` that opens the
treatment of a site in `MonteCarlo`: store the reproductive exitus, merge
`new` into `old`, snapshot `oldIni`, reset `new` and `newborn`. -/
def MonteCarlo_update (s : Site) (sp : Int) : Site :=
  let nNewBorn : ℚ := ((s.get_NnewBorn sp : Int) : ℚ)
  let nOldIni : ℚ := ((s.get_NoldIni sp : Int) : ℚ)
  let s := if nOldIni ≠ 0 then s.set_ReproductiveExitus sp (nNewBorn / nOldIni)
           else s.set_ReproductiveExitus sp 1
  let s := s.set_Nold sp (s.get_Nold sp + s.get_Nnew sp)
  let s := s.set_NoldIni sp (s.get_Nold sp)
  let s := s.set_Nnew sp 0
  s.set_NnewBorn sp 0

/-- The whole rate-accounting loop of `MonteCarlo` for the site `st`. -/
def MonteCarlo_rateAccounting (d : Dynamic) (st : Int) : Dynamic :=
  (List.range d._Species.length).foldl
    (fun d sp => d.updSite st (fun s => MonteCarlo_update s (sp : Int))) d

/-! ## `DynamicPrey` -/

/-- Modelled from the spec: the walk of the candidate list inside
`Site::get_RandomSpecies` (not in `Dynamic.cpp`): the first candidate whose
cumulated `old` count exceeds `r`; the result is the index (id minus one) of
the species, or `-1`. -/
def Site.pickWeighted (s : Site) : List Int → Int → Int
  | [], _ => -1
  | id :: rest, r =>
    if r < s.get_Nold (id - 1) then id - 1
    else Site.pickWeighted s rest (r - s.get_Nold (id - 1))

/-- Modelled from the spec: `Site::get_RandomSpecies(cont,sum,auxIndex)`,
§4.2 step 2: one prey species drawn at random among the candidates, weighted
by each candidate's `old` count, `sum` being the total of these counts; `-1`
when no individual is available. -/
def get_RandomSpecies (d : Dynamic) (st : Int) (_cont : Int) (sum : Int)
    (auxIndex : List Int) : Int × Dynamic :=
  if sum ≤ 0 then (-1, d)
  else ((d.site st).pickWeighted auxIndex ((d.random.1 : Int) % sum), d.random.2)

/-- The list `auxIndex` built at the start of `DynamicPrey`: the ids of the
prey of `sp` that have at least one individual alive at the site. -/
def DynamicPrey_auxIndex (d : Dynamic) (st sp : Int) : List Int :=
  (d.species sp).preys.filter (fun prey => decide ((d.site st).get_Nold (prey - 1) > 0))

/-- The value `sum` built at the start of `DynamicPrey`. -/
def DynamicPrey_sum (d : Dynamic) (st sp : Int) : Int :=
  ((DynamicPrey_auxIndex d st sp).map (fun prey => (d.site st).get_Nold (prey - 1))).sum

/-- One pass of the loop `for(comidas=1; comidas<=CantComidas; comidas++)` of
`DynamicPrey`; the state carries the flag `pario`. -/
def DynamicPrey_comida (E : Externals) (st sp cont : Int) (sum : Int) (auxIndex : List Int)
    (acc : Dynamic × Bool) : Dynamic × Bool :=
  let d := acc.1
  let pario := acc.2
  let sel := get_RandomSpecies d st cont sum auxIndex
  let prey := sel.1
  let d := sel.2
  if prey ≠ -1 then
    let d := SOC d prey st
    let u := d.randomFraction E
    let d := u.2
    if (d.species prey).ver_Death u.1 then
      let d := d.updSite st (fun s => (s.to_Die prey).dec_MCdata prey)
      let p := d.randomFraction E
      let prob := p.1
      let d := p.2
      let totIndsSP := (d.site st).get_NumberIndSpecies sp
      let ccSP := (d.species sp).get_CC
      if (d.species sp).ver_Birth prob ∧ ccSP > totIndsSP ∧ pario = false then
        (d.updSite st (fun s => s.to_Born sp), true)
      else (d, pario)
    else (d, pario)
  else (d, pario)

/-- The function `Dynamic::DynamicPrey`. `CantComidas` is set to `1` and `pario` to `0`
before the loop. -/
def DynamicPrey (E : Externals) (d : Dynamic) (st sp cont : Int) : Dynamic :=
  if (d.species sp).ver_IsPredator then
    let auxIndex := DynamicPrey_auxIndex d st sp
    let sum := DynamicPrey_sum d st sp
    let CantComidas := 1
    ((List.range CantComidas).foldl
      (fun acc _ => DynamicPrey_comida E st sp cont sum auxIndex acc) (d, false)).1
  else
    let totIndsSP := (d.site st).get_NumberIndSpecies sp
    let ccSP := (d.species sp).get_CC
    if totIndsSP < ccSP then
      let u := d.randomFraction E
      let d := u.2
      if (d.species sp).ver_Birth u.1 then d.updSite st (fun s => s.to_Born sp)
      else d
    else d

/-! ## The individual trial of `MonteCarlo` -/

/-- The start of the body of `if (sp != -1)` in the trial loop of
`MonteCarlo`: `SOC(sp,st)`, then the draw tested by `ver_NaturalDeath`. The
result is the state after the draw and the outcome of the test. -/
def MonteCarlo_naturalDeathTest (E : Externals) (d : Dynamic) (st sp : Int) : Dynamic × Bool :=
  let d := SOC d sp st
  let u := d.randomFraction E
  (u.2, (u.2.species sp).ver_NaturalDeath u.1)

/-- The body of `if (sp != -1)` in the trial loop of `MonteCarlo`, up to the
refresh of `sumOld`: a natural death, or else `CantComidas = 5` calls of
`DynamicPrey` (`alePrint` is `0`). The diagnostic accumulators of
`set_SOC_AvrSpcPar` are not modelled. -/
def MonteCarlo_trial (E : Externals) (d : Dynamic) (st sp realization : Int) : Dynamic :=
  let r := MonteCarlo_naturalDeathTest E d st sp
  if r.2 then r.1.updSite st (fun s => (s.to_Die sp).dec_MCdata sp)
  else
    let CantComidas := 5
    (List.range CantComidas).foldl (fun d _ => DynamicPrey E d st sp realization) r.1

/-! ## `Migration` -/

/-- The value `number_mig` of one neighbour step: the remaining population
times the local density, converted to `int`, then capped by the `old` counter
of the source. -/
def Migration_number_mig (d : Dynamic) (ix_St1 ix_Sp1 realMigration : Int) : Int :=
  let number_mig :=
    cTrunc ((((d.site ix_St1).get_Nold ix_Sp1 - realMigration : Int) : ℚ)
              * (d.site ix_St1).get_Density ix_Sp1)
  if number_mig > (d.site ix_St1).get_Nold ix_Sp1 then (d.site ix_St1).get_Nold ix_Sp1
  else number_mig

/-- The value `threshold_mig` of one neighbour step. -/
def Migration_threshold_mig (d : Dynamic) (ix_Sp1 ix_TargetSt : Int) : Int :=
  SOC_CC d ix_Sp1 ix_TargetSt - (d.site ix_TargetSt).get_NumberIndSpecies ix_Sp1

/-- The body of the loop over the neighbours `k` in `Migration`: the state and
the running `realMigration` before the step give those after it. -/
def Migration_neighbour (ix_St1 ix_Sp1 : Int) (acc : Dynamic × Int)
    (auxNeigh : tNeighborhood) : Dynamic × Int :=
  let d := acc.1
  let realMigration := acc.2
  let ix_TargetSt := auxNeigh.id - 1
  let dif : ℚ := 1
  if dif > 0 then
    let number_mig := Migration_number_mig d ix_St1 ix_Sp1 realMigration
    let threshold_mig := Migration_threshold_mig d ix_Sp1 ix_TargetSt
    if number_mig > 0 then
      if threshold_mig = 0 then (d, realMigration)
      else if number_mig < threshold_mig then
        (d.updSite ix_TargetSt (fun s => s.set_Nnew ix_Sp1 (s.get_Nnew ix_Sp1 + number_mig)),
         realMigration + number_mig)
      else
        (d.updSite ix_TargetSt (fun s => s.set_Nnew ix_Sp1 (s.get_Nnew ix_Sp1 + threshold_mig)),
         realMigration + threshold_mig)
    else (d, realMigration)
  else (d, realMigration)

/-- The loop over the neighbours of the source, guarded by
`sum != 0 && get_Nold(ix_Sp1)`: the state and `realMigration` when the loop is
left, before the source is decremented. -/
def Migration_neighbours (d : Dynamic) (ix_St1 ix_Sp1 : Int) : Dynamic × Int :=
  let sum : Int := 1
  if sum ≠ 0 ∧ (d.site ix_St1).get_Nold ix_Sp1 ≠ 0 then
    (d.site ix_St1).neighborhood.foldl (Migration_neighbour ix_St1 ix_Sp1) (d, 0)
  else (d, 0)

/-- The body of the loop over the species `j` in `Migration`: all neighbours
are visited, then `realMigration` is subtracted from the `old` counter of the
source. The second component is `realMigration`. -/
def Migration_species (d : Dynamic) (ix_St1 ix_Sp1 : Int) : Dynamic × Int :=
  let r := Migration_neighbours d ix_St1 ix_Sp1
  (r.1.updSite ix_St1 (fun s => s.set_Nold ix_Sp1 (s.get_Nold ix_Sp1 - r.2)), r.2)

/-- The body of the loop over the sites `i` in `Migration`. -/
def Migration_site (d : Dynamic) (ix_St1 : Int) : Dynamic :=
  (d.site ix_St1).speciesOrdered.foldl (fun d id => (Migration_species d ix_St1 (id - 1)).1) d

/-- The loops of `Migration`, after `reorder_Sites` and `set_Pref`. -/
def Migration_loop (d : Dynamic) : Dynamic :=
  d.sitesOrdered.foldl (fun d id => Migration_site d (id - 1)) d

/-- The statement `while ((num=random()%_Sites.size())==i);` of
`reorder_Sites`, run for at most `fuel` draws: the accepted `num` and the
state with the stream advanced, or `none` when every draw was rejected. -/
def reorder_Sites_draw (n i : Nat) : Nat → Dynamic → Option (Nat × Dynamic)
  | 0, _ => none
  | fuel + 1, d =>
    if d.random.1 % n = i then reorder_Sites_draw n i fuel d.random.2
    else some (d.random.1 % n, d.random.2)

/-- The three assignments that exchange `sitesOrdered.at(i)` and
`sitesOrdered.at(num)`. -/
def reorder_Sites_swap (l : List Int) (i num : Nat) : List Int :=
  let aux := l.getD i 0
  (l.set i (l.getD num 0)).set num aux

/-- The loop of `reorder_Sites` over the remaining indices `i`. -/
def reorder_Sites_from (fuel : Nat) : List Nat → Dynamic → Option Dynamic
  | [], d => some d
  | i :: rest, d =>
    match reorder_Sites_draw d._Sites.length i fuel d with
    | none => none
    | some r =>
      reorder_Sites_from fuel rest
        { r.2 with sitesOrdered := reorder_Sites_swap r.2.sitesOrdered i r.1 }

/-- The function `Dynamic::reorder_Sites`, each rejection loop being given `fuel` draws. -/
def reorder_Sites (fuel : Nat) (d : Dynamic) : Option Dynamic :=
  reorder_Sites_from fuel (List.range d._Sites.length) d

/-- The body of the loop over the sites in `set_Pref`: the species of the site
are reordered, then the preference of each is stored. -/
def set_Pref_site (E : Externals) (d : Dynamic) (ix_St1 : Int) : Dynamic :=
  let sh := E.shuffle (d.site ix_St1).speciesOrdered d.seedStream d.drawn
  let d := { d.updSite ix_St1 (fun s => { s with speciesOrdered := sh.1 }) with drawn := sh.2 }
  (d.site ix_St1).speciesOrdered.foldl
    (fun d id =>
      let ix_Sp1 := id - 1
      let dif : ℚ :=
        ((get_NumberIndPreys d ix_St1 ix_Sp1 - get_NumberIndPredators d ix_St1 ix_Sp1 : Int) : ℚ)
      d.updSite ix_St1 (fun s => s.set_Pref ix_Sp1 dif)) d

/-- The function `Dynamic::set_Pref`. -/
def set_Pref (E : Externals) (d : Dynamic) : Dynamic :=
  d.sitesOrdered.foldl (fun d id => set_Pref_site E d (id - 1)) d

/-- The function `Dynamic::Migration`; the file `realMigration.dat` is not modelled. The
result is `none` when a rejection loop of `reorder_Sites` exhausts `fuel`. -/
def Migration (E : Externals) (fuel : Nat) (d : Dynamic) (_cont : Int) : Option Dynamic :=
  (reorder_Sites fuel d).map (fun d => Migration_loop (set_Pref E d))

/-- The total over all sites of `old + new` for the species of index `sp`. -/
def totalOldNew (d : Dynamic) (sp : Int) : Int :=
  (d._Sites.map (fun s => s.get_Nold sp + s.get_Nnew sp)).sum

/-! ## The trial loop and the timestep loop of `MonteCarlo` -/

/-- Modelled from the spec: the positions in the species vector of a site of
the species that have a positive `old` counter, the candidates of
`Site::get_RandSP` (not in `Dynamic.cpp`). -/
def Site.alivePositions (s : Site) : List Int :=
  ((List.range s.list_Species.length).filter
    (fun j => decide (s.get_Nold (j : Int) > 0))).map (fun j => (j : Int))

/-- Modelled from the spec: `Site::get_RandSP`, §4.2: a species drawn
uniformly at random among the species with positive population at the site,
and the sentinel `-1` when there is none. -/
def get_RandSP (d : Dynamic) (st : Int) : Int × Dynamic :=
  let alive := (d.site st).alivePositions
  if alive.isEmpty then (-1, d)
  else (alive.getD (d.random.1 % alive.length) (-1), d.random.2)

/-- The loop `while(in < 10.0*log(sumOld))` of `MonteCarlo` for the site `st`,
run for at most `fuel` tests of its condition. The comparison with the C
library's `log` is the parameter `trialGuard in sumOld`. The loop carries the
state, the counter `in` and the variable `sumOld`, which is refreshed only
when a species was drawn. The result is the state and the value of `in` when
the loop is left, or `none` when `fuel` is exhausted. -/
def MonteCarlo_trialLoop (trialGuard : Int → Int → Bool) (E : Externals)
    (st realization : Int) : Nat → Dynamic → Int → Int → Option (Dynamic × Int)
  | 0, _, _, _ => none
  | fuel + 1, d, in_, sumOld =>
    if trialGuard in_ sumOld then
      let sel := get_RandSP d st
      if sel.1 ≠ -1 then
        let d2 := MonteCarlo_trial E sel.2 st sel.1 realization
        MonteCarlo_trialLoop trialGuard E st realization fuel d2 (in_ + 1)
          (d2.site st).calculate_SumOld
      else
        MonteCarlo_trialLoop trialGuard E st realization fuel sel.2 (in_ + 1) sumOld
    else some (d, in_)

/-- The body of the loop over the sites in `MonteCarlo`: the rate-accounting
phase, then the trial loop started with `in = 0` and the fresh `sumOld`. The
second component is the number of trials executed. -/
def MonteCarlo_site (trialGuard : Int → Int → Bool) (E : Externals) (fuel : Nat)
    (realization : Int) (d : Dynamic) (st : Int) : Option (Dynamic × Int) :=
  MonteCarlo_trialLoop trialGuard E st realization fuel (MonteCarlo_rateAccounting d st) 0
    ((MonteCarlo_rateAccounting d st).site st).calculate_SumOld

/-- A `for` loop over a list whose body may fail to return. -/
def forOption {β : Type} (body : Dynamic → β → Option Dynamic) : List β → Dynamic → Option Dynamic
  | [], d => some d
  | b :: rest, d =>
    match body d b with
    | none => none
    | some d1 => forOption body rest d1

/-- The body of the loop over the timesteps in `MonteCarlo`: every site in
turn, then `Migration` when `mc_timestep != 0` and `mc_timestep % tm == 0`.
The reports written to files are not modelled. With `tm = 0` the source
divides by zero; here `mc_timestep % 0` is `mc_timestep`. -/
def MonteCarlo_timestep (trialGuard : Int → Int → Bool) (E : Externals) (fuel : Nat)
    (tm realization : Int) (d : Dynamic) : Option Dynamic :=
  match forOption
      (fun (d : Dynamic) (st : Nat) =>
        (MonteCarlo_site trialGuard E fuel realization d (st : Int)).map (fun r => r.1))
      (List.range d._Sites.length) d with
  | none => none
  | some d1 =>
    if d1.mc_timestep ≠ 0 ∧ d1.mc_timestep % tm = 0 then Migration E fuel d1 realization
    else some d1

/-- The function `Dynamic::MonteCarlo`, with `niter` and `tm` the fields set
by the constructor: the timesteps `0 .. niter-1` in turn. The result is `none`
when a loop inside exhausts `fuel`. -/
def MonteCarlo (trialGuard : Int → Int → Bool) (E : Externals) (fuel : Nat)
    (niter tm realization : Int) (d : Dynamic) : Option Dynamic :=
  forOption
    (fun (d : Dynamic) (t : Nat) =>
      MonteCarlo_timestep trialGuard E fuel tm realization { d with mc_timestep := (t : Int) })
    (List.range niter.toNat) d

/-- The parameter `trialGuard` agrees with the comparison
`in < 10.0*log(sumOld)` of the source for `in ≥ 0` and `sumOld ≤ bound`: the
comparison is false when `sumOld < 1` (`log` is then `-inf` or `NaN`). -/
def guardIsLog (trialGuard : Int → Int → Bool) (bound : Int) : Prop :=
  ∀ in_ sumOld : Int, 0 ≤ in_ → sumOld ≤ bound →
    (trialGuard in_ sumOld = true ↔ (1 ≤ sumOld ∧ (in_ : ℝ) < 10 * Real.log (sumOld : ℝ)))

/-! ## Notions used by the statements -/

/-- An index is valid for `v.at(i)`. -/
def inRange {α : Type} (l : List α) (i : Int) : Prop := 0 ≤ i ∧ i < (l.length : Int)

instance {α : Type} (l : List α) (i : Int) : Decidable (inRange l i) := by
  unfold inRange
  infer_instance

/-- The `old` counters of a site, in the order of its species vector. -/
def Site.olds (s : Site) : List Int := s.list_Species.map (fun e => e.nOld)

/-- Every `old` counter of the site is non-negative. -/
def Site.oldNonneg (s : Site) : Prop := ∀ e ∈ s.list_Species, 0 ≤ e.nOld

instance (s : Site) : Decidable s.oldNonneg := by
  unfold Site.oldNonneg
  infer_instance

/-- The part of a site that `Migration` reads but never writes: the length of
its species vector and its neighbourhood list. -/
def Site.shape (s : Site) : Nat × List tNeighborhood := (s.list_Species.length, s.neighborhood)

/-- The ids that `Migration` dereferences are valid: every site has one record
per species, and every neighbour id names a site. -/
def Dynamic.idsValid (d : Dynamic) : Prop :=
  ∀ s ∈ d._Sites, s.list_Species.length = d._Species.length
    ∧ ∀ nb ∈ s.neighborhood, 1 ≤ nb.id ∧ nb.id ≤ (d._Sites.length : Int)

instance (d : Dynamic) : Decidable d.idsValid := by
  unfold Dynamic.idsValid
  infer_instance

/-- The part of the state that `Migration` reads but never writes: the shape
of every site and the number of species. -/
def Dynamic.shape (d : Dynamic) : List (Nat × List tNeighborhood) × Nat :=
  (d._Sites.map Site.shape, d._Species.length)

/-- The counters and neighbourhood of every site, and the number of species:
what `reorder_Sites` and `set_Pref` leave untouched. -/
def Dynamic.core (d : Dynamic) : List (List tListSpecies × List tNeighborhood) × Nat :=
  (d._Sites.map (fun s => (s.list_Species, s.neighborhood)), d._Species.length)

/-- The record left by the rate-accounting phase: `new` merged into `old`,
`oldIni` set to the merged value, `new` and `newborn` reset. -/
def mergedRecord (e : tListSpecies) : tListSpecies :=
  ⟨e.id, e.nOld + e.nNew, e.nOld + e.nNew, 0, 0⟩

/-- The reproductive exitus defined by a record: `newborn / oldIni`, and `1`
when `oldIni` is `0`. -/
def exitusOf (e : tListSpecies) : ℚ :=
  if e.nOld_ini = 0 then 1 else ((e.nNew_born : Int) : ℚ) / ((e.nOld_ini : Int) : ℚ)

/-- The part of the state that no step of a timestep changes: the number of
sites and the timestep. -/
def Dynamic.frame (d : Dynamic) : Nat × Int := (d._Sites.length, d.mc_timestep)

/-! ## Concrete states -/

/-- Externals with `PRECISION = 1000` and a `reorder_Species` that keeps the
order and draws nothing. -/
def extKeep : Externals := ⟨1000, fun l _ n => (l, n)⟩

/-- Externals with `PRECISION = 1000` and a `reorder_Species` that reverses
the order and draws nothing. -/
def extReverse : Externals := ⟨1000, fun l _ n => (l.reverse, n)⟩

/-- A species without prey and without predators. -/
def basalSpecies : Species := ⟨[], [], 0, 0, 0, 0, 0⟩

/-- One basal species on three sites. Site 1 (capacity 100) holds 5
individuals and has sites 2 and 3 as neighbours; site 2 (capacity 4) holds 10
individuals; site 3 (capacity 100) is empty. -/
def stateThreeSites : Dynamic :=
  { _Species := [basalSpecies],
    _Sites := [
      ⟨100, [⟨1, 5, 5, 0, 0⟩], [1], [⟨2, 1⟩, ⟨3, 1⟩], [1], [0], [0]⟩,
      ⟨4, [⟨1, 10, 10, 0, 0⟩], [1], [⟨1, 1⟩], [1], [0], [0]⟩,
      ⟨100, [⟨1, 0, 0, 0, 0⟩], [1], [⟨1, 1⟩], [1], [0], [0]⟩],
    sitesOrdered := [1, 2, 3],
    mc_timestep := 1,
    seedStream := fun k => k + 1,
    drawn := 0 }



/-- Two basal species on two sites that are neighbours of each other. Site 1
(capacity 100) holds one individual of species 1; site 2 (capacity 4) holds
10 individuals of each species, more than its capacity. -/
def stateTwoSites : Dynamic :=
  { _Species := [basalSpecies, basalSpecies],
    _Sites := [
      ⟨100, [⟨1, 1, 1, 0, 0⟩, ⟨2, 0, 0, 0, 0⟩], [1, 2], [⟨2, 1⟩], [1, 1], [0, 0], [0, 0]⟩,
      ⟨4, [⟨1, 10, 10, 0, 0⟩, ⟨2, 10, 10, 0, 0⟩], [1, 2], [⟨1, 1⟩], [1, 1], [0, 0], [0, 0]⟩],
    sitesOrdered := [1, 2],
    mc_timestep := 1,
    seedStream := fun k => k + 1,
    drawn := 0 }



/-- One site (capacity 100) with three species: species 1 is basal and is the
prey of species 2; species 3 has no trophic link. The site holds 2 prey, 1
predator and 1 individual of species 3. The first draw of the stream is `999`,
every later draw is `0`. -/
def statePredation : Dynamic :=
  { _Species := [⟨[], [2], 0, 0, 0, 0, 0⟩, ⟨[1], [], 0, 0, 0, 0, 0⟩, basalSpecies],
    _Sites := [
      ⟨100, [⟨1, 2, 2, 0, 0⟩, ⟨2, 1, 1, 0, 0⟩, ⟨3, 1, 1, 0, 0⟩], [1, 2, 3], [], [1, 1, 1],
        [0, 0, 0], [0, 0, 0]⟩],
    sitesOrdered := [1],
    mc_timestep := 0,
    seedStream := fun k => if k = 0 then 999 else 0,
    drawn := 0 }

/-- The state in which the trial of `MonteCarlo` for the predator (index 1) at
the site (index 0) of `statePredation` calls `DynamicPrey`: `SOC(sp, st)` has
stored the rates and the carrying capacity of the predator, and the draw of
the natural-death test has been consumed. -/
def statePredationAtCall : Dynamic := (MonteCarlo_naturalDeathTest extKeep statePredation 0 1).1

/-- A comparison that agrees with `in < 10.0*log(sumOld)` for `sumOld ≤ 2`:
`10 * log 2` lies between 6 and 7. -/
def guardUpToTwo (in_ sumOld : Int) : Bool := decide (sumOld = 2 ∧ in_ < 7)

/-- One site of capacity 1 with two basal species, one individual each: no
species is below the capacity and none fills the site. Every draw is `200`. -/
def stateAtCapacity : Dynamic :=
  { _Species := [basalSpecies, basalSpecies],
    _Sites := [⟨1, [⟨1, 1, 1, 0, 0⟩, ⟨2, 1, 1, 0, 0⟩], [1, 2], [], [1, 1], [0, 0], [0, 0]⟩],
    sitesOrdered := [1],
    mc_timestep := 0,
    seedStream := fun _ => 200,
    drawn := 0 }

/-- One site (capacity 100) with a chain of three species: species 1 is the
prey of species 2, which is the prey of species 3. The site holds 1, 2 and 1
individuals. Every draw is `200`. -/
def stateChain : Dynamic :=
  { _Species := [⟨[], [2], 0, 0, 0, 0, 0⟩, ⟨[1], [3], 0, 0, 0, 0, 0⟩, ⟨[2], [], 0, 0, 0, 0, 0⟩],
    _Sites := [
      ⟨100, [⟨1, 1, 1, 0, 0⟩, ⟨2, 2, 2, 0, 0⟩, ⟨3, 1, 1, 0, 0⟩], [1, 2, 3], [], [1, 1, 1],
        [0, 0, 0], [0, 0, 0]⟩],
    sitesOrdered := [1],
    mc_timestep := 0,
    seedStream := fun _ => 200,
    drawn := 0 }

/-- The state in which the trial of `MonteCarlo` for the top predator (index
2) at the site of `stateChain` calls `DynamicPrey`. -/
def stateChainAtCall : Dynamic := (MonteCarlo_naturalDeathTest extKeep stateChain 0 2).1

/-- One site (capacity 100) where species 1 has two prey, species 2 and 3,
and no predator. The site holds 14, 1 and 1 individuals. -/
def stateTwoPrey : Dynamic :=
  { _Species := [⟨[2, 3], [], 0, 0, 0, 0, 0⟩, ⟨[], [1], 0, 0, 0, 0, 0⟩, ⟨[], [1], 0, 0, 0, 0, 0⟩],
    _Sites := [
      ⟨100, [⟨1, 14, 14, 0, 0⟩, ⟨2, 1, 1, 0, 0⟩, ⟨3, 1, 1, 0, 0⟩], [1, 2, 3], [], [1, 1, 1],
        [0, 0, 0], [0, 0, 0]⟩],
    sitesOrdered := [1],
    mc_timestep := 0,
    seedStream := fun _ => 200,
    drawn := 0 }

/-- One site of capacity 100 with two basal species, one individual each.
Every draw is `200`. -/
def stateRoomToGrow : Dynamic :=
  { _Species := [basalSpecies, basalSpecies],
    _Sites := [⟨100, [⟨1, 1, 1, 0, 0⟩, ⟨2, 1, 1, 0, 0⟩], [1, 2], [], [1, 1], [0, 0], [0, 0]⟩],
    sitesOrdered := [1],
    mc_timestep := 0,
    seedStream := fun _ => 200,
    drawn := 0 }

/-- A single site, empty, with one basal species. -/
def stateOneSite (stream : Nat → Nat) : Dynamic :=
  { _Species := [basalSpecies],
    _Sites := [⟨10, [⟨1, 0, 0, 0, 0⟩], [1], [], [1], [0], [0]⟩],
    sitesOrdered := [1],
    mc_timestep := 0,
    seedStream := stream,
    drawn := 0 }



/-- The state `stateRoomToGrow` after one individual trial of species 1 at its
site: the individual survives and five newborns are registered. -/
def stateAfterBirths : Dynamic := MonteCarlo_trial extKeep stateRoomToGrow 0 0 0



/-- One site (capacity 10) held by a single basal species with 3 individuals
and no predator. Every draw is `200`. -/
def stateAlone : Dynamic :=
  { _Species := [basalSpecies],
    _Sites := [⟨10, [⟨1, 3, 3, 0, 0⟩], [1], [], [1], [0], [0]⟩],
    sitesOrdered := [1],
    mc_timestep := 0,
    seedStream := fun _ => 200,
    drawn := 0 }

/-- One site (capacity 100) with a prey (species 1) that has no individual
left and its predator (species 2) with 3 individuals. Every draw is `200`. -/
def statePredatorsOnly : Dynamic :=
  { _Species := [⟨[], [2], 0, 0, 0, 0, 0⟩, ⟨[1], [], 0, 0, 0, 0, 0⟩],
    _Sites := [⟨100, [⟨1, 0, 0, 0, 0⟩, ⟨2, 3, 3, 0, 0⟩], [1, 2], [], [1, 1], [0, 0], [0, 0]⟩],
    sitesOrdered := [1],
    mc_timestep := 0,
    seedStream := fun _ => 200,
    drawn := 0 }



/-- The state left by timestep 0 at the site of `stateRoomToGrow`: the
rate-accounting phase, then the trial loop run with `guardUpToTwo`. -/
def stateAfterTimestep : Dynamic :=
  ((MonteCarlo_site guardUpToTwo extKeep 20 0 stateRoomToGrow 0).map (fun r => r.1)).getD
    stateRoomToGrow

/-! ## Notions and states for the predation pressure and the capacity -/

/-- The records of a species vector carry the ids `k + 1`, `k + 2`, ... in
this order. -/
def idsFrom (k : Int) : List tListSpecies → Bool
  | [] => true
  | e :: es => decide (e.id = k + 1) && idsFrom (k + 1) es

/-- The species vector of the site holds id `i + 1` at index `i`. -/
def Site.idsInOrder (s : Site) : Prop := idsFrom 0 s.list_Species = true

instance (s : Site) : Decidable s.idsInOrder := by
  unfold Site.idsInOrder
  infer_instance

/-- The predation pressure on a prey as the specification words it, with
direct indexing by `id - 1`: the `old` counters of the predators of `p`,
summed across the predator list of `p`, divided by the total population of the
site, and `0` when that total is zero. -/
def predationPressureOnPrey (d : Dynamic) (st p : Int) : ℚ :=
  if (d.site st).get_TotalPopulation = 0 then 0
  else
    (((((d.species p).predators.map (fun q => (d.site st).get_Nold (q - 1))).sum : Int)) : ℚ)
      / (((d.site st).get_TotalPopulation : Int) : ℚ)

/-! ## `SOC_CC` with the rounding of `float` -/

/-- The integer nearest to a rational, a tie going to the even neighbour. -/
def roundHalfEven (m : ℚ) : Int :=
  if m - (⌊m⌋ : ℚ) < 1 / 2 then ⌊m⌋
  else if 1 / 2 < m - (⌊m⌋ : ℚ) then ⌊m⌋ + 1
  else if ⌊m⌋ % 2 = 0 then ⌊m⌋ else ⌊m⌋ + 1

/-- Scale the positive rational `m`, with `unit` a power of two, keeping
`m * unit`, until `2^(p-1) ≤ m < 2^p`: `m` is then the significand of `p` bits
before rounding and `unit` the weight of its last bit. -/
def scaleSignificand (p : Nat) : Nat → ℚ → ℚ → ℚ × ℚ
  | 0, m, unit => (m, unit)
  | fuel + 1, m, unit =>
    if (2 : ℚ) ^ p ≤ m then scaleSignificand p fuel (m / 2) (unit * 2)
    else if m < (2 : ℚ) ^ (p - 1) then scaleSignificand p fuel (m * 2) (unit / 2)
    else (m, unit)

/-- The value of a rational after rounding to a binary floating-point format
with `p` significant bits, to nearest, ties to even. The exponent range of
the format is not modelled: the values met here are far from overflow and
from the subnormal numbers. -/
def roundToBits (p : Nat) (q : ℚ) : ℚ :=
  if q = 0 then 0
  else
    let s := scaleSignificand p (q.num.natAbs + q.den + p) |q| 1
    let r := ((roundHalfEven s.1 : Int) : ℚ) * s.2
    if 0 < q then r else -r

/-- A value stored in a C `float` (IEEE binary32, 24 significant bits). -/
def toFloat (q : ℚ) : ℚ := roundToBits 24 q

/-- A value computed in C `double` (IEEE binary64, 53 significant bits). -/
def toDouble (q : ℚ) : ℚ := roundToBits 53 q

/-- Modelled from the spec: `Site::get_Density` (not in `Dynamic.cpp`) as a
function returning `float`: `old[k] / totalPopulation` rounded to `float`,
and `0` when the total population is `0`. -/
def Site.get_Density_float (s : Site) (sp : Int) : ℚ :=
  if s.get_TotalPopulation = 0 then 0
  else toFloat (toFloat ((s.get_Nold sp : Int) : ℚ) / toFloat ((s.get_TotalPopulation : Int) : ℚ))

/-- The function `Dynamic::get_DensityPredOfPrey` with the rounding of
`density=(float)num_IndPredOfPrey/num_TotalIndPredOfPrey`. -/
def get_DensityPredOfPrey_float (d : Dynamic) (st prey : Int) : ℚ :=
  let num_IndPredOfPrey := get_NumberIndPredators d st prey
  let num_TotalIndPredOfPrey := (d.site st).get_TotalPopulation
  if num_TotalIndPredOfPrey ≠ 0 then
    toFloat (toFloat ((num_IndPredOfPrey : Int) : ℚ) / toFloat ((num_TotalIndPredOfPrey : Int) : ℚ))
  else 0

/-- The loop of `SOC_CC` over the prey list with the rounding of the two
`float` accumulators `d_prey` and `d_predOfprey`. -/
def accum_cc_float (d : Dynamic) (sp st : Int) : ℚ × ℚ :=
  (d.species sp).preys.foldl
    (fun acc prey =>
      (toFloat (acc.1 + (d.site st).get_Density_float (prey - 1)),
       toFloat (acc.2 + get_DensityPredOfPrey_float d st (prey - 1)))) (0, 0)

/-- The function `Dynamic::SOC_CC` with the rounding of its `float`
variables: `1.0/(float)TotalInds` is a `double` division stored in a `float`,
`a*d_prey/d_predOfprey` is computed in `float`, and `floor` is applied to the
rounded quotient. -/
def SOC_CC_float (d : Dynamic) (sp st : Int) : Int :=
  let num_SpeciesPreys := (d.species sp).get_NumberPreys
  if num_SpeciesPreys = 0 then
    let cc : ℚ := toFloat (toDouble ((((d.site st).get_CarryingCapacity : Int) : ℚ) / 1))
    ⌊cc⌋
  else
    let d_prey := (accum_cc_float d sp st).1
    let d_predOfprey := (accum_cc_float d sp st).2
    let d_predOfprey :=
      if d_predOfprey = 0 then
        let TotalInds := (d.site st).get_TotalPopulation
        toFloat (toDouble (1 / toFloat ((TotalInds : Int) : ℚ)))
      else d_predOfprey
    let a : ℚ := 1
    let cc := toFloat (toFloat (a * d_prey) / d_predOfprey)
    ⌊cc⌋

/-- The accumulation `bx += d_prey*(1.0-d_predOfprey)` of `SOC_BP` with its
rounding: `d_prey` and `d_predOfprey` are `float`, the product with the
`double` value `1.0-d_predOfprey` and the sum with `bx` are computed in
`double`, and the result is stored in the `float` variable `bx`. -/
def accum_bx_float (d : Dynamic) (sp st : Int) : ℚ :=
  (d.species sp).preys.foldl
    (fun bx prey =>
      let d_prey := (d.site st).get_Density_float (prey - 1)
      let d_predOfprey := get_DensityPredOfPrey_float d st (prey - 1)
      toFloat (toDouble (bx + toDouble (d_prey * toDouble (1 - d_predOfprey))))) 0

/-- The accumulation `by += d_pred` of `SOC_BP` with the rounding of the
`float` sum. -/
def accum_dy_float (d : Dynamic) (sp st : Int) : ℚ :=
  (d.species sp).predators.foldl
    (fun dy pred => toFloat (dy + (d.site st).get_Density_float (pred - 1))) 0

/-- The function `Dynamic::SOC_BP` with the rounding of its `float`
variables; the expressions that contain the literal `1.0` are computed in
`double` and stored in a `float`. -/
def SOC_BP_float (d : Dynamic) (sp st : Int) : ℚ :=
  let num_SpeciesPreys := (d.species sp).get_NumberPreys
  let num_SpeciesPredators := (d.species sp).get_NumberPredators
  let bx := accum_bx_float d sp st
  let by_ := accum_dy_float d sp st
  let Bp := toFloat (toDouble (1 - (d.site st).get_Density_float sp))
  let Bp := if num_SpeciesPreys > 0 then toFloat (Bp * bx) else Bp
  let Bp := if num_SpeciesPredators > 0 ∧ by_ > 0
    then toFloat (toDouble (Bp * toDouble (1 - by_))) else Bp
  toFloat (toDouble (Bp * 1))

/-- One site (capacity 100) where the basal species 1 is absent and its three
predators, species 2, 3 and 4, hold 2, 4 and 1 individuals. -/
def stateSevenPredators : Dynamic :=
  { _Species := [⟨[], [2, 3, 4], 0, 0, 0, 0, 0⟩, ⟨[1], [], 0, 0, 0, 0, 0⟩,
      ⟨[1], [], 0, 0, 0, 0, 0⟩, ⟨[1], [], 0, 0, 0, 0, 0⟩],
    _Sites := [
      ⟨100, [⟨1, 0, 0, 0, 0⟩, ⟨2, 2, 2, 0, 0⟩, ⟨3, 4, 4, 0, 0⟩, ⟨4, 1, 1, 0, 0⟩], [1, 2, 3, 4], [],
        [1, 1, 1, 1], [0, 0, 0, 0], [0, 0, 0, 0]⟩],
    sitesOrdered := [1],
    mc_timestep := 0,
    seedStream := fun _ => 200,
    drawn := 0 }

/-- One site (capacity 100) with three species: species 1 is basal and is the
prey of species 2; species 3 has no trophic link. The site holds 5 prey, no
predator and 1 individual of species 3. -/
def stateFivePrey : Dynamic :=
  { _Species := [⟨[], [2], 0, 0, 0, 0, 0⟩, ⟨[1], [], 0, 0, 0, 0, 0⟩, basalSpecies],
    _Sites := [
      ⟨100, [⟨1, 5, 5, 0, 0⟩, ⟨2, 0, 0, 0, 0⟩, ⟨3, 1, 1, 0, 0⟩], [1, 2, 3], [], [1, 1, 1],
        [0, 0, 0], [0, 0, 0]⟩],
    sitesOrdered := [1],
    mc_timestep := 0,
    seedStream := fun _ => 200,
    drawn := 0 }

/-- A neighbour record with its edge weight blanked. -/
def tNeighborhood.eraseWeight (nb : tNeighborhood) : tNeighborhood := { nb with weight := 0 }

/-- A site with its preference values and the weights of its edges blanked. -/
def Site.eraseMigrationInputs (s : Site) : Site :=
  { s with pref := [], neighborhood := s.neighborhood.map tNeighborhood.eraseWeight }

/-- A species with its migration probability blanked. -/
def Species.eraseMigrationInputs (s : Species) : Species := { s with migrationProbability := 0 }

/-- The state with the edge weights, the preference values and the migration
probabilities blanked: two states have the same image exactly when they
differ at most in these values (and in the number of preference values
stored). -/
def Dynamic.eraseMigrationInputs (d : Dynamic) : Dynamic :=
  { d with _Species := d._Species.map Species.eraseMigrationInputs,
           _Sites := d._Sites.map Site.eraseMigrationInputs }

/-- The first statement of the loop body of `set_Pref`: the call of
`reorder_Species` for the site. -/
def set_Pref_reorder (E : Externals) (d : Dynamic) (ix_St1 : Int) : Dynamic :=
  let sh := E.shuffle (d.site ix_St1).speciesOrdered d.seedStream d.drawn
  { d.updSite ix_St1 (fun s => { s with speciesOrdered := sh.1 }) with drawn := sh.2 }

/-- The state `stateThreeSites` with other edge weights, preference values
and migration probability. -/
def stateThreeSitesReweighted : Dynamic :=
  { _Species := [⟨[], [], 0, 0, 0, 1 / 3, 0⟩],
    _Sites := [
      ⟨100, [⟨1, 5, 5, 0, 0⟩], [1], [⟨2, 7⟩, ⟨3, -2⟩], [1], [4], [0]⟩,
      ⟨4, [⟨1, 10, 10, 0, 0⟩], [1], [⟨1, 9⟩], [1], [-1], [0]⟩,
      ⟨100, [⟨1, 0, 0, 0, 0⟩], [1], [⟨1, 0⟩], [1], [12], [0]⟩],
    sitesOrdered := [1, 2, 3],
    mc_timestep := 1,
    seedStream := fun k => k + 1,
    drawn := 0 }

/-! ## The other rate calculators and the number of migrants with the rounding of `float` -/

/-- The unit roundoff of `float`: half the distance from 1 to the next
`float`, the largest relative error of one rounding. -/
def unitRoundoff : ℚ := 1 / 2 ^ 24

/-- A function that rounds with relative error at most `ρ`. -/
def RoundsWithin (ρ : ℚ) (R : ℚ → ℚ) : Prop := ∀ x, |R x - x| ≤ ρ * |x|

/-- The accumulation `dx += (d_predOfprey*(1-d_prey))` of `SOC_NDP` and
`SOC_DP` with its rounding: the difference, the product and the sum are
`float` operations. -/
def accum_dx_float (d : Dynamic) (sp st : Int) : ℚ :=
  (d.species sp).preys.foldl
    (fun dx prey =>
      let d_prey := (d.site st).get_Density_float (prey - 1)
      let d_predOfprey := get_DensityPredOfPrey_float d st (prey - 1)
      toFloat (dx + toFloat (d_predOfprey * toFloat (1 - d_prey)))) 0

/-- The function `Dynamic::SOC_NDP` with the rounding of its `float`
variables. -/
def SOC_NDP_float (d : Dynamic) (sp st : Int) : ℚ :=
  let num_SpeciesPredators := (d.species sp).get_NumberPredators
  let dx := accum_dx_float d sp st
  let proportion := (d.site st).get_Density_float sp
  let Dp := toFloat (proportion * dx)
  if num_SpeciesPredators = 0 ∧ proportion = 1 then 1 else Dp

/-- The function `Dynamic::SOC_DP` with the rounding of its `float`
variables; `Dp *= 1.0-dy` is computed in `double` and stored in a `float`. -/
def SOC_DP_float (d : Dynamic) (sp st : Int) : ℚ :=
  let num_SpeciesPreys := (d.species sp).get_NumberPreys
  let num_SpeciesPredators := (d.species sp).get_NumberPredators
  let dx := accum_dx_float d sp st
  let dy := accum_dy_float d sp st
  let Dp := (d.site st).get_Density_float sp
  let Dp := if num_SpeciesPredators > 0 then toFloat (toDouble (Dp * toDouble (1 - dy))) else Dp
  let Dp := if num_SpeciesPreys > 0 then toFloat (Dp * dx) else 1
  toFloat (toDouble (Dp * 1))

/-- The state `statePredation` with 3 prey, 3 predators and 1 individual of
species 3. -/
def stateThreeThreeOne : Dynamic :=
  { _Species := [⟨[], [2], 0, 0, 0, 0, 0⟩, ⟨[1], [], 0, 0, 0, 0, 0⟩, basalSpecies],
    _Sites := [
      ⟨100, [⟨1, 3, 3, 0, 0⟩, ⟨2, 3, 3, 0, 0⟩, ⟨3, 1, 1, 0, 0⟩], [1, 2, 3], [], [1, 1, 1],
        [0, 0, 0], [0, 0, 0]⟩],
    sitesOrdered := [1],
    mc_timestep := 0,
    seedStream := fun _ => 200,
    drawn := 0 }

/-- The chain of `stateChain` with 0, 1 and 5 individuals. -/
def stateChainOneFive : Dynamic :=
  { _Species := [⟨[], [2], 0, 0, 0, 0, 0⟩, ⟨[1], [3], 0, 0, 0, 0, 0⟩, ⟨[2], [], 0, 0, 0, 0, 0⟩],
    _Sites := [
      ⟨100, [⟨1, 0, 0, 0, 0⟩, ⟨2, 1, 1, 0, 0⟩, ⟨3, 5, 5, 0, 0⟩], [1, 2, 3], [], [1, 1, 1],
        [0, 0, 0], [0, 0, 0]⟩],
    sitesOrdered := [1],
    mc_timestep := 0,
    seedStream := fun _ => 200,
    drawn := 0 }

/-- One site (capacity 100) where species 1, the prey of species 2, holds 5
individuals and species 2 holds 1. -/
def stateFivePreyOnePredator : Dynamic :=
  { _Species := [⟨[], [2], 0, 0, 0, 0, 0⟩, ⟨[1], [], 0, 0, 0, 0, 0⟩],
    _Sites := [
      ⟨100, [⟨1, 5, 5, 0, 0⟩, ⟨2, 1, 1, 0, 0⟩], [1, 2], [], [1, 1], [0, 0], [0, 0]⟩],
    sitesOrdered := [1],
    mc_timestep := 0,
    seedStream := fun _ => 200,
    drawn := 0 }

/-- One site of capacity `2^24 + 1` with one basal species. -/
def stateLargeCapacity : Dynamic :=
  { _Species := [basalSpecies],
    _Sites := [⟨16777217, [⟨1, 1, 1, 0, 0⟩], [1], [], [1], [0], [0]⟩],
    sitesOrdered := [1],
    mc_timestep := 0,
    seedStream := fun _ => 200,
    drawn := 0 }

/-- The function `Dynamic::SOC_MP` with the rounding of its `float`
variables: `1.0-reproductiveExitus` and `Mp*0.5` are computed in `double` and
stored in a `float`. -/
def SOC_MP_float (d : Dynamic) (sp st : Int) : ℚ :=
  let reproductiveExitus := toFloat ((d.site st).get_ReproductiveExitus sp)
  let Mp := toFloat (toDouble (1 - reproductiveExitus))
  toFloat (toDouble (Mp * (1 / 2)))

/-- The function `Dynamic::SOC` with the five values computed in `float`. -/
def SOC_float (d : Dynamic) (sp st : Int) : Dynamic :=
  let bp := SOC_BP_float d sp st
  let dp := SOC_DP_float d sp st
  let mp := SOC_MP_float d sp st
  let ndp := SOC_NDP_float d sp st
  let cc := SOC_CC_float d sp st
  d.updSpecies sp (fun s => s.set_Data dp bp ndp mp cc)

/-- The expression `(float)(random()%PRECISION)/PRECISION` with the rounding
of the conversions and of the `float` division. -/
def Dynamic.randomFraction_float (E : Externals) (d : Dynamic) : ℚ × Dynamic :=
  (toFloat (toFloat ((d.random.1 % E.PRECISION : Nat) : ℚ) / toFloat (E.PRECISION : ℚ)),
    d.random.2)

theorem length_modifyNth {α : Type} (f : α → α) (l : List α) (n : Nat) :
    (modifyNth f l n).length = l.length := by
  induction l generalizing n with
  | nil => simp [modifyNth]
  | cons a l ih => cases n <;> simp [modifyNth, ih]

theorem getD_modifyNth {α : Type} (f : α → α) (l : List α) (n m : Nat) (dflt : α) :
    (modifyNth f l n).getD m dflt
      = if n = m ∧ n < l.length then f (l.getD n dflt) else l.getD m dflt := by
  induction l generalizing n m with
  | nil => simp [modifyNth]
  | cons a l ih =>
    cases n with
    | zero =>
      cases m with
      | zero => simp [modifyNth]
      | succ m => simp [modifyNth]
    | succ n =>
      cases m with
      | zero => simp [modifyNth]
      | succ m =>
        have h := ih n m
        simp only [modifyNth, List.getD_cons_succ, List.length_cons, Nat.succ_lt_succ_iff,
          Nat.succ.injEq, h]

theorem map_modifyNth_of_frame {α β : Type} (f : α → α) (h : α → β)
    (hf : ∀ x, h (f x) = h x) (l : List α) (n : Nat) :
    (modifyNth f l n).map h = l.map h := by
  induction l generalizing n with
  | nil => simp [modifyNth]
  | cons a l ih => cases n <;> simp [modifyNth, ih, hf]

theorem sum_map_modifyNth {α : Type} (f : α → α) (g : α → Int) (l : List α) (n : Nat)
    (dflt : α) :
    ((modifyNth f l n).map g).sum
      = (l.map g).sum
        + (if n < l.length then g (f (l.getD n dflt)) - g (l.getD n dflt) else 0) := by
  induction l generalizing n with
  | nil => simp [modifyNth]
  | cons a l ih =>
    cases n with
    | zero =>
      simp [modifyNth]
      ring
    | succ n =>
      simp only [modifyNth, List.map_cons, List.sum_cons, ih n, List.length_cons,
        Nat.succ_lt_succ_iff, List.getD_cons_succ]
      ring

theorem length_modifyI {α : Type} (f : α → α) (l : List α) (i : Int) :
    (modifyI l i f).length = l.length := by
  unfold modifyI
  split <;> simp [length_modifyNth]

theorem atI_modifyI {α : Type} [Inhabited α] (f : α → α) (l : List α) (i j : Int) :
    atI (modifyI l i f) j = if i = j ∧ inRange l i then f (atI l i) else atI l j := by
  unfold atI modifyI inRange
  by_cases hi : i < 0
  · have hc : ¬ (i = j ∧ 0 ≤ i ∧ i < (l.length : Int)) := by omega
    simp only [hi, if_true, if_neg hc]
  · by_cases hj : j < 0
    · have hc : ¬ (i = j ∧ 0 ≤ i ∧ i < (l.length : Int)) := by omega
      simp only [hi, hj, if_true, if_false, if_neg hc]
    · simp only [hi, hj, if_false, getD_modifyNth]
      have e1 : (i.toNat = j.toNat) ↔ i = j := by omega
      have e2 : (i.toNat < l.length) ↔ (0 ≤ i ∧ i < (l.length : Int)) := by omega
      simp only [e1, e2]

theorem atI_of_not_inRange {α : Type} [Inhabited α] (l : List α) (i : Int)
    (h : ¬ inRange l i) : atI l i = default := by
  unfold atI
  unfold inRange at h
  by_cases hi : i < 0
  · simp [hi]
  · simp only [hi, if_false]
    apply List.getD_eq_default
    omega

theorem map_modifyI_of_frame {α β : Type} (f : α → α) (h : α → β)
    (hf : ∀ x, h (f x) = h x) (l : List α) (i : Int) :
    (modifyI l i f).map h = l.map h := by
  unfold modifyI
  split
  · rfl
  · exact map_modifyNth_of_frame f h hf l _

theorem sum_map_modifyI {α : Type} [Inhabited α] (f : α → α) (g : α → Int) (l : List α)
    (i : Int) :
    ((modifyI l i f).map g).sum
      = (l.map g).sum + (if inRange l i then g (f (atI l i)) - g (atI l i) else 0) := by
  unfold modifyI atI inRange
  by_cases hi : i < 0
  · have hc : ¬ (0 ≤ i ∧ i < (l.length : Int)) := by omega
    simp only [hi, if_true, if_neg hc, add_zero]
  · simp only [hi, if_false]
    rw [sum_map_modifyNth f g l i.toNat default]
    have e2 : (i.toNat < l.length) ↔ (0 ≤ i ∧ i < (l.length : Int)) := by omega
    simp only [e2]

theorem atI_map {α β : Type} [Inhabited α] [Inhabited β] (h : α → β)
    (hd : h default = default) (l : List α) (i : Int) :
    atI (l.map h) i = h (atI l i) := by
  unfold atI
  by_cases hi : i < 0
  · simp [hi, hd]
  · simp only [hi, if_false]
    by_cases hlt : i.toNat < l.length
    · rw [List.getD_eq_getElem _ _ (by simpa using hlt), List.getD_eq_getElem _ _ hlt]
      simp
    · rw [List.getD_eq_default _ _ (by simpa using hlt), List.getD_eq_default _ _ (by omega)]
      exact hd.symm

/-! ## Accumulation loops as sums -/

theorem foldl_add_eq_sum {α : Type} (f : α → ℚ) (l : List α) (a : ℚ) :
    l.foldl (fun acc x => acc + f x) a = a + (l.map f).sum := by
  induction l generalizing a with
  | nil => simp
  | cons x xs ih => simp [List.foldl_cons, ih, add_assoc]

theorem foldl_pair_eq_sum {α : Type} (f g : α → ℚ) (l : List α) (a b : ℚ) :
    l.foldl (fun acc x => (acc.1 + f x, acc.2 + g x)) (a, b)
      = (a + (l.map f).sum, b + (l.map g).sum) := by
  induction l generalizing a b with
  | nil => simp
  | cons x xs ih => simp [List.foldl_cons, ih, add_assoc]

theorem length_cast_eq_zero {α : Type} (l : List α) : ((l.length : Int) = 0) ↔ l = [] := by
  cases l <;> simp
  omega

theorem length_cast_pos {α : Type} (l : List α) : ((l.length : Int) > 0) ↔ l ≠ [] := by
  cases l <;> simp

theorem accum_dx_eq (d : Dynamic) (sp st : Int) :
    accum_dx d sp st
      = ((d.species sp).preys.map (fun p =>
          get_DensityPredOfPrey d st (p - 1) * (1 - (d.site st).get_Density (p - 1)))).sum := by
  unfold accum_dx
  simp only []
  rw [foldl_add_eq_sum]
  simp

theorem accum_dy_eq (d : Dynamic) (sp st : Int) :
    accum_dy d sp st
      = ((d.species sp).predators.map (fun q => (d.site st).get_Density (q - 1))).sum := by
  unfold accum_dy
  rw [foldl_add_eq_sum]
  simp

theorem accum_bx_eq (d : Dynamic) (sp st : Int) :
    accum_bx d sp st
      = ((d.species sp).preys.map (fun p =>
          (d.site st).get_Density (p - 1) * (1 - get_DensityPredOfPrey d st (p - 1)))).sum := by
  unfold accum_bx
  simp only []
  rw [foldl_add_eq_sum]
  simp

theorem accum_cc_eq (d : Dynamic) (sp st : Int) :
    accum_cc d sp st
      = (((d.species sp).preys.map (fun p => (d.site st).get_Density (p - 1))).sum,
         ((d.species sp).preys.map (fun p => get_DensityPredOfPrey d st (p - 1))).sum) := by
  unfold accum_cc
  rw [foldl_pair_eq_sum]
  simp

/-- With the `float` operations read as exact, `SOC_NDP(sp, st)` is `1` when
`sp` has no predators and its density at the site is `1`; otherwise it is the
density of `sp` times the sum, over the prey `p` of `sp`, of the predation
pressure on `p` times `1 - density(p)`. -/
theorem SOC_NDP_exact_formula (d : Dynamic) (sp st : Int) :
    SOC_NDP d sp st
      = if (d.species sp).predators = [] ∧ (d.site st).get_Density sp = 1 then 1
        else (d.site st).get_Density sp
              * ((d.species sp).preys.map (fun p =>
                  get_DensityPredOfPrey d st (p - 1)
                    * (1 - (d.site st).get_Density (p - 1)))).sum := by
  unfold SOC_NDP
  simp only [accum_dx_eq, Species.get_NumberPredators, length_cast_eq_zero]

/-- With the `float` operations read as exact, `SOC_DP(sp, st)` is `1` when
`sp` has no prey; otherwise it is `density(sp) * dx`, multiplied by
`1 - (sum of the densities of the predators of sp)` when `sp` has a predator,
with `dx` the sum over the prey `p` of the predation pressure on `p` times
`1 - density(p)`. -/
theorem SOC_DP_exact_formula (d : Dynamic) (sp st : Int) :
    SOC_DP d sp st
      = if (d.species sp).preys = [] then 1
        else if (d.species sp).predators = [] then
          (d.site st).get_Density sp
            * ((d.species sp).preys.map (fun p =>
                get_DensityPredOfPrey d st (p - 1)
                  * (1 - (d.site st).get_Density (p - 1)))).sum
        else
          (d.site st).get_Density sp
            * ((d.species sp).preys.map (fun p =>
                get_DensityPredOfPrey d st (p - 1)
                  * (1 - (d.site st).get_Density (p - 1)))).sum
            * (1 - ((d.species sp).predators.map
                      (fun q => (d.site st).get_Density (q - 1))).sum) := by
  unfold SOC_DP
  simp only [accum_dx_eq, accum_dy_eq, Species.get_NumberPredators, Species.get_NumberPreys,
    length_cast_pos]
  by_cases h1 : (d.species sp).preys = [] <;> by_cases h2 : (d.species sp).predators = []
    <;> simp [h1, h2]
  ring

/-- With the `float` operations read as exact, `SOC_CC(sp, st)` is the fixed
carrying capacity of the site when `sp` has no prey; otherwise it is the floor
of the sum of the prey densities divided by `D`, the sum of the predation
pressures over the prey list, `D` being replaced by `1 / totalSitePopulation`
when that sum is zero. -/
theorem SOC_CC_exact_formula (d : Dynamic) (sp st : Int) :
    SOC_CC d sp st
      = if (d.species sp).preys = [] then (d.site st).get_CarryingCapacity
        else
          ⌊((d.species sp).preys.map (fun p => (d.site st).get_Density (p - 1))).sum
            / (if ((d.species sp).preys.map
                    (fun p => get_DensityPredOfPrey d st (p - 1))).sum = 0
               then 1 / (((d.site st).get_TotalPopulation : Int) : ℚ)
               else ((d.species sp).preys.map
                    (fun p => get_DensityPredOfPrey d st (p - 1))).sum)⌋ := by
  unfold SOC_CC
  simp only [accum_cc_eq, Species.get_NumberPreys, length_cast_eq_zero]
  by_cases h1 : (d.species sp).preys = []
  · simp [h1]
  · simp [h1]

/-- With the `float` operations read as exact, `SOC_BP(sp, st)` is
`1 - density(sp)`, multiplied by the sum over the prey `p` of
`density(p) * (1 - predation pressure on p)` when `sp` has a prey, and
multiplied by `1 - by` when `sp` has a predator and the summed density `by` of
its predators is positive. -/
theorem SOC_BP_exact_formula (d : Dynamic) (sp st : Int) :
    SOC_BP d sp st
      = (1 - (d.site st).get_Density sp)
        * (if (d.species sp).preys ≠ [] then
            ((d.species sp).preys.map (fun p =>
              (d.site st).get_Density (p - 1)
                * (1 - get_DensityPredOfPrey d st (p - 1)))).sum
           else 1)
        * (if (d.species sp).predators ≠ []
              ∧ ((d.species sp).predators.map
                    (fun q => (d.site st).get_Density (q - 1))).sum > 0
           then 1 - ((d.species sp).predators.map
                        (fun q => (d.site st).get_Density (q - 1))).sum
           else 1) := by
  unfold SOC_BP
  simp only [accum_bx_eq, accum_dy_eq, Species.get_NumberPredators, Species.get_NumberPreys,
    length_cast_pos]
  by_cases h1 : (d.species sp).preys = []
    <;> by_cases h2 : (d.species sp).predators ≠ []
              ∧ ((d.species sp).predators.map
                    (fun q => (d.site st).get_Density (q - 1))).sum > 0
    <;> simp [h1, h2]

/-! ## Frame lemmas for sites and states -/

theorem atI_mem_or_default {α : Type} [Inhabited α] (l : List α) (i : Int) :
    (inRange l i ∧ atI l i ∈ l) ∨ (¬ inRange l i ∧ atI l i = default) := by
  by_cases h : inRange l i
  · left
    refine ⟨h, ?_⟩
    unfold atI
    unfold inRange at h
    have hi : ¬ i < 0 := by omega
    have hlt : i.toNat < l.length := by omega
    simp only [hi, if_false]
    rw [List.getD_eq_getElem _ _ hlt]
    exact List.getElem_mem _
  · right
    exact ⟨h, atI_of_not_inRange l i h⟩

theorem site_updSite (d : Dynamic) (t t2 : Int) (f : Site → Site) :
    (d.updSite t f).site t2
      = if t = t2 ∧ inRange d._Sites t then f (d.site t) else d.site t2 := by
  unfold Dynamic.updSite Dynamic.site
  exact atI_modifyI f d._Sites t t2

theorem species_updSite (d : Dynamic) (t sp : Int) (f : Site → Site) :
    (d.updSite t f).species sp = d.species sp := rfl

theorem get_Nnew_set_Nnew (s : Site) (sp q v : Int) :
    (s.set_Nnew sp v).get_Nnew q
      = if sp = q ∧ inRange s.list_Species sp then v else s.get_Nnew q := by
  unfold Site.set_Nnew Site.get_Nnew
  simp only [atI_modifyI]
  split <;> rfl

theorem get_Nold_set_Nnew (s : Site) (sp q v : Int) :
    (s.set_Nnew sp v).get_Nold q = s.get_Nold q := by
  unfold Site.set_Nnew Site.get_Nold
  simp only [atI_modifyI]
  split
  · rename_i h
    rw [h.1]
  · rfl

theorem get_Nold_set_Nold (s : Site) (sp q v : Int) :
    (s.set_Nold sp v).get_Nold q
      = if sp = q ∧ inRange s.list_Species sp then v else s.get_Nold q := by
  unfold Site.set_Nold Site.get_Nold
  simp only [atI_modifyI]
  split <;> rfl

theorem get_Nnew_set_Nold (s : Site) (sp q v : Int) :
    (s.set_Nold sp v).get_Nnew q = s.get_Nnew q := by
  unfold Site.set_Nold Site.get_Nnew
  simp only [atI_modifyI]
  split
  · rename_i h
    rw [h.1]
  · rfl

theorem olds_set_Nnew (s : Site) (sp v : Int) : (s.set_Nnew sp v).olds = s.olds := by
  unfold Site.set_Nnew Site.olds
  exact map_modifyI_of_frame (fun e : tListSpecies => { e with nNew := v })
    (fun e => e.nOld) (fun _ => rfl) s.list_Species sp

theorem get_Nold_eq_olds (s : Site) (sp : Int) : s.get_Nold sp = atI s.olds sp := by
  unfold Site.get_Nold Site.olds
  rw [atI_map (fun e : tListSpecies => e.nOld) rfl]

theorem get_TotalPopulation_eq_olds (s : Site) : s.get_TotalPopulation = s.olds.sum := rfl

theorem get_Density_eq_olds (s : Site) (sp : Int) :
    s.get_Density sp
      = if s.olds.sum = 0 then 0 else ((atI s.olds sp : Int) : ℚ) / ((s.olds.sum : Int) : ℚ) := by
  unfold Site.get_Density
  rw [get_Nold_eq_olds, get_TotalPopulation_eq_olds]

theorem get_Nold_of_olds_eq (s1 s2 : Site) (h : s1.olds = s2.olds) (sp : Int) :
    s1.get_Nold sp = s2.get_Nold sp := by
  rw [get_Nold_eq_olds, get_Nold_eq_olds, h]

theorem get_Density_of_olds_eq (s1 s2 : Site) (h : s1.olds = s2.olds) (sp : Int) :
    s1.get_Density sp = s2.get_Density sp := by
  rw [get_Density_eq_olds, get_Density_eq_olds, h]

/-! ## Bounds on the density -/

theorem get_Nold_bounds (s : Site) (h : s.oldNonneg) (sp : Int) :
    0 ≤ s.get_Nold sp ∧ s.get_Nold sp ≤ s.get_TotalPopulation := by
  have hsum : ∀ x ∈ s.list_Species.map (fun e => e.nOld), (0 : Int) ≤ x := by
    intro x hx
    rcases List.mem_map.1 hx with ⟨e, he, rfl⟩
    exact h e he
  have htot : 0 ≤ s.get_TotalPopulation := List.sum_nonneg hsum
  unfold Site.get_Nold
  rcases atI_mem_or_default s.list_Species sp with ⟨_, hm⟩ | ⟨_, hd⟩
  · refine ⟨h _ hm, ?_⟩
    exact List.single_le_sum hsum _ (List.mem_map.2 ⟨_, hm, rfl⟩)
  · rw [hd]
    exact ⟨le_refl _, htot⟩

theorem get_Density_bounds (s : Site) (h : s.oldNonneg) (sp : Int) :
    0 ≤ s.get_Density sp ∧ s.get_Density sp ≤ 1 := by
  have hb := get_Nold_bounds s h sp
  unfold Site.get_Density
  by_cases ht : s.get_TotalPopulation = 0
  · simp [ht]
  · simp only [ht, if_false]
    have hpos : (0 : ℚ) < ((s.get_TotalPopulation : Int) : ℚ) := by
      have : 0 < s.get_TotalPopulation := by omega
      exact_mod_cast this
    have h0 : (0 : ℚ) ≤ ((s.get_Nold sp : Int) : ℚ) := by exact_mod_cast hb.1
    have h1 : ((s.get_Nold sp : Int) : ℚ) ≤ ((s.get_TotalPopulation : Int) : ℚ) := by
      exact_mod_cast hb.2
    exact ⟨div_nonneg h0 hpos.le, (div_le_one hpos).2 h1⟩

theorem cTrunc_of_nonneg (q : ℚ) (h : 0 ≤ q) : cTrunc q = ⌊q⌋ := by
  unfold cTrunc
  simp [h]

/-- Under non-negative counters and `realMigration ≤ old`, the truncated
product lies between `0` and the remaining population. -/
theorem number_mig_raw_bounds (s : Site) (h : s.oldNonneg) (sp rm : Int)
    (hrm : rm ≤ s.get_Nold sp) :
    0 ≤ ⌊(((s.get_Nold sp - rm : Int) : ℚ)) * s.get_Density sp⌋
      ∧ ⌊(((s.get_Nold sp - rm : Int) : ℚ)) * s.get_Density sp⌋ ≤ s.get_Nold sp - rm := by
  have hd := get_Density_bounds s h sp
  have hr : (0 : ℚ) ≤ ((s.get_Nold sp - rm : Int) : ℚ) := by
    have : 0 ≤ s.get_Nold sp - rm := by omega
    exact_mod_cast this
  constructor
  · exact Int.floor_nonneg.2 (mul_nonneg hr hd.1)
  · have hle : ((s.get_Nold sp - rm : Int) : ℚ) * s.get_Density sp
        ≤ ((s.get_Nold sp - rm : Int) : ℚ) := by
      calc ((s.get_Nold sp - rm : Int) : ℚ) * s.get_Density sp
          ≤ ((s.get_Nold sp - rm : Int) : ℚ) * 1 := mul_le_mul_of_nonneg_left hd.2 hr
        _ = ((s.get_Nold sp - rm : Int) : ℚ) := mul_one _
    have := Int.floor_le_floor hle
    simpa using this

theorem number_mig_eq (d : Dynamic) (s sp rm : Int) (h : (d.site s).oldNonneg)
    (hrm : rm ≤ (d.site s).get_Nold sp) :
    Migration_number_mig d s sp rm
      = min ⌊((((d.site s).get_Nold sp - rm : Int) : ℚ)) * (d.site s).get_Density sp⌋
          ((d.site s).get_Nold sp) := by
  have hd := get_Density_bounds (d.site s) h sp
  have hr : (0 : ℚ) ≤ (((d.site s).get_Nold sp - rm : Int) : ℚ) := by
    have : 0 ≤ (d.site s).get_Nold sp - rm := by omega
    exact_mod_cast this
  unfold Migration_number_mig
  simp only []
  rw [cTrunc_of_nonneg _ (mul_nonneg hr hd.1)]
  split
  · rename_i hgt
    rw [min_eq_right (le_of_lt hgt)]
  · rename_i hgt
    rw [min_eq_left (not_lt.1 hgt)]

theorem number_mig_le_remaining (d : Dynamic) (s sp rm : Int) (h : (d.site s).oldNonneg)
    (hrm : rm ≤ (d.site s).get_Nold sp) :
    Migration_number_mig d s sp rm ≤ (d.site s).get_Nold sp - rm := by
  rw [number_mig_eq d s sp rm h hrm]
  exact le_trans (min_le_left _ _) (number_mig_raw_bounds (d.site s) h sp rm hrm).2

/-! ## The neighbour loop of `Migration` leaves every `old` counter unchanged -/

theorem oldNonneg_iff_olds (s : Site) : s.oldNonneg ↔ ∀ x ∈ s.olds, (0 : Int) ≤ x := by
  unfold Site.oldNonneg Site.olds
  constructor
  · intro h x hx
    rcases List.mem_map.1 hx with ⟨e, he, rfl⟩
    exact h e he
  · intro h e he
    exact h _ (List.mem_map.2 ⟨e, he, rfl⟩)

theorem oldNonneg_of_olds_eq (s1 s2 : Site) (h : s1.olds = s2.olds) (h2 : s2.oldNonneg) :
    s1.oldNonneg := by
  rw [oldNonneg_iff_olds] at *
  rw [h]
  exact h2

theorem olds_updSite_set_Nnew (d : Dynamic) (t sp : Int) (g : Site → Int) (t2 : Int) :
    ((d.updSite t (fun s => s.set_Nnew sp (g s))).site t2).olds = (d.site t2).olds := by
  rw [site_updSite]
  split
  · rename_i h
    rw [olds_set_Nnew, h.1]
  · rfl

theorem Migration_neighbour_olds (ix_St1 ix_Sp1 : Int) (acc : Dynamic × Int)
    (nb : tNeighborhood) (t : Int) :
    ((Migration_neighbour ix_St1 ix_Sp1 acc nb).1.site t).olds = (acc.1.site t).olds := by
  unfold Migration_neighbour
  simp only []
  split
  · split
    · split
      · rfl
      · split
        · exact olds_updSite_set_Nnew _ _ _ _ _
        · exact olds_updSite_set_Nnew _ _ _ _ _
    · rfl
  · rfl

theorem Migration_neighbour_rm_le (ix_St1 ix_Sp1 : Int) (acc : Dynamic × Int)
    (nb : tNeighborhood) (h : (acc.1.site ix_St1).oldNonneg)
    (hrm : acc.2 ≤ (acc.1.site ix_St1).get_Nold ix_Sp1) :
    (Migration_neighbour ix_St1 ix_Sp1 acc nb).2 ≤ (acc.1.site ix_St1).get_Nold ix_Sp1 := by
  have hle := number_mig_le_remaining acc.1 ix_St1 ix_Sp1 acc.2 h hrm
  unfold Migration_neighbour
  simp only []
  split
  · split
    · split
      · exact hrm
      · split
        · simp only []
          omega
        · simp only []
          omega
    · exact hrm
  · exact hrm

theorem Migration_neighbour_fold (ix_St1 ix_Sp1 : Int) (l : List tNeighborhood)
    (acc : Dynamic × Int) (h : (acc.1.site ix_St1).oldNonneg)
    (hrm : acc.2 ≤ (acc.1.site ix_St1).get_Nold ix_Sp1) :
    (∀ t, ((l.foldl (Migration_neighbour ix_St1 ix_Sp1) acc).1.site t).olds
            = (acc.1.site t).olds)
      ∧ (l.foldl (Migration_neighbour ix_St1 ix_Sp1) acc).2
          ≤ (acc.1.site ix_St1).get_Nold ix_Sp1 := by
  induction l generalizing acc with
  | nil => exact ⟨fun _ => rfl, hrm⟩
  | cons nb rest ih =>
    have ho := Migration_neighbour_olds ix_St1 ix_Sp1 acc nb
    have hr := Migration_neighbour_rm_le ix_St1 ix_Sp1 acc nb h hrm
    have hn : ((Migration_neighbour ix_St1 ix_Sp1 acc nb).1.site ix_St1).oldNonneg :=
      oldNonneg_of_olds_eq _ _ (ho ix_St1) h
    have hg := get_Nold_of_olds_eq _ _ (ho ix_St1) ix_Sp1
    have := ih (Migration_neighbour ix_St1 ix_Sp1 acc nb) hn (by rw [hg]; exact hr)
    simp only [List.foldl_cons]
    refine ⟨fun t => ?_, ?_⟩
    · rw [this.1 t, ho t]
    · rw [← hg]
      exact this.2

theorem Migration_neighbours_spec (d : Dynamic) (ix_St1 ix_Sp1 : Int)
    (h : (d.site ix_St1).oldNonneg) :
    (∀ t, ((Migration_neighbours d ix_St1 ix_Sp1).1.site t).olds = (d.site t).olds)
      ∧ (Migration_neighbours d ix_St1 ix_Sp1).2 ≤ (d.site ix_St1).get_Nold ix_Sp1
      ∧ ((d.site ix_St1).get_Nold ix_Sp1 = 0 → (Migration_neighbours d ix_St1 ix_Sp1).2 = 0) := by
  have h0 := (get_Nold_bounds (d.site ix_St1) h ix_Sp1).1
  unfold Migration_neighbours
  simp only []
  split
  · rename_i hc
    have := Migration_neighbour_fold ix_St1 ix_Sp1 (d.site ix_St1).neighborhood (d, 0) h h0
    exact ⟨this.1, this.2, fun hz => absurd hz hc.2⟩
  · exact ⟨fun _ => rfl, h0, fun _ => rfl⟩

theorem get_Nold_of_not_inRange (s : Site) (sp : Int) (h : ¬ inRange s.list_Species sp) :
    s.get_Nold sp = 0 := by
  unfold Site.get_Nold
  rw [atI_of_not_inRange _ _ h]
  rfl

theorem site_of_not_inRange (d : Dynamic) (t : Int) (h : ¬ inRange d._Sites t) :
    d.site t = default := atI_of_not_inRange _ _ h

theorem default_get_Nold (sp : Int) : (default : Site).get_Nold sp = 0 := by
  apply get_Nold_of_not_inRange
  intro h
  unfold inRange at h
  have h0 : (((default : Site).list_Species.length : Nat) : Int) = 0 := rfl
  omega

/-! ## Conservation of `old + new` by `Migration` -/

theorem totalOldNew_updSite (d : Dynamic) (t q : Int) (f : Site → Site) :
    totalOldNew (d.updSite t f) q
      = totalOldNew d q
        + (if inRange d._Sites t then
            ((f (d.site t)).get_Nold q + (f (d.site t)).get_Nnew q)
              - ((d.site t).get_Nold q + (d.site t).get_Nnew q)
           else 0) := by
  unfold totalOldNew Dynamic.updSite Dynamic.site
  exact sum_map_modifyI f (fun s => s.get_Nold q + s.get_Nnew q) d._Sites t

theorem shape_updSite (d : Dynamic) (t : Int) (f : Site → Site)
    (hf : ∀ s, (f s).shape = s.shape) : (d.updSite t f).shape = d.shape := by
  unfold Dynamic.shape Dynamic.updSite
  simp only []
  rw [map_modifyI_of_frame f Site.shape hf]

theorem shape_set_Nnew (s : Site) (sp v : Int) : (s.set_Nnew sp v).shape = s.shape := by
  unfold Site.set_Nnew Site.shape
  simp only [length_modifyI]

theorem shape_set_Nold (s : Site) (sp v : Int) : (s.set_Nold sp v).shape = s.shape := by
  unfold Site.set_Nold Site.shape
  simp only [length_modifyI]

theorem idsValid_iff_shape (d : Dynamic) :
    d.idsValid ↔ ∀ x ∈ d.shape.1, x.1 = d.shape.2
        ∧ ∀ nb ∈ x.2, 1 ≤ nb.id ∧ nb.id ≤ (d.shape.1.length : Int) := by
  unfold Dynamic.idsValid Dynamic.shape
  simp only [List.length_map]
  constructor
  · intro h x hx
    rcases List.mem_map.1 hx with ⟨s, hs, rfl⟩
    exact h s hs
  · intro h s hs
    exact h _ (List.mem_map.2 ⟨s, hs, rfl⟩)

theorem idsValid_of_shape_eq (d1 d2 : Dynamic) (h : d1.shape = d2.shape) (hv : d2.idsValid) :
    d1.idsValid := by
  rw [idsValid_iff_shape] at *
  rw [h]
  exact hv

theorem sites_length_of_shape_eq (d1 d2 : Dynamic) (h : d1.shape = d2.shape) :
    d1._Sites.length = d2._Sites.length := by
  have := congrArg (fun x => x.1.length) h
  simpa [Dynamic.shape] using this

theorem site_mem_of_inRange (d : Dynamic) (t : Int) (h : inRange d._Sites t) :
    d.site t ∈ d._Sites := by
  rcases atI_mem_or_default d._Sites t with ⟨_, hm⟩ | ⟨hn, _⟩
  · exact hm
  · exact absurd h hn

theorem inRange_of_get_Nold_ne_zero (d : Dynamic) (s sp : Int)
    (h : (d.site s).get_Nold sp ≠ 0) :
    inRange d._Sites s ∧ inRange (d.site s).list_Species sp := by
  constructor
  · by_contra hn
    apply h
    rw [site_of_not_inRange d s hn]
    exact default_get_Nold sp
  · by_contra hn
    exact h (get_Nold_of_not_inRange _ _ hn)

theorem neighbourhood_default : (default : Site).neighborhood = [] := rfl

theorem neighbour_inRange (d : Dynamic) (hv : d.idsValid) (s : Int) (nb : tNeighborhood)
    (hnb : nb ∈ (d.site s).neighborhood) : inRange d._Sites (nb.id - 1) := by
  by_cases hs : inRange d._Sites s
  · have := (hv _ (site_mem_of_inRange d s hs)).2 nb hnb
    unfold inRange
    omega
  · rw [site_of_not_inRange d s hs, neighbourhood_default] at hnb
    exact absurd hnb (List.not_mem_nil _)

theorem species_inRange_everywhere (d : Dynamic) (hv : d.idsValid) (s sp t : Int)
    (hs : inRange d._Sites s) (hsp : inRange (d.site s).list_Species sp)
    (ht : inRange d._Sites t) : inRange (d.site t).list_Species sp := by
  have h1 := (hv _ (site_mem_of_inRange d s hs)).1
  have h2 := (hv _ (site_mem_of_inRange d t ht)).1
  unfold inRange at *
  omega

theorem oldnew_delta_set_Nnew (s : Site) (sp q x : Int) :
    ((s.set_Nnew sp (s.get_Nnew sp + x)).get_Nold q
        + (s.set_Nnew sp (s.get_Nnew sp + x)).get_Nnew q)
      - (s.get_Nold q + s.get_Nnew q)
      = if sp = q ∧ inRange s.list_Species sp then x else 0 := by
  rw [get_Nold_set_Nnew, get_Nnew_set_Nnew]
  split
  · rename_i h
    rw [h.1]
    ring
  · ring

theorem oldnew_delta_set_Nold (s : Site) (sp q x : Int) :
    ((s.set_Nold sp (s.get_Nold sp - x)).get_Nold q
        + (s.set_Nold sp (s.get_Nold sp - x)).get_Nnew q)
      - (s.get_Nold q + s.get_Nnew q)
      = if sp = q ∧ inRange s.list_Species sp then -x else 0 := by
  rw [get_Nold_set_Nold, get_Nnew_set_Nold]
  split
  · rename_i h
    rw [h.1]
    ring
  · ring

/-- One addition to the `new` counter of a valid target raises the total of
the species by the amount added. -/
theorem totalOldNew_add_new (d : Dynamic) (t sp q x : Int) (ht : inRange d._Sites t)
    (hsp : inRange (d.site t).list_Species sp) :
    totalOldNew (d.updSite t (fun s => s.set_Nnew sp (s.get_Nnew sp + x))) q
      = totalOldNew d q + (if sp = q then x else 0) := by
  rw [totalOldNew_updSite, if_pos ht, oldnew_delta_set_Nnew]
  by_cases hq : sp = q
  · rw [if_pos ⟨hq, hsp⟩, if_pos hq]
  · rw [if_neg (fun h => hq h.1), if_neg hq]

theorem Migration_neighbour_conserves (ix_St1 ix_Sp1 : Int) (acc : Dynamic × Int)
    (nb : tNeighborhood) (ht : inRange acc.1._Sites (nb.id - 1))
    (hsp : inRange (acc.1.site (nb.id - 1)).list_Species ix_Sp1) :
    (Migration_neighbour ix_St1 ix_Sp1 acc nb).1.shape = acc.1.shape
      ∧ ∀ q, totalOldNew (Migration_neighbour ix_St1 ix_Sp1 acc nb).1 q
              - (if ix_Sp1 = q then (Migration_neighbour ix_St1 ix_Sp1 acc nb).2 else 0)
            = totalOldNew acc.1 q - (if ix_Sp1 = q then acc.2 else 0) := by
  unfold Migration_neighbour
  simp only []
  split
  · split
    · split
      · exact ⟨rfl, fun _ => rfl⟩
      · split
        · refine ⟨shape_updSite _ _ _ (fun s => shape_set_Nnew s _ _), fun q => ?_⟩
          rw [totalOldNew_add_new _ _ _ _ _ ht hsp]
          split <;> ring
        · refine ⟨shape_updSite _ _ _ (fun s => shape_set_Nnew s _ _), fun q => ?_⟩
          rw [totalOldNew_add_new _ _ _ _ _ ht hsp]
          split <;> ring
    · exact ⟨rfl, fun _ => rfl⟩
  · exact ⟨rfl, fun _ => rfl⟩

theorem site_shape_of_shape_eq (d1 d2 : Dynamic) (h : d1.shape = d2.shape) (t : Int) :
    (d1.site t).shape = (d2.site t).shape := by
  have h1 : d1._Sites.map Site.shape = d2._Sites.map Site.shape := congrArg Prod.fst h
  have e1 := atI_map Site.shape (rfl : Site.shape default = default) d1._Sites t
  have e2 := atI_map Site.shape (rfl : Site.shape default = default) d2._Sites t
  unfold Dynamic.site
  rw [← e1, ← e2, h1]

theorem inRange_list_of_shape_eq (d1 d2 : Dynamic) (h : d1.shape = d2.shape) (t sp : Int) :
    inRange (d1.site t).list_Species sp ↔ inRange (d2.site t).list_Species sp := by
  have := congrArg Prod.fst (site_shape_of_shape_eq d1 d2 h t)
  unfold Site.shape at this
  simp only [] at this
  unfold inRange
  rw [this]

theorem inRange_sites_of_shape_eq (d1 d2 : Dynamic) (h : d1.shape = d2.shape) (t : Int) :
    inRange d1._Sites t ↔ inRange d2._Sites t := by
  unfold inRange
  rw [sites_length_of_shape_eq d1 d2 h]

theorem Migration_neighbour_fold_conserves (d : Dynamic) (hv : d.idsValid)
    (ix_St1 ix_Sp1 : Int) (hs : inRange d._Sites ix_St1)
    (hsp : inRange (d.site ix_St1).list_Species ix_Sp1)
    (l : List tNeighborhood) (hl : ∀ nb ∈ l, inRange d._Sites (nb.id - 1))
    (acc : Dynamic × Int) (hshape : acc.1.shape = d.shape) :
    (l.foldl (Migration_neighbour ix_St1 ix_Sp1) acc).1.shape = d.shape
      ∧ ∀ q, totalOldNew (l.foldl (Migration_neighbour ix_St1 ix_Sp1) acc).1 q
              - (if ix_Sp1 = q then (l.foldl (Migration_neighbour ix_St1 ix_Sp1) acc).2 else 0)
            = totalOldNew acc.1 q - (if ix_Sp1 = q then acc.2 else 0) := by
  induction l generalizing acc with
  | nil => exact ⟨hshape, fun _ => rfl⟩
  | cons nb rest ih =>
    have ht0 : inRange d._Sites (nb.id - 1) := hl nb (List.mem_cons_self _ _)
    have ht : inRange acc.1._Sites (nb.id - 1) :=
      (inRange_sites_of_shape_eq _ _ hshape _).2 ht0
    have hsp0 : inRange (d.site (nb.id - 1)).list_Species ix_Sp1 :=
      species_inRange_everywhere d hv ix_St1 ix_Sp1 _ hs hsp ht0
    have hsp1 : inRange (acc.1.site (nb.id - 1)).list_Species ix_Sp1 :=
      (inRange_list_of_shape_eq _ _ hshape _ _).2 hsp0
    have step := Migration_neighbour_conserves ix_St1 ix_Sp1 acc nb ht hsp1
    have := ih (fun nb2 h2 => hl nb2 (List.mem_cons_of_mem _ h2))
      (Migration_neighbour ix_St1 ix_Sp1 acc nb) (step.1.trans hshape)
    simp only [List.foldl_cons]
    refine ⟨this.1, fun q => ?_⟩
    rw [this.2 q, step.2 q]

theorem Migration_species_conserves (d : Dynamic) (hv : d.idsValid) (ix_St1 ix_Sp1 : Int) :
    (Migration_species d ix_St1 ix_Sp1).1.shape = d.shape
      ∧ ∀ q, totalOldNew (Migration_species d ix_St1 ix_Sp1).1 q = totalOldNew d q := by
  have key : (Migration_neighbours d ix_St1 ix_Sp1).1.shape = d.shape
      ∧ (∀ q, totalOldNew (Migration_neighbours d ix_St1 ix_Sp1).1 q
              - (if ix_Sp1 = q then (Migration_neighbours d ix_St1 ix_Sp1).2 else 0)
            = totalOldNew d q)
      ∧ ((Migration_neighbours d ix_St1 ix_Sp1).2 ≠ 0 →
            inRange d._Sites ix_St1 ∧ inRange (d.site ix_St1).list_Species ix_Sp1) := by
    unfold Migration_neighbours
    simp only []
    split
    · rename_i hc
      have hin := inRange_of_get_Nold_ne_zero d ix_St1 ix_Sp1 hc.2
      have := Migration_neighbour_fold_conserves d hv ix_St1 ix_Sp1 hin.1 hin.2
        (d.site ix_St1).neighborhood (fun nb hnb => neighbour_inRange d hv ix_St1 nb hnb)
        (d, 0) rfl
      refine ⟨this.1, fun q => ?_, fun _ => hin⟩
      rw [this.2 q]
      simp
    · refine ⟨rfl, fun q => ?_, fun h => absurd rfl h⟩
      simp
  unfold Migration_species
  simp only []
  refine ⟨(shape_updSite _ _ _ (fun s => shape_set_Nold s _ _)).trans key.1, fun q => ?_⟩
  rw [totalOldNew_updSite, oldnew_delta_set_Nold, ← key.2.1 q]
  by_cases hz : (Migration_neighbours d ix_St1 ix_Sp1).2 = 0
  · rw [hz]
    simp
  · have hin := key.2.2 hz
    have h1 := (inRange_sites_of_shape_eq _ _ key.1 ix_St1).2 hin.1
    have h2 := (inRange_list_of_shape_eq _ _ key.1 ix_St1 ix_Sp1).2 hin.2
    rw [if_pos h1]
    by_cases hq : ix_Sp1 = q
    · rw [if_pos ⟨hq, h2⟩, if_pos hq]
      ring
    · rw [if_neg (fun h => hq h.1), if_neg hq]
      ring

theorem foldl_conserves {β : Type} (step : Dynamic → β → Dynamic) (d0 : Dynamic)
    (hstep : ∀ d b, d.shape = d0.shape →
      (step d b).shape = d0.shape ∧ ∀ q, totalOldNew (step d b) q = totalOldNew d q)
    (l : List β) (d : Dynamic) (hd : d.shape = d0.shape) :
    (l.foldl step d).shape = d0.shape
      ∧ ∀ q, totalOldNew (l.foldl step d) q = totalOldNew d q := by
  induction l generalizing d with
  | nil => exact ⟨hd, fun _ => rfl⟩
  | cons b rest ih =>
    have s1 := hstep d b hd
    have := ih (step d b) s1.1
    simp only [List.foldl_cons]
    exact ⟨this.1, fun q => (this.2 q).trans (s1.2 q)⟩

theorem Migration_site_conserves (d : Dynamic) (hv : d.idsValid) (ix_St1 : Int) :
    (Migration_site d ix_St1).shape = d.shape
      ∧ ∀ q, totalOldNew (Migration_site d ix_St1) q = totalOldNew d q := by
  unfold Migration_site
  apply foldl_conserves (fun d id => (Migration_species d ix_St1 (id - 1)).1) d
  · intro d1 id h1
    have := Migration_species_conserves d1 (idsValid_of_shape_eq _ _ h1 hv) ix_St1 (id - 1)
    exact ⟨this.1.trans h1, this.2⟩
  · rfl

theorem Migration_loop_conserves (d : Dynamic) (hv : d.idsValid) :
    (Migration_loop d).shape = d.shape
      ∧ ∀ q, totalOldNew (Migration_loop d) q = totalOldNew d q := by
  unfold Migration_loop
  apply foldl_conserves (fun d id => Migration_site d (id - 1)) d
  · intro d1 id h1
    have := Migration_site_conserves d1 (idsValid_of_shape_eq _ _ h1 hv) (id - 1)
    exact ⟨this.1.trans h1, this.2⟩
  · rfl

/-! ## `reorder_Sites` and `set_Pref` do not touch the counters -/

theorem reorder_Sites_draw_frame (n i fuel : Nat) (d : Dynamic) (r : Nat × Dynamic)
    (h : reorder_Sites_draw n i fuel d = some r) :
    r.2._Sites = d._Sites ∧ r.2._Species = d._Species := by
  induction fuel generalizing d with
  | zero => simp [reorder_Sites_draw] at h
  | succ k ih =>
    unfold reorder_Sites_draw at h
    split at h
    · have := ih d.random.2 h
      exact this
    · cases h
      exact ⟨rfl, rfl⟩

theorem reorder_Sites_from_frame (fuel : Nat) (l : List Nat) (d d1 : Dynamic)
    (h : reorder_Sites_from fuel l d = some d1) :
    d1._Sites = d._Sites ∧ d1._Species = d._Species := by
  induction l generalizing d with
  | nil =>
    simp only [reorder_Sites_from, Option.some.injEq] at h
    rw [← h]
    exact ⟨rfl, rfl⟩
  | cons i rest ih =>
    unfold reorder_Sites_from at h
    split at h
    · cases h
    · rename_i r hr
      have f1 := reorder_Sites_draw_frame _ _ _ _ _ hr
      have f2 := ih _ h
      exact ⟨f2.1.trans f1.1, f2.2.trans f1.2⟩

theorem reorder_Sites_frame (fuel : Nat) (d d1 : Dynamic) (h : reorder_Sites fuel d = some d1) :
    d1._Sites = d._Sites ∧ d1._Species = d._Species :=
  reorder_Sites_from_frame fuel _ d d1 h

theorem core_updSite (d : Dynamic) (t : Int) (f : Site → Site)
    (hf : ∀ s, ((f s).list_Species, (f s).neighborhood) = (s.list_Species, s.neighborhood)) :
    (d.updSite t f).core = d.core := by
  unfold Dynamic.core Dynamic.updSite
  simp only []
  rw [map_modifyI_of_frame f (fun s => (s.list_Species, s.neighborhood)) hf]

theorem foldl_core {β : Type} (step : Dynamic → β → Dynamic)
    (hstep : ∀ d b, (step d b).core = d.core) (l : List β) (d : Dynamic) :
    (l.foldl step d).core = d.core := by
  induction l generalizing d with
  | nil => rfl
  | cons b rest ih =>
    simp only [List.foldl_cons]
    rw [ih, hstep]

theorem set_Pref_site_core (E : Externals) (d : Dynamic) (ix_St1 : Int) :
    (set_Pref_site E d ix_St1).core = d.core := by
  unfold set_Pref_site
  simp only []
  rw [foldl_core]
  · exact core_updSite d ix_St1 _ (fun _ => rfl)
  · intro d1 id
    exact core_updSite d1 ix_St1 _ (fun _ => rfl)

theorem set_Pref_core (E : Externals) (d : Dynamic) : (set_Pref E d).core = d.core := by
  unfold set_Pref
  exact foldl_core _ (fun d1 id => set_Pref_site_core E d1 (id - 1)) _ _

theorem totalOldNew_eq_core (d : Dynamic) (q : Int) :
    totalOldNew d q = (d.core.1.map (fun c => (atI c.1 q).nOld + (atI c.1 q).nNew)).sum := by
  unfold totalOldNew Dynamic.core Site.get_Nold Site.get_Nnew
  simp only [List.map_map]
  rfl

theorem shape_eq_core (d : Dynamic) :
    d.shape = (d.core.1.map (fun c => (c.1.length, c.2)), d.core.2) := by
  unfold Dynamic.shape Dynamic.core Site.shape
  simp only [List.map_map]
  rfl

theorem core_of_frame (d1 d : Dynamic) (h1 : d1._Sites = d._Sites)
    (h2 : d1._Species = d._Species) : d1.core = d.core := by
  unfold Dynamic.core
  rw [h1, h2]

/-! ## A migration pass keeps non-negative `old` counters non-negative -/

theorem mem_modifyNth {α : Type} (f : α → α) (l : List α) (n : Nat) (x : α)
    (hx : x ∈ modifyNth f l n) : x ∈ l ∨ ∃ y ∈ l, x = f y := by
  induction l generalizing n with
  | nil => simp [modifyNth] at hx
  | cons a l ih =>
    cases n with
    | zero =>
      simp only [modifyNth, List.mem_cons] at hx
      rcases hx with rfl | hx
      · exact Or.inr ⟨a, List.mem_cons_self _ _, rfl⟩
      · exact Or.inl (List.mem_cons_of_mem _ hx)
    | succ n =>
      simp only [modifyNth, List.mem_cons] at hx
      rcases hx with rfl | hx
      · exact Or.inl (List.mem_cons_self _ _)
      · rcases ih n hx with h | ⟨y, hy, rfl⟩
        · exact Or.inl (List.mem_cons_of_mem _ h)
        · exact Or.inr ⟨y, List.mem_cons_of_mem _ hy, rfl⟩

theorem oldNonneg_set_Nold (s : Site) (h : s.oldNonneg) (sp v : Int) (hv : 0 ≤ v) :
    (s.set_Nold sp v).oldNonneg := by
  unfold Site.set_Nold Site.oldNonneg modifyI
  simp only []
  intro e he
  split at he
  · exact h e he
  · rcases mem_modifyNth _ _ _ _ he with h1 | ⟨y, _, rfl⟩
    · exact h e h1
    · exact hv

/-- Processing one species at one source keeps every `old` counter of every
site non-negative. -/
theorem Migration_species_keeps_oldNonneg (d : Dynamic) (ix_St1 ix_Sp1 : Int)
    (h : ∀ t, (d.site t).oldNonneg) (t : Int) :
    ((Migration_species d ix_St1 ix_Sp1).1.site t).oldNonneg := by
  have hs := Migration_neighbours_spec d ix_St1 ix_Sp1 (h ix_St1)
  have hn : ∀ t2, ((Migration_neighbours d ix_St1 ix_Sp1).1.site t2).oldNonneg :=
    fun t2 => oldNonneg_of_olds_eq _ _ (hs.1 t2) (h t2)
  have hg := get_Nold_of_olds_eq _ _ (hs.1 ix_St1) ix_Sp1
  unfold Migration_species
  simp only []
  rw [site_updSite]
  split
  · apply oldNonneg_set_Nold _ (hn ix_St1)
    rw [hg]
    have := hs.2.1
    omega
  · exact hn t

/-- A whole pass of the loops of `Migration` keeps every `old` counter of
every site non-negative. -/
theorem Migration_loop_keeps_oldNonneg (d : Dynamic) (h : ∀ t, (d.site t).oldNonneg) (t : Int) :
    ((Migration_loop d).site t).oldNonneg := by
  have hsite : ∀ (l : List Int) (s : Int) (d1 : Dynamic), (∀ t, (d1.site t).oldNonneg) →
      ∀ t, ((l.foldl (fun d id => (Migration_species d s (id - 1)).1) d1).site t).oldNonneg := by
    intro l s
    induction l with
    | nil => exact fun d1 h1 => h1
    | cons id rest ih =>
      intro d1 h1
      simp only [List.foldl_cons]
      exact ih _ (Migration_species_keeps_oldNonneg d1 s (id - 1) h1)
  have hloop : ∀ (l : List Int) (d1 : Dynamic), (∀ t, (d1.site t).oldNonneg) →
      ∀ t, ((l.foldl (fun d id => Migration_site d (id - 1)) d1).site t).oldNonneg := by
    intro l
    induction l with
    | nil => exact fun d1 h1 => h1
    | cons id rest ih =>
      intro d1 h1
      simp only [List.foldl_cons]
      exact ih _ (hsite _ (id - 1) d1 h1)
  exact hloop _ d h t

/-! ## `DynamicPrey` and the capacity guard -/

theorem site_congr (d1 d2 : Dynamic) (h : d1._Sites = d2._Sites) (t : Int) :
    d1.site t = d2.site t := by
  unfold Dynamic.site
  rw [h]

theorem get_RandomSpecies_sites (d : Dynamic) (st cont sum : Int) (aux : List Int) :
    (get_RandomSpecies d st cont sum aux).2._Sites = d._Sites := by
  unfold get_RandomSpecies
  split <;> rfl

theorem get_NnewBorn_set_Nold (s : Site) (sp q v : Int) :
    (s.set_Nold sp v).get_NnewBorn q = s.get_NnewBorn q := by
  unfold Site.set_Nold Site.get_NnewBorn
  simp only [atI_modifyI]
  split
  · rename_i h
    rw [h.1]
  · rfl

theorem get_NnewBorn_kill (s : Site) (prey q : Int) :
    ((s.to_Die prey).dec_MCdata prey).get_NnewBorn q = s.get_NnewBorn q := by
  unfold Site.dec_MCdata Site.to_Die
  exact get_NnewBorn_set_Nold s prey q _

theorem nOld_atI_modifyI (f : tListSpecies → tListSpecies) (hf : ∀ e, (f e).nOld = e.nOld)
    (l : List tListSpecies) (i j : Int) : (atI (modifyI l i f) j).nOld = (atI l j).nOld := by
  rw [atI_modifyI]
  split
  · rename_i h
    rw [hf, h.1]
  · rfl

theorem get_NumberIndSpecies_set_Nnew (s : Site) (sp q v : Int) :
    (s.set_Nnew sp v).get_NumberIndSpecies q = s.get_NumberIndSpecies q :=
  nOld_atI_modifyI (fun e => { e with nNew := v }) (fun _ => rfl) s.list_Species sp q

theorem get_NumberIndSpecies_set_NnewBorn (s : Site) (sp q v : Int) :
    (s.set_NnewBorn sp v).get_NumberIndSpecies q = s.get_NumberIndSpecies q :=
  nOld_atI_modifyI (fun e => { e with nNew_born := v }) (fun _ => rfl) s.list_Species sp q

theorem get_NumberIndSpecies_to_Born (s : Site) (sp q : Int) :
    (s.to_Born sp).get_NumberIndSpecies q = s.get_NumberIndSpecies q := by
  unfold Site.to_Born
  rw [get_NumberIndSpecies_set_NnewBorn, get_NumberIndSpecies_set_Nnew]

theorem get_NumberIndSpecies_updSite_to_Born (d : Dynamic) (st sp q : Int) :
    ((d.updSite st (fun s => s.to_Born sp)).site st).get_NumberIndSpecies q
      = (d.site st).get_NumberIndSpecies q := by
  rw [site_updSite]
  split
  · exact get_NumberIndSpecies_to_Born _ _ _
  · rfl

theorem get_NnewBorn_updSite_kill (d : Dynamic) (st prey q : Int) :
    ((d.updSite st (fun s => (s.to_Die prey).dec_MCdata prey)).site st).get_NnewBorn q
      = (d.site st).get_NnewBorn q := by
  rw [site_updSite]
  split
  · exact get_NnewBorn_kill _ _ _
  · rfl

theorem DynamicPrey_comida_guard (E : Externals) (st sp cont sum : Int) (aux : List Int)
    (acc : Dynamic × Bool)
    (hborn : ((DynamicPrey_comida E st sp cont sum aux acc).1.site st).get_NnewBorn sp
              ≠ (acc.1.site st).get_NnewBorn sp) :
    ((DynamicPrey_comida E st sp cont sum aux acc).1.site st).get_NumberIndSpecies sp
      < ((DynamicPrey_comida E st sp cont sum aux acc).1.species sp).get_CC := by
  have hsel : ∀ t, (get_RandomSpecies acc.1 st cont sum aux).2.site t = acc.1.site t :=
    fun t => site_congr _ _ (get_RandomSpecies_sites _ _ _ _ _) t
  unfold DynamicPrey_comida at hborn ⊢
  simp only [] at hborn ⊢
  split at hborn
  · rename_i hprey
    rw [if_pos hprey]
    split at hborn
    · rename_i hdeath
      rw [if_pos hdeath]
      split at hborn
      · rename_i hbirth
        rw [if_pos hbirth]
        simp only []
        rw [get_NumberIndSpecies_updSite_to_Born, species_updSite]
        exact hbirth.2.1
      · exfalso
        apply hborn
        simp only []
        have := get_NnewBorn_updSite_kill
          (SOC (get_RandomSpecies acc.1 st cont sum aux).2
            (get_RandomSpecies acc.1 st cont sum aux).1 st)
          st (get_RandomSpecies acc.1 st cont sum aux).1 sp
        exact this.trans (congrArg (fun s => s.get_NnewBorn sp) (hsel st))
    · exfalso
      apply hborn
      exact congrArg (fun s => s.get_NnewBorn sp) (hsel st)
  · exfalso
    apply hborn
    exact congrArg (fun s => s.get_NnewBorn sp) (hsel st)

theorem SOC_CC_of_no_prey (d : Dynamic) (sp st : Int) (h : (d.species sp).preys = []) :
    SOC_CC d sp st = (d.site st).carryingCapacity := by
  unfold SOC_CC Species.get_NumberPreys Site.get_CarryingCapacity
  simp [h]

theorem carryingCapacity_to_Born (s : Site) (sp : Int) :
    (s.to_Born sp).carryingCapacity = s.carryingCapacity := rfl

theorem carryingCapacity_updSite_to_Born (d : Dynamic) (st sp : Int) :
    ((d.updSite st (fun s => s.to_Born sp)).site st).carryingCapacity
      = (d.site st).carryingCapacity := by
  rw [site_updSite]
  split <;> rfl

theorem ver_IsPredator_eq_false (s : Species) : s.ver_IsPredator = false ↔ s.preys = [] := by
  unfold Species.ver_IsPredator
  cases s.preys <;> simp

/-! ## The rate-accounting phase -/

theorem mergedRecord_default : mergedRecord default = default := rfl

theorem atI_update_list (s : Site) (k q : Int) :
    atI (MonteCarlo_update s k).list_Species q
      = if k = q then mergedRecord (atI s.list_Species q) else atI s.list_Species q := by
  unfold MonteCarlo_update
  simp only []
  have hlist : ∀ (s0 : Site) (v : ℚ), (s0.set_ReproductiveExitus k v).list_Species
      = s0.list_Species := fun _ _ => rfl
  have hx : (if (((s.get_NoldIni k : Int) : ℚ)) ≠ 0
        then s.set_ReproductiveExitus k ((s.get_NnewBorn k : ℚ) / (s.get_NoldIni k : ℚ))
        else s.set_ReproductiveExitus k 1).list_Species = s.list_Species := by
    split <;> rfl
  generalize (if (((s.get_NoldIni k : Int) : ℚ)) ≠ 0
        then s.set_ReproductiveExitus k ((s.get_NnewBorn k : ℚ) / (s.get_NoldIni k : ℚ))
        else s.set_ReproductiveExitus k 1) = s1 at hx ⊢
  unfold Site.set_NnewBorn Site.set_Nnew Site.set_NoldIni Site.set_Nold Site.get_Nold
    Site.get_Nnew
  simp only [atI_modifyI, hx, length_modifyI, inRange]
  by_cases hkq : k = q
  · subst hkq
    by_cases hin : 0 ≤ k ∧ k < (s.list_Species.length : Int)
    · simp [hin, mergedRecord]
    · have hd : atI s.list_Species k = default := atI_of_not_inRange _ _ hin
      simp [hin, hd, mergedRecord_default]
  · simp [hkq]

theorem atI_update_exitus (s : Site) (k q : Int) :
    atI (MonteCarlo_update s k).reproductiveExitus q
      = if k = q ∧ inRange s.reproductiveExitus k then exitusOf (atI s.list_Species k)
        else atI s.reproductiveExitus q := by
  unfold MonteCarlo_update
  simp only []
  have hkeep : ∀ (s0 : Site) (a b c e : Int),
      ((((s0.set_Nold k a).set_NoldIni k b).set_Nnew k c).set_NnewBorn k e).reproductiveExitus
        = s0.reproductiveExitus := fun _ _ _ _ _ => rfl
  rw [hkeep]
  unfold exitusOf Site.get_NoldIni Site.get_NnewBorn
  by_cases h0 : (atI s.list_Species k).nOld_ini = 0
  · have hq : ¬ ((((atI s.list_Species k).nOld_ini : Int) : ℚ) ≠ 0) := by simp [h0]
    rw [if_neg hq, if_pos h0]
    unfold Site.set_ReproductiveExitus
    simp only [atI_modifyI]
  · have hq : ((((atI s.list_Species k).nOld_ini : Int) : ℚ) ≠ 0) := by
      exact_mod_cast h0
    rw [if_pos hq, if_neg h0]
    unfold Site.set_ReproductiveExitus
    simp only [atI_modifyI]

theorem length_update_exitus (s : Site) (k : Int) :
    (MonteCarlo_update s k).reproductiveExitus.length = s.reproductiveExitus.length := by
  unfold MonteCarlo_update
  simp only []
  split <;> exact length_modifyI _ _ _

/-- The rate-accounting loop over the species `0 .. n-1`, on one site. -/
theorem update_range_spec (s : Site) (n : Nat) (q : Int) :
    atI ((List.range n).foldl (fun (s : Site) (k : Nat) => MonteCarlo_update s (k : Int)) s).list_Species q
        = (if 0 ≤ q ∧ q < (n : Int) then mergedRecord (atI s.list_Species q)
           else atI s.list_Species q)
      ∧ atI ((List.range n).foldl (fun (s : Site) (k : Nat) => MonteCarlo_update s (k : Int)) s).reproductiveExitus q
        = (if 0 ≤ q ∧ q < (n : Int) ∧ inRange s.reproductiveExitus q
           then exitusOf (atI s.list_Species q) else atI s.reproductiveExitus q)
      ∧ ((List.range n).foldl (fun (s : Site) (k : Nat) => MonteCarlo_update s (k : Int)) s).reproductiveExitus.length
        = s.reproductiveExitus.length := by
  induction n with
  | zero =>
    refine ⟨?_, ?_, rfl⟩
    · have : ¬ (0 ≤ q ∧ q < ((0 : Nat) : Int)) := by omega
      simp only [List.range_zero, List.foldl_nil, if_neg this]
    · have : ¬ (0 ≤ q ∧ q < ((0 : Nat) : Int) ∧ inRange s.reproductiveExitus q) := by omega
      simp only [List.range_zero, List.foldl_nil, if_neg this]
  | succ n ih =>
    rw [List.range_succ, List.foldl_append]
    simp only [List.foldl_cons, List.foldl_nil]
    obtain ⟨ih1, ih2, ih3⟩ := ih
    have hn : ¬ (0 ≤ (n : Int) ∧ (n : Int) < (n : Int)) := by omega
    refine ⟨?_, ?_, ?_⟩
    · rw [atI_update_list, ih1]
      by_cases hq : (n : Int) = q
      · subst hq
        have h2 : (0 ≤ (n : Int) ∧ (n : Int) < ((n + 1 : Nat) : Int)) := by omega
        rw [if_pos rfl, if_neg hn, if_pos h2]
      · rw [if_neg hq]
        have h2 : (0 ≤ q ∧ q < ((n + 1 : Nat) : Int)) ↔ (0 ≤ q ∧ q < (n : Int)) := by omega
        simp only [h2]
    · rw [atI_update_exitus, ih2]
      by_cases hq : (n : Int) = q
      · subst hq
        have hr : inRange ((List.range n).foldl (fun (s : Site) (k : Nat) => MonteCarlo_update s (k : Int)) s).reproductiveExitus (n : Int)
            ↔ inRange s.reproductiveExitus (n : Int) := by
          unfold inRange
          rw [ih3]
        have ih1n : atI ((List.range n).foldl (fun (s : Site) (k : Nat) => MonteCarlo_update s (k : Int)) s).list_Species (n : Int)
            = atI s.list_Species (n : Int) := by rw [ih1, if_neg hn]
        by_cases hin : inRange s.reproductiveExitus (n : Int)
        · have h2 : (0 ≤ (n : Int) ∧ (n : Int) < ((n + 1 : Nat) : Int)
              ∧ inRange s.reproductiveExitus (n : Int)) := ⟨by omega, by omega, hin⟩
          rw [if_pos ⟨rfl, hr.2 hin⟩, if_pos h2, ih1n]
        · have h2 : ¬ (0 ≤ (n : Int) ∧ (n : Int) < ((n + 1 : Nat) : Int)
              ∧ inRange s.reproductiveExitus (n : Int)) := fun h => hin h.2.2
          have h3 : ¬ (0 ≤ (n : Int) ∧ (n : Int) < (n : Int)
              ∧ inRange s.reproductiveExitus (n : Int)) := fun h => hin h.2.2
          rw [if_neg (fun h => hin (hr.1 h.2)), if_neg h2, if_neg h3]
      · rw [if_neg (fun h => hq h.1)]
        have h2 : (0 ≤ q ∧ q < ((n + 1 : Nat) : Int) ∧ inRange s.reproductiveExitus q)
            ↔ (0 ≤ q ∧ q < (n : Int) ∧ inRange s.reproductiveExitus q) := by
          unfold inRange
          omega
        simp only [h2]
    · rw [length_update_exitus, ih3]

theorem range_cast_eq_map (l : List Nat) :
    (bind l (fun (a : Nat) => (pure (a : Int) : List Int)))
      = l.map (fun (a : Nat) => (a : Int)) := by
  induction l with
  | nil => rfl
  | cons a l ih =>
    show [(a : Int)] ++ (bind l (fun (a : Nat) => (pure (a : Int) : List Int))) = _
    rw [ih]
    rfl

theorem rateAccounting_eq (d : Dynamic) (st : Int) :
    MonteCarlo_rateAccounting d st
      = (List.range d._Species.length).foldl
          (fun (d : Dynamic) (sp : Nat) =>
            d.updSite st (fun s => MonteCarlo_update s (sp : Int))) d := by
  unfold MonteCarlo_rateAccounting
  rw [range_cast_eq_map, List.foldl_map]

theorem sites_length_updSite (d : Dynamic) (t : Int) (f : Site → Site) :
    (d.updSite t f)._Sites.length = d._Sites.length := length_modifyI _ _ _

theorem foldl_updSite_site {β : Type} (F : β → Site → Site) (st : Int) (l : List β)
    (d : Dynamic) (t : Int) :
    (l.foldl (fun d b => d.updSite st (F b)) d).site t
      = if st = t ∧ inRange d._Sites st then l.foldl (fun s b => F b s) (d.site st)
        else d.site t := by
  induction l generalizing d with
  | nil =>
    simp only [List.foldl_nil]
    split
    · rename_i h
      rw [h.1]
    · rfl
  | cons b rest ih =>
    simp only [List.foldl_cons]
    rw [ih]
    have hr : inRange (d.updSite st (F b))._Sites st ↔ inRange d._Sites st := by
      unfold inRange
      rw [sites_length_updSite]
    by_cases h : st = t ∧ inRange d._Sites st
    · rw [if_pos ⟨h.1, hr.2 h.2⟩, if_pos h, site_updSite, if_pos ⟨rfl, h.2⟩]
    · rw [if_neg (fun h2 => h ⟨h2.1, hr.1 h2.2⟩), if_neg h, site_updSite]
      rw [if_neg (fun h2 => h ⟨h2.1, h2.2⟩)]

theorem rateAccounting_site (d : Dynamic) (st : Int) (h : inRange d._Sites st) :
    (MonteCarlo_rateAccounting d st).site st
      = (List.range d._Species.length).foldl
          (fun (s : Site) (k : Nat) => MonteCarlo_update s (k : Int)) (d.site st) := by
  rw [rateAccounting_eq,
    foldl_updSite_site (fun (k : Nat) (s : Site) => MonteCarlo_update s (k : Int)) st _ d st,
    if_pos ⟨rfl, h⟩]

theorem rateAccounting_site_of_not_inRange (d : Dynamic) (st : Int) (h : ¬ inRange d._Sites st) :
    (MonteCarlo_rateAccounting d st).site st = default := by
  rw [rateAccounting_eq,
    foldl_updSite_site (fun (k : Nat) (s : Site) => MonteCarlo_update s (k : Int)) st _ d st,
    if_neg (fun h2 => h h2.2)]
  exact atI_of_not_inRange _ _ h

/-- The record of a species after the rate-accounting phase of its site. -/
theorem rateAccounting_record (d : Dynamic) (st sp : Int) (h0 : 0 ≤ sp)
    (h1 : sp < (d._Species.length : Int)) :
    atI ((MonteCarlo_rateAccounting d st).site st).list_Species sp
      = mergedRecord (atI (d.site st).list_Species sp) := by
  by_cases hst : inRange d._Sites st
  · rw [rateAccounting_site d st hst, (update_range_spec (d.site st) _ sp).1, if_pos ⟨h0, h1⟩]
  · rw [rateAccounting_site_of_not_inRange d st hst,
      atI_of_not_inRange d._Sites st hst |> fun h => (show d.site st = default from h)]
    have hd : atI (default : Site).list_Species sp = default := by
      apply atI_of_not_inRange
      intro hin
      unfold inRange at hin
      have hl : (((default : Site).list_Species.length : Nat) : Int) = 0 := rfl
      omega
    rw [hd]
    rfl

/-- The reproductive exitus of a species after the rate-accounting phase. -/
theorem rateAccounting_exitus (d : Dynamic) (st sp : Int) (hst : inRange d._Sites st)
    (h0 : 0 ≤ sp) (h1 : sp < (d._Species.length : Int))
    (hex : inRange (d.site st).reproductiveExitus sp) :
    ((MonteCarlo_rateAccounting d st).site st).get_ReproductiveExitus sp
      = exitusOf (atI (d.site st).list_Species sp) := by
  unfold Site.get_ReproductiveExitus
  rw [rateAccounting_site d st hst, (update_range_spec (d.site st) _ sp).2.1,
    if_pos ⟨h0, h1, hex⟩]

/-! ## The individual trial -/

theorem naturalDeathTest_sites (E : Externals) (d : Dynamic) (st sp : Int) :
    (MonteCarlo_naturalDeathTest E d st sp).1._Sites = d._Sites := rfl

theorem atI_kill (s : Site) (sp q : Int) :
    atI ((s.to_Die sp).dec_MCdata sp).list_Species q
      = if sp = q ∧ inRange s.list_Species sp
        then { atI s.list_Species sp with nOld := s.get_Nold sp - 1 }
        else atI s.list_Species q := by
  unfold Site.dec_MCdata Site.to_Die Site.set_Nold
  simp only [atI_modifyI]

theorem length_kill (s : Site) (sp : Int) :
    ((s.to_Die sp).dec_MCdata sp).list_Species.length = s.list_Species.length := by
  unfold Site.dec_MCdata Site.to_Die Site.set_Nold
  exact length_modifyI _ _ _

theorem length_to_Born (s : Site) (sp : Int) :
    (s.to_Born sp).list_Species.length = s.list_Species.length := by
  unfold Site.to_Born Site.set_NnewBorn Site.set_Nnew
  simp only [length_modifyI]

theorem get_NnewBorn_to_Born (s : Site) (sp : Int) (h : inRange s.list_Species sp) :
    (s.to_Born sp).get_NnewBorn sp = s.get_NnewBorn sp + 1 := by
  unfold Site.to_Born Site.set_NnewBorn Site.get_NnewBorn
  simp only []
  rw [atI_modifyI]
  have h2 : inRange (s.set_Nnew sp (s.get_Nnew sp + 1)).list_Species sp := by
    unfold inRange Site.set_Nnew at *
    simp only [length_modifyI]
    exact h
  rw [if_pos ⟨rfl, h2⟩]

theorem DynamicPrey_auxIndex_eq_nil (d : Dynamic) (st sp : Int)
    (h : ∀ prey ∈ (d.species sp).preys, ¬ (d.site st).get_Nold (prey - 1) > 0) :
    DynamicPrey_auxIndex d st sp = [] := by
  unfold DynamicPrey_auxIndex
  rw [List.filter_eq_nil_iff]
  intro prey hp
  simpa using h prey hp

/-! ## Bounds on the predation pressure and on the rates -/

theorem foldl_add_eq_sum_int {α : Type} (f : α → Int) (l : List α) (a : Int) :
    l.foldl (fun acc x => acc + f x) a = a + (l.map f).sum := by
  induction l generalizing a with
  | nil => simp
  | cons x xs ih => simp [List.foldl_cons, ih, add_assoc]

theorem sumOldWithId_eq (s : Site) (id a : Int) :
    sumOldWithId s id a
      = a + (s.list_Species.map (fun e => if e.id = id then e.nOld else 0)).sum := by
  unfold sumOldWithId
  have h : (fun (sum : Int) (e : tListSpecies) => if e.id = id then sum + e.nOld else sum)
      = (fun sum e => sum + (if e.id = id then e.nOld else 0)) := by
    funext sum e
    split <;> simp
  rw [h, foldl_add_eq_sum_int]

theorem get_NumberIndPredators_eq (d : Dynamic) (st sp : Int) :
    get_NumberIndPredators d st sp
      = ((d.species sp).predators.map (fun q =>
          ((d.site st).list_Species.map (fun e => if e.id = q then e.nOld else 0)).sum)).sum := by
  unfold get_NumberIndPredators
  have h : (fun (sum : Int) (predator : Int) => sumOldWithId (d.site st) predator sum)
      = (fun sum predator => sum
          + ((d.site st).list_Species.map
              (fun e => if e.id = predator then e.nOld else 0)).sum) := by
    funext sum predator
    exact sumOldWithId_eq _ _ _
  rw [h, foldl_add_eq_sum_int, zero_add]

/-- For a list of ids without repetition, adding up the `old` counters id by
id is adding up the `old` counters of the records whose id is in the list. -/
theorem sum_by_id_eq_sum_mem (es : List tListSpecies) (qs : List Int) (h : qs.Nodup) :
    (qs.map (fun q => (es.map (fun e => if e.id = q then e.nOld else 0)).sum)).sum
      = (es.map (fun e => if e.id ∈ qs then e.nOld else 0)).sum := by
  induction qs with
  | nil => simp
  | cons q qs ih =>
    have hq : q ∉ qs := (List.nodup_cons.1 h).1
    rw [List.map_cons, List.sum_cons, ih (List.nodup_cons.1 h).2, ← List.sum_map_add]
    congr 1
    apply List.map_congr_left
    intro e _
    by_cases h1 : e.id = q
    · have h2 : e.id ∉ qs := by rw [h1]; exact hq
      simp [h1, hq]
    · simp [h1]

theorem sum_mem_bounds (es : List tListSpecies) (qs : List Int)
    (h : ∀ e ∈ es, 0 ≤ e.nOld) :
    0 ≤ (es.map (fun e => if e.id ∈ qs then e.nOld else 0)).sum
      ∧ (es.map (fun e => if e.id ∈ qs then e.nOld else 0)).sum ≤ (es.map (fun e => e.nOld)).sum := by
  constructor
  · apply List.sum_nonneg
    intro x hx
    rcases List.mem_map.1 hx with ⟨e, he, rfl⟩
    split
    · exact h e he
    · exact le_refl _
  · apply List.sum_le_sum
    intro e he
    split
    · exact le_refl _
    · exact h e he

theorem get_NumberIndPredators_bounds (d : Dynamic) (st p : Int) (h : (d.site st).oldNonneg)
    (hnd : (d.species p).predators.Nodup) :
    0 ≤ get_NumberIndPredators d st p
      ∧ get_NumberIndPredators d st p ≤ (d.site st).get_TotalPopulation := by
  rw [get_NumberIndPredators_eq, sum_by_id_eq_sum_mem _ _ hnd]
  exact sum_mem_bounds _ _ h

theorem get_DensityPredOfPrey_bounds (d : Dynamic) (st p : Int) (h : (d.site st).oldNonneg)
    (hnd : (d.species p).predators.Nodup) :
    0 ≤ get_DensityPredOfPrey d st p ∧ get_DensityPredOfPrey d st p ≤ 1 := by
  have hb := get_NumberIndPredators_bounds d st p h hnd
  unfold get_DensityPredOfPrey
  simp only []
  by_cases ht : (d.site st).get_TotalPopulation = 0
  · simp [ht]
  · rw [if_pos ht]
    have hpos : (0 : ℚ) < (((d.site st).get_TotalPopulation : Int) : ℚ) := by
      have : 0 < (d.site st).get_TotalPopulation := by omega
      exact_mod_cast this
    have h0 : (0 : ℚ) ≤ ((get_NumberIndPredators d st p : Int) : ℚ) := by exact_mod_cast hb.1
    have h1 : ((get_NumberIndPredators d st p : Int) : ℚ)
        ≤ (((d.site st).get_TotalPopulation : Int) : ℚ) := by exact_mod_cast hb.2
    exact ⟨div_nonneg h0 hpos.le, (div_le_one hpos).2 h1⟩

theorem sum_unit_terms {α : Type} (f : α → ℚ) (l : List α)
    (h : ∀ x ∈ l, 0 ≤ f x ∧ f x ≤ 1) :
    0 ≤ (l.map f).sum ∧ (l.map f).sum ≤ (l.length : ℚ) := by
  induction l with
  | nil => simp
  | cons a l ih =>
    have ha := h a (List.mem_cons_self _ _)
    have hl := ih (fun x hx => h x (List.mem_cons_of_mem _ hx))
    simp only [List.map_cons, List.sum_cons, List.length_cons, Nat.cast_add, Nat.cast_one]
    constructor
    · linarith [ha.1, hl.1]
    · linarith [ha.2, hl.2]

theorem accum_dx_bounds (d : Dynamic) (sp st : Int) (h : (d.site st).oldNonneg)
    (hnd : ∀ p ∈ (d.species sp).preys, (d.species (p - 1)).predators.Nodup) :
    0 ≤ accum_dx d sp st ∧ accum_dx d sp st ≤ ((d.species sp).preys.length : ℚ) := by
  rw [accum_dx_eq]
  apply sum_unit_terms
  intro p hp
  have h1 := get_DensityPredOfPrey_bounds d st (p - 1) h (hnd p hp)
  have h2 := get_Density_bounds (d.site st) h (p - 1)
  constructor
  · exact mul_nonneg h1.1 (by linarith [h2.2])
  · calc get_DensityPredOfPrey d st (p - 1) * (1 - (d.site st).get_Density (p - 1))
        ≤ 1 * 1 := mul_le_mul h1.2 (by linarith [h2.1]) (by linarith [h2.2]) (by norm_num)
      _ = 1 := by norm_num

/-! ## Nothing in a timestep changes the number of sites or the timestep -/

theorem frame_updSite (d : Dynamic) (t : Int) (f : Site → Site) :
    (d.updSite t f).frame = d.frame := by
  unfold Dynamic.frame
  rw [sites_length_updSite]
  rfl

theorem frame_SOC (d : Dynamic) (sp st : Int) : (SOC d sp st).frame = d.frame := rfl

theorem frame_randomFraction (E : Externals) (d : Dynamic) :
    (d.randomFraction E).2.frame = d.frame := rfl

theorem frame_get_RandomSpecies (d : Dynamic) (st cont sum : Int) (aux : List Int) :
    (get_RandomSpecies d st cont sum aux).2.frame = d.frame := by
  unfold get_RandomSpecies
  split <;> rfl

theorem frame_DynamicPrey_comida (E : Externals) (st sp cont sum : Int) (aux : List Int)
    (acc : Dynamic × Bool) :
    (DynamicPrey_comida E st sp cont sum aux acc).1.frame = acc.1.frame := by
  have h1 := frame_get_RandomSpecies acc.1 st cont sum aux
  unfold DynamicPrey_comida
  simp only []
  split
  · split
    · split
      · simp only []
        rw [frame_updSite, frame_randomFraction, frame_updSite, frame_randomFraction, frame_SOC]
        exact h1
      · simp only []
        rw [frame_randomFraction, frame_updSite, frame_randomFraction, frame_SOC]
        exact h1
    · simp only []
      rw [frame_randomFraction, frame_SOC]
      exact h1
  · exact h1

theorem frame_DynamicPrey (E : Externals) (d : Dynamic) (st sp cont : Int) :
    (DynamicPrey E d st sp cont).frame = d.frame := by
  have hr : List.range 1 = [0] := rfl
  unfold DynamicPrey
  split
  · simp only [hr, List.foldl_cons, List.foldl_nil]
    exact frame_DynamicPrey_comida E st sp cont _ _ (d, false)
  · simp only []
    split
    · split
      · rw [frame_updSite, frame_randomFraction]
      · rw [frame_randomFraction]
    · rfl

theorem frame_foldl {β : Type} (step : Dynamic → β → Dynamic)
    (hstep : ∀ d b, (step d b).frame = d.frame) (l : List β) (d : Dynamic) :
    (l.foldl step d).frame = d.frame := by
  induction l generalizing d with
  | nil => rfl
  | cons b rest ih =>
    simp only [List.foldl_cons]
    rw [ih, hstep]

theorem frame_MonteCarlo_trial (E : Externals) (d : Dynamic) (st sp realization : Int) :
    (MonteCarlo_trial E d st sp realization).frame = d.frame := by
  have h0 : (MonteCarlo_naturalDeathTest E d st sp).1.frame = d.frame := rfl
  unfold MonteCarlo_trial
  simp only []
  split
  · rw [frame_updSite, h0]
  · rw [frame_foldl _ (fun d1 _ => frame_DynamicPrey E d1 st sp realization), h0]

theorem frame_get_RandSP (d : Dynamic) (st : Int) : (get_RandSP d st).2.frame = d.frame := by
  unfold get_RandSP
  simp only []
  split <;> rfl

theorem frame_MonteCarlo_trialLoop (g : Int → Int → Bool) (E : Externals)
    (st realization : Int) (fuel : Nat) (d : Dynamic) (n s : Int) (r : Dynamic × Int)
    (h : MonteCarlo_trialLoop g E st realization fuel d n s = some r) :
    r.1.frame = d.frame := by
  induction fuel generalizing d n s with
  | zero => simp [MonteCarlo_trialLoop] at h
  | succ k ih =>
    unfold MonteCarlo_trialLoop at h
    simp only [] at h
    split at h
    · split at h
      · rw [ih _ _ _ h, frame_MonteCarlo_trial, frame_get_RandSP]
      · rw [ih _ _ _ h, frame_get_RandSP]
    · cases h
      rfl

theorem frame_MonteCarlo_rateAccounting (d : Dynamic) (st : Int) :
    (MonteCarlo_rateAccounting d st).frame = d.frame := by
  rw [rateAccounting_eq]
  exact frame_foldl _ (fun d1 _ => frame_updSite d1 st _) _ _

theorem frame_MonteCarlo_site (g : Int → Int → Bool) (E : Externals) (fuel : Nat)
    (realization : Int) (d : Dynamic) (st : Int) (r : Dynamic × Int)
    (h : MonteCarlo_site g E fuel realization d st = some r) : r.1.frame = d.frame := by
  unfold MonteCarlo_site at h
  rw [frame_MonteCarlo_trialLoop g E st realization fuel _ _ _ r h,
    frame_MonteCarlo_rateAccounting]

theorem frame_forOption {β : Type} (body : Dynamic → β → Option Dynamic)
    (hbody : ∀ d b d1, body d b = some d1 → d1.frame = d.frame) (l : List β) (d d1 : Dynamic)
    (h : forOption body l d = some d1) : d1.frame = d.frame := by
  induction l generalizing d with
  | nil =>
    simp only [forOption, Option.some.injEq] at h
    rw [← h]
  | cons b rest ih =>
    unfold forOption at h
    split at h
    · cases h
    · rename_i d2 hb
      rw [ih _ h, hbody _ _ _ hb]

theorem reorder_Sites_draw_one (fuel : Nat) (d : Dynamic) :
    reorder_Sites_draw 1 0 fuel d = none := by
  induction fuel generalizing d with
  | zero => rfl
  | succ k ih =>
    unfold reorder_Sites_draw
    rw [if_pos (Nat.mod_one _)]
    exact ih _

/-- With a single site the rejection loop of `reorder_Sites` rejects every
draw, so `Migration` never returns. -/
theorem Migration_one_site (E : Externals) (fuel : Nat) (d : Dynamic) (cont : Int)
    (h : d._Sites.length = 1) : Migration E fuel d cont = none := by
  unfold Migration reorder_Sites
  rw [h]
  have hr : List.range 1 = [0] := rfl
  rw [hr]
  unfold reorder_Sites_from
  rw [h, reorder_Sites_draw_one]
  rfl

theorem MonteCarlo_sites_frame (g : Int → Int → Bool) (E : Externals) (fuel : Nat)
    (realization : Int) (l : List Nat) (d d1 : Dynamic)
    (h : forOption
      (fun (d : Dynamic) (st : Nat) =>
        (MonteCarlo_site g E fuel realization d (st : Int)).map (fun r => r.1)) l d = some d1) :
    d1.frame = d.frame := by
  apply frame_forOption _ _ l d d1 h
  intro d2 b d3 hb
  cases hs : MonteCarlo_site g E fuel realization d2 (b : Int) with
  | none => rw [hs] at hb; cases hb
  | some r =>
    rw [hs] at hb
    simp only [Option.map_some', Option.some.injEq] at hb
    rw [← hb]
    exact frame_MonteCarlo_site g E fuel realization d2 _ r hs

/-- With a single site, two timesteps and `tm = 1`, `MonteCarlo` never
returns: the migration pass of timestep 1 is reached or an earlier loop has
already failed to return. -/
theorem MonteCarlo_one_site (g : Int → Int → Bool) (E : Externals) (fuel : Nat)
    (realization : Int) (d : Dynamic) (h : d._Sites.length = 1) :
    MonteCarlo g E fuel 2 1 realization d = none := by
  have hr : List.range (2 : Int).toNat = [0, 1] := rfl
  unfold MonteCarlo
  rw [hr]
  unfold forOption
  split
  · rfl
  · rename_i d1 h1
    unfold forOption
    have hf1 : d1._Sites.length = 1 := by
      unfold MonteCarlo_timestep at h1
      split at h1
      · cases h1
      · rename_i d2 h2
        have hfr := MonteCarlo_sites_frame g E fuel realization _ _ _ h2
        have hlen : d2._Sites.length = 1 := by
          have := congrArg Prod.fst hfr
          simpa [Dynamic.frame, h] using this
        have ht : d2.mc_timestep = 0 := by
          have := congrArg Prod.snd hfr
          simpa [Dynamic.frame] using this
        rw [if_neg (fun hc => hc.1 ht)] at h1
        cases h1
        exact hlen
    split
    · rfl
    · rename_i d3 h3
      exfalso
      unfold MonteCarlo_timestep at h3
      split at h3
      · cases h3
      · rename_i d4 h4
        have hfr := MonteCarlo_sites_frame g E fuel realization _ _ _ h4
        have hlen : d4._Sites.length = 1 := by
          have := congrArg Prod.fst hfr
          simpa [Dynamic.frame, hf1] using this
        have ht : d4.mc_timestep = 1 := by
          have := congrArg Prod.snd hfr
          simpa [Dynamic.frame] using this
        rw [if_pos ⟨by rw [ht]; decide, by rw [ht]; decide⟩, Migration_one_site E fuel d4 _ hlen] at h3
        cases h3

/-! ## The total population of a site never grows during the trial loop -/

theorem calculate_SumOld_kill (s : Site) (sp : Int) :
    ((s.to_Die sp).dec_MCdata sp).calculate_SumOld ≤ s.calculate_SumOld := by
  unfold Site.dec_MCdata Site.to_Die Site.set_Nold Site.calculate_SumOld
  simp only []
  rw [sum_map_modifyI]
  split
  · unfold Site.get_Nold
    simp
  · simp

theorem calculate_SumOld_to_Born (s : Site) (sp : Int) :
    (s.to_Born sp).calculate_SumOld = s.calculate_SumOld := by
  unfold Site.to_Born Site.set_NnewBorn Site.set_Nnew Site.calculate_SumOld
  simp only []
  rw [map_modifyI_of_frame (fun e : tListSpecies => { e with nNew_born := s.get_NnewBorn sp + 1 })
        (fun e => e.nOld) (fun _ => rfl),
      map_modifyI_of_frame (fun e : tListSpecies => { e with nNew := s.get_Nnew sp + 1 })
        (fun e => e.nOld) (fun _ => rfl)]

theorem sumOld_updSite_le (d : Dynamic) (st : Int) (f : Site → Site)
    (hf : ∀ s, (f s).calculate_SumOld ≤ s.calculate_SumOld) :
    ((d.updSite st f).site st).calculate_SumOld ≤ (d.site st).calculate_SumOld := by
  rw [site_updSite]
  split
  · exact hf _
  · exact le_refl _

theorem sumOld_DynamicPrey_comida (E : Externals) (st sp cont sum : Int) (aux : List Int)
    (acc : Dynamic × Bool) :
    ((DynamicPrey_comida E st sp cont sum aux acc).1.site st).calculate_SumOld
      ≤ (acc.1.site st).calculate_SumOld := by
  have hsel : (get_RandomSpecies acc.1 st cont sum aux).2.site st = acc.1.site st :=
    site_congr _ _ (get_RandomSpecies_sites _ _ _ _ _) st
  have hkill : ∀ prey : Int,
      (((((SOC (get_RandomSpecies acc.1 st cont sum aux).2 prey st).randomFraction E).2.updSite st
          (fun s => (s.to_Die prey).dec_MCdata prey)).randomFraction E).2.site st).calculate_SumOld
        ≤ (acc.1.site st).calculate_SumOld := by
    intro prey
    have h1 := sumOld_updSite_le
      ((SOC (get_RandomSpecies acc.1 st cont sum aux).2 prey st).randomFraction E).2 st
      (fun s => (s.to_Die prey).dec_MCdata prey) (fun s => calculate_SumOld_kill s prey)
    rw [← hsel]
    exact h1
  unfold DynamicPrey_comida
  simp only []
  split
  · split
    · split
      · simp only []
        refine le_trans ?_ (hkill (get_RandomSpecies acc.1 st cont sum aux).1)
        exact sumOld_updSite_le _ st _ (fun s => le_of_eq (calculate_SumOld_to_Born s sp))
      · exact hkill (get_RandomSpecies acc.1 st cont sum aux).1
    · simp only []
      rw [← hsel]
      exact le_refl _
  · simp only []
    rw [← hsel]

theorem sumOld_DynamicPrey (E : Externals) (d : Dynamic) (st sp cont : Int) :
    ((DynamicPrey E d st sp cont).site st).calculate_SumOld ≤ (d.site st).calculate_SumOld := by
  have hr : List.range 1 = [0] := rfl
  unfold DynamicPrey
  split
  · simp only [hr, List.foldl_cons, List.foldl_nil]
    exact sumOld_DynamicPrey_comida E st sp cont _ _ (d, false)
  · simp only []
    split
    · split
      · exact sumOld_updSite_le (d.randomFraction E).2 st _
          (fun s => le_of_eq (calculate_SumOld_to_Born s sp))
      · exact le_refl _
    · exact le_refl _

theorem sumOld_foldl_le {β : Type} (step : Dynamic → β → Dynamic) (st : Int)
    (hstep : ∀ d b, ((step d b).site st).calculate_SumOld ≤ (d.site st).calculate_SumOld)
    (l : List β) (d : Dynamic) :
    ((l.foldl step d).site st).calculate_SumOld ≤ (d.site st).calculate_SumOld := by
  induction l generalizing d with
  | nil => exact le_refl _
  | cons b rest ih =>
    simp only [List.foldl_cons]
    exact le_trans (ih _) (hstep d b)

theorem sumOld_MonteCarlo_trial (E : Externals) (d : Dynamic) (st sp realization : Int) :
    ((MonteCarlo_trial E d st sp realization).site st).calculate_SumOld
      ≤ (d.site st).calculate_SumOld := by
  have h0 : (MonteCarlo_naturalDeathTest E d st sp).1.site st = d.site st :=
    site_congr _ _ rfl st
  unfold MonteCarlo_trial
  simp only []
  split
  · rw [← h0]
    exact sumOld_updSite_le _ st _ (fun s => calculate_SumOld_kill s sp)
  · rw [← h0]
    exact sumOld_foldl_le _ st (fun d1 _ => sumOld_DynamicPrey E d1 st sp realization) _ _

theorem get_RandSP_sites (d : Dynamic) (st : Int) : (get_RandSP d st).2._Sites = d._Sites := by
  unfold get_RandSP
  simp only []
  split <;> rfl

/-! ## The number of trials -/

theorem guard_true_lt_ceil (g : Int → Int → Bool) (s0 : Int) (hg : guardIsLog g s0)
    (n s : Int) (hn : 0 ≤ n) (hs : s ≤ s0) (ht : g n s = true) :
    n < ⌈10 * Real.log (s0 : ℝ)⌉ := by
  have h := (hg n s hn hs).1 ht
  have hpos : (0 : ℝ) < (s : ℝ) := by
    have : (0 : Int) < s := by omega
    exact_mod_cast this
  have hle : (s : ℝ) ≤ (s0 : ℝ) := by exact_mod_cast hs
  have hlog : Real.log (s : ℝ) ≤ Real.log (s0 : ℝ) := Real.log_le_log hpos hle
  have h2 : (n : ℝ) < 10 * Real.log (s0 : ℝ) := by linarith [h.2]
  exact Int.lt_ceil.2 h2

/-- Started with `in ≥ 0`, with the variable `sumOld` equal to the total of the
site, at most `sumOld0`, and with more fuel than the distance from `in` to
`ceil (10 * log sumOld0)`, the trial loop returns; the counter it returns is at
most the larger of `in` and `ceil (10 * log sumOld0)`, the total has not
grown, and the loop condition is false on exit. -/
theorem MonteCarlo_trialLoop_spec (g : Int → Int → Bool) (E : Externals)
    (st realization s0 : Int) (hg : guardIsLog g s0) (fuel : Nat) (d : Dynamic) (n : Int)
    (hn : 0 ≤ n) (hs : (d.site st).calculate_SumOld ≤ s0)
    (hfuel : (⌈10 * Real.log (s0 : ℝ)⌉ - n).toNat < fuel) :
    ∃ r : Dynamic × Int,
      MonteCarlo_trialLoop g E st realization fuel d n (d.site st).calculate_SumOld = some r
        ∧ n ≤ r.2 ∧ r.2 ≤ max n ⌈10 * Real.log (s0 : ℝ)⌉
        ∧ (r.1.site st).calculate_SumOld ≤ (d.site st).calculate_SumOld
        ∧ g r.2 (r.1.site st).calculate_SumOld = false := by
  induction fuel generalizing d n with
  | zero => omega
  | succ k ih =>
    unfold MonteCarlo_trialLoop
    simp only []
    by_cases hgn : g n (d.site st).calculate_SumOld = true
    · rw [if_pos hgn]
      have hlt := guard_true_lt_ceil g s0 hg n _ hn hs hgn
      have hfuel2 : (⌈10 * Real.log (s0 : ℝ)⌉ - (n + 1)).toNat < k := by omega
      have hsel : (get_RandSP d st).2.site st = d.site st :=
        site_congr _ _ (get_RandSP_sites d st) st
      split
      · have hle := sumOld_MonteCarlo_trial E (get_RandSP d st).2 st (get_RandSP d st).1
          realization
        rw [hsel] at hle
        obtain ⟨r, h1, h2, h3, h4, h5⟩ :=
          ih (MonteCarlo_trial E (get_RandSP d st).2 st (get_RandSP d st).1 realization) (n + 1)
            (by omega) (le_trans hle hs) hfuel2
        refine ⟨r, h1, by omega, ?_, le_trans h4 hle, h5⟩
        have : max (n + 1) ⌈10 * Real.log (s0 : ℝ)⌉ = ⌈10 * Real.log (s0 : ℝ)⌉ :=
          max_eq_right (by omega)
        rw [this] at h3
        exact le_trans h3 (le_max_right _ _)
      · obtain ⟨r, h1, h2, h3, h4, h5⟩ :=
          ih (get_RandSP d st).2 (n + 1) (by omega) (by rw [hsel]; exact hs) hfuel2
        rw [hsel] at h1 h4
        refine ⟨r, h1, by omega, ?_, h4, h5⟩
        have : max (n + 1) ⌈10 * Real.log (s0 : ℝ)⌉ = ⌈10 * Real.log (s0 : ℝ)⌉ :=
          max_eq_right (by omega)
        rw [this] at h3
        exact le_trans h3 (le_max_right _ _)
    · rw [if_neg hgn]
      refine ⟨(d, n), rfl, le_refl _, le_max_left _ _, le_refl _, ?_⟩
      simpa using hgn

theorem ten_log_two_bounds : (6 : ℝ) < 10 * Real.log 2 ∧ 10 * Real.log 2 < 7 := by
  have h1 := Real.log_two_gt_d9
  have h2 := Real.log_two_lt_d9
  constructor <;> linarith

theorem ceil_ten_log_two : ⌈10 * Real.log ((2 : Int) : ℝ)⌉ = 7 := by
  have hb := ten_log_two_bounds
  have hc : (((2 : Int) : ℝ)) = 2 := by norm_num
  rw [hc, Int.ceil_eq_iff]
  constructor <;> norm_num <;> linarith [hb.1, hb.2]

theorem floor_ten_log_two : ⌊10 * Real.log ((2 : Int) : ℝ)⌋ = 6 := by
  have hb := ten_log_two_bounds
  have hc : (((2 : Int) : ℝ)) = 2 := by norm_num
  rw [hc, Int.floor_eq_iff]
  constructor <;> norm_num <;> linarith [hb.1, hb.2]

/-- The comparison `guardUpToTwo` is `in < 10 * log sumOld` for `sumOld ≤ 2`. -/
theorem guardUpToTwo_isLog : guardIsLog guardUpToTwo 2 := by
  intro n s hn hs
  have hb := ten_log_two_bounds
  unfold guardUpToTwo
  simp only [decide_eq_true_eq]
  constructor
  · rintro ⟨h2, h7⟩
    subst h2
    refine ⟨by norm_num, ?_⟩
    have hn6 : (n : ℝ) ≤ 6 := by
      have : n ≤ 6 := by omega
      exact_mod_cast this
    have hc : (((2 : Int) : ℝ)) = 2 := by norm_num
    rw [hc]
    linarith [hb.1]
  · rintro ⟨h1, hlt⟩
    have hcases : s = 1 ∨ s = 2 := by omega
    rcases hcases with rfl | rfl
    · exfalso
      have hc : (((1 : Int) : ℝ)) = 1 := by norm_num
      rw [hc, Real.log_one, mul_zero] at hlt
      have : (0 : ℝ) ≤ (n : ℝ) := by exact_mod_cast hn
      linarith
    · refine ⟨rfl, ?_⟩
      have hc : (((2 : Int) : ℝ)) = 2 := by norm_num
      rw [hc] at hlt
      have h7 : (n : ℝ) < 7 := by linarith [hb.2]
      exact_mod_cast h7

/-- The comparison `in < 10.0*log(sumOld)` is false at `in = 0` when the total
is at most 1. -/
theorem guard_false_of_le_one (g : Int → Int → Bool) (s0 : Int) (hg : guardIsLog g s0)
    (h1 : s0 ≤ 1) : g 0 s0 = false := by
  cases hgv : g 0 s0 with
  | false => rfl
  | true =>
    exfalso
    have h := (hg 0 s0 (le_refl _) (le_refl _)).1 hgv
    have hs : s0 = 1 := le_antisymm h1 h.1
    have h2 := h.2
    rw [hs] at h2
    simp at h2

/-! ## Matching by id and indexing by `id - 1` -/

theorem atI_neg {α : Type} [Inhabited α] (l : List α) (i : Int) (h : i < 0) :
    atI l i = default := by
  unfold atI
  rw [if_pos h]

theorem atI_cons_zero {α : Type} [Inhabited α] (x : α) (xs : List α) : atI (x :: xs) 0 = x := by
  unfold atI
  simp

theorem atI_cons_pos {α : Type} [Inhabited α] (x : α) (xs : List α) (i : Int) (h : 0 < i) :
    atI (x :: xs) i = atI xs (i - 1) := by
  unfold atI
  have h1 : ¬ i < 0 := by omega
  have h2 : ¬ i - 1 < 0 := by omega
  have h3 : i.toNat = (i - 1).toNat + 1 := by omega
  rw [if_neg h1, if_neg h2, h3]
  rfl

theorem sum_id_match_of_le (k q : Int) (es : List tListSpecies) (h : idsFrom k es = true)
    (hq : q ≤ k) : (es.map (fun e => if e.id = q then e.nOld else 0)).sum = 0 := by
  induction es generalizing k with
  | nil => rfl
  | cons e es ih =>
    unfold idsFrom at h
    simp only [Bool.and_eq_true, decide_eq_true_eq] at h
    have hne : ¬ e.id = q := by omega
    rw [List.map_cons, List.sum_cons, if_neg hne, ih (k + 1) h.2 (by omega)]
    rfl

/-- In a species vector that carries the ids `k + 1`, `k + 2`, ..., the
`old` counters of the records whose id is `q` add up to the `old` counter at
index `q - 1 - k`. -/
theorem sum_id_match_eq_atI (k q : Int) (es : List tListSpecies) (h : idsFrom k es = true) :
    (es.map (fun e => if e.id = q then e.nOld else 0)).sum = (atI es (q - 1 - k)).nOld := by
  induction es generalizing k with
  | nil =>
    unfold atI
    split <;> rfl
  | cons e es ih =>
    unfold idsFrom at h
    simp only [Bool.and_eq_true, decide_eq_true_eq] at h
    rw [List.map_cons, List.sum_cons]
    by_cases hq : q = k + 1
    · have h0 : q - 1 - k = 0 := by omega
      rw [h0, atI_cons_zero, if_pos (by rw [h.1, hq]),
        sum_id_match_of_le (k + 1) q es h.2 (by omega), add_zero]
    · have hne : ¬ e.id = q := by omega
      rw [if_neg hne, zero_add, ih (k + 1) h.2]
      by_cases hlt : q - 1 - k < 0
      · rw [atI_neg _ _ hlt, atI_neg _ _ (by omega)]
      · rw [atI_cons_pos _ _ _ (by omega)]
        congr 2
        omega

/-! ## Densities of species with distinct ids add up to at most one -/

theorem atI_cons_split (x : Int) (xs : List Int) (i : Int) :
    atI (x :: xs) i = (if i = 0 then x else 0) + atI xs (i - 1) := by
  by_cases h0 : i = 0
  · subst h0
    rw [atI_cons_zero, if_pos rfl, atI_neg xs (0 - 1) (by omega)]
    exact (add_zero x).symm
  · rw [if_neg h0, zero_add]
    by_cases hlt : i < 0
    · rw [atI_neg _ _ hlt, atI_neg _ _ (by omega)]
    · exact atI_cons_pos x xs i (by omega)

theorem sum_single_index (x : Int) (hx : 0 ≤ x) (idx : List Int) (hnd : idx.Nodup) :
    0 ≤ (idx.map (fun i => if i = 0 then x else 0)).sum
      ∧ (idx.map (fun i => if i = 0 then x else 0)).sum ≤ x := by
  induction idx with
  | nil => exact ⟨le_refl _, hx⟩
  | cons i rest ih =>
    have hr := ih (List.nodup_cons.1 hnd).2
    rw [List.map_cons, List.sum_cons]
    by_cases h0 : i = 0
    · have hnot : (0 : Int) ∉ rest := by
        rw [← h0]
        exact (List.nodup_cons.1 hnd).1
      have hz : (rest.map (fun i => if i = 0 then x else 0)).sum = 0 := by
        apply List.sum_eq_zero
        intro y hy
        rcases List.mem_map.1 hy with ⟨j, hj, rfl⟩
        have : j ≠ 0 := fun hj0 => hnot (hj0 ▸ hj)
        rw [if_neg this]
      rw [if_pos h0, hz, add_zero]
      exact ⟨hx, le_refl _⟩
    · rw [if_neg h0, zero_add]
      exact hr

/-- Reading a list of non-negative numbers at pairwise distinct indices, in
range or not, yields numbers that add up to at most the sum of the list. -/
theorem sum_atI_distinct (l : List Int) (hl : ∀ x ∈ l, 0 ≤ x) (idx : List Int)
    (hnd : idx.Nodup) :
    0 ≤ (idx.map (fun i => atI l i)).sum ∧ (idx.map (fun i => atI l i)).sum ≤ l.sum := by
  induction l generalizing idx with
  | nil =>
    have hz : (idx.map (fun i => atI ([] : List Int) i)).sum = 0 := by
      apply List.sum_eq_zero
      intro y hy
      rcases List.mem_map.1 hy with ⟨j, _, rfl⟩
      unfold atI
      split <;> rfl
    rw [hz]
    exact ⟨le_refl _, le_refl _⟩
  | cons x xs ih =>
    have hx : 0 ≤ x := hl x (List.mem_cons_self _ _)
    have hsplit : (idx.map (fun i => atI (x :: xs) i)).sum
        = (idx.map (fun i => if i = 0 then x else 0)).sum
          + ((idx.map (fun i => i - 1)).map (fun i => atI xs i)).sum := by
      rw [List.map_map, ← List.sum_map_add]
      congr 1
      apply List.map_congr_left
      intro i _
      exact atI_cons_split x xs i
    have hinj : Function.Injective (fun i : Int => i - 1) := by
      intro a b hab
      simp only [sub_left_inj] at hab
      exact hab
    have h1 := sum_single_index x hx idx hnd
    have h2 := ih (fun y hy => hl y (List.mem_cons_of_mem _ hy)) (idx.map (fun i => i - 1))
      (hnd.map hinj)
    rw [hsplit, List.sum_cons]
    constructor
    · linarith [h1.1, h2.1]
    · linarith [h1.2, h2.2]

/-- At a site with non-negative counters, the densities of the species named
by a list of ids without repetition add up to a number in `[0, 1]`. -/
theorem sum_density_bounds (s : Site) (h : s.oldNonneg) (qs : List Int) (hnd : qs.Nodup) :
    0 ≤ (qs.map (fun q => s.get_Density (q - 1))).sum
      ∧ (qs.map (fun q => s.get_Density (q - 1))).sum ≤ 1 := by
  constructor
  · apply List.sum_nonneg
    intro y hy
    rcases List.mem_map.1 hy with ⟨q, _, rfl⟩
    exact (get_Density_bounds s h (q - 1)).1
  · by_cases ht : s.get_TotalPopulation = 0
    · have hz : (qs.map (fun q => s.get_Density (q - 1))).sum = 0 := by
        apply List.sum_eq_zero
        intro y hy
        rcases List.mem_map.1 hy with ⟨q, _, rfl⟩
        unfold Site.get_Density
        rw [if_pos ht]
      rw [hz]
      norm_num
    · have hinj : Function.Injective (fun i : Int => i - 1) := by
        intro a b hab
        simp only [sub_left_inj] at hab
        exact hab
      have hb := sum_atI_distinct s.olds ((oldNonneg_iff_olds s).1 h) (qs.map (fun q => q - 1))
        (hnd.map hinj)
      rw [List.map_map] at hb
      have htot : 0 ≤ s.get_TotalPopulation := by
        rw [get_TotalPopulation_eq_olds]
        exact List.sum_nonneg ((oldNonneg_iff_olds s).1 h)
      have hpos : (0 : ℚ) < ((s.get_TotalPopulation : Int) : ℚ) := by
        have : 0 < s.get_TotalPopulation := by omega
        exact_mod_cast this
      have hsum : (qs.map (fun q => s.get_Density (q - 1))).sum
          = (((qs.map ((fun i => atI s.olds i) ∘ (fun q => q - 1))).sum : Int) : ℚ)
              / ((s.get_TotalPopulation : Int) : ℚ) := by
        induction qs with
        | nil => simp
        | cons q rest ih =>
          have hr := ih (List.nodup_cons.1 hnd).2
            (by
              have := sum_atI_distinct s.olds ((oldNonneg_iff_olds s).1 h)
                (rest.map (fun q => q - 1)) ((List.nodup_cons.1 hnd).2.map hinj)
              rw [List.map_map] at this
              exact this)
          rw [List.map_cons, List.sum_cons, hr, List.map_cons, List.sum_cons]
          unfold Site.get_Density
          rw [if_neg ht, get_Nold_eq_olds]
          simp only [Function.comp]
          push_cast
          ring
      rw [hsum, div_le_one hpos, get_TotalPopulation_eq_olds]
      exact_mod_cast hb.2

theorem accum_bx_bounds (d : Dynamic) (sp st : Int) (h : (d.site st).oldNonneg)
    (hpreys : (d.species sp).preys.Nodup)
    (hnd : ∀ p ∈ (d.species sp).preys, (d.species (p - 1)).predators.Nodup) :
    0 ≤ accum_bx d sp st ∧ accum_bx d sp st ≤ 1 := by
  rw [accum_bx_eq]
  have hterm : ∀ p ∈ (d.species sp).preys,
      0 ≤ (d.site st).get_Density (p - 1) * (1 - get_DensityPredOfPrey d st (p - 1))
        ∧ (d.site st).get_Density (p - 1) * (1 - get_DensityPredOfPrey d st (p - 1))
            ≤ (d.site st).get_Density (p - 1) := by
    intro p hp
    have h1 := get_DensityPredOfPrey_bounds d st (p - 1) h (hnd p hp)
    have h2 := get_Density_bounds (d.site st) h (p - 1)
    constructor
    · exact mul_nonneg h2.1 (by linarith [h1.2])
    · exact mul_le_of_le_one_right h2.1 (by linarith [h1.1])
  constructor
  · apply List.sum_nonneg
    intro y hy
    rcases List.mem_map.1 hy with ⟨p, hp, rfl⟩
    exact (hterm p hp).1
  · exact le_trans (List.sum_le_sum (fun p hp => (hterm p hp).2))
      (sum_density_bounds (d.site st) h _ hpreys).2

theorem roundHalfEven_near (m : ℚ) : |((roundHalfEven m : Int) : ℚ) - m| ≤ 1 / 2 := by
  have h1 := Int.floor_le m
  have h2 := Int.lt_floor_add_one m
  unfold roundHalfEven
  split
  · rw [abs_le]
    constructor <;> linarith
  · rename_i hA
    split
    · push_cast
      rw [abs_le]
      constructor <;> linarith
    · rename_i hB
      have hA2 := not_lt.1 hA
      have hB2 := not_lt.1 hB
      split
      · rw [abs_le]
        constructor <;> linarith
      · push_cast
        rw [abs_le]
        constructor <;> linarith

/-- The scaling loop keeps the value `m * unit` and a positive `unit`, and
leaves a significand of at least `2^k` when the fuel allows `k + 1` bits to be
reached. -/
theorem scaleSignificand_spec (k fuel : Nat) (m unit : ℚ) (hm : 0 < m) (hu : 0 < unit)
    (hfuel : (2 : ℚ) ^ k ≤ m * 2 ^ fuel) :
    (scaleSignificand (k + 1) fuel m unit).1 * (scaleSignificand (k + 1) fuel m unit).2
        = m * unit
      ∧ 0 < (scaleSignificand (k + 1) fuel m unit).2
      ∧ (2 : ℚ) ^ k ≤ (scaleSignificand (k + 1) fuel m unit).1 := by
  induction fuel generalizing m unit with
  | zero =>
    unfold scaleSignificand
    simp only [pow_zero, mul_one] at hfuel
    exact ⟨rfl, hu, hfuel⟩
  | succ n ih =>
    have hk : (k + 1 - 1 : Nat) = k := by omega
    have hpow : (0 : ℚ) < 2 ^ n := by positivity
    unfold scaleSignificand
    split
    · rename_i hbig
      have hbig2 : (2 : ℚ) ^ k ≤ m / 2 := by
        rw [pow_succ] at hbig
        linarith
      have h := ih (m / 2) (unit * 2) (by linarith) (by linarith)
        (by
          have : m / 2 ≤ m / 2 * 2 ^ n := by
            have h1 : (1 : ℚ) ≤ 2 ^ n := one_le_pow₀ (by norm_num)
            nlinarith
          linarith)
      refine ⟨?_, h.2.1, h.2.2⟩
      rw [h.1]
      ring
    · split
      · have h := ih (m * 2) (unit / 2) (by linarith) (by linarith)
          (by
            rw [pow_succ] at hfuel
            linarith)
        refine ⟨?_, h.2.1, h.2.2⟩
        rw [h.1]
        ring
      · rename_i hsmall
        rw [hk] at hsmall
        exact ⟨rfl, hu, not_lt.1 hsmall⟩

theorem scaleSignificand_fuel (k : Nat) (q : ℚ) (hq : q ≠ 0) :
    (2 : ℚ) ^ k ≤ |q| * 2 ^ (q.num.natAbs + q.den + (k + 1)) := by
  have hden : (0 : ℚ) < (q.den : ℚ) := by exact_mod_cast q.den_pos
  have hnum : (1 : ℚ) ≤ |(q.num : ℚ)| := by
    have h0 : q.num ≠ 0 := Rat.num_ne_zero.2 hq
    have h1 : (1 : Int) ≤ |q.num| := Int.one_le_abs h0
    exact_mod_cast h1
  have habs : |q| = |(q.num : ℚ)| / (q.den : ℚ) := by
    conv_lhs => rw [← Rat.num_div_den q]
    rw [abs_div, abs_of_pos hden]
  have hge : 1 / (q.den : ℚ) ≤ |q| := by
    rw [habs]
    exact div_le_div_of_nonneg_right hnum hden.le
  have hd2 : (q.den : ℚ) ≤ 2 ^ q.den := by
    have := Nat.lt_two_pow q.den
    exact_mod_cast this.le
  have h1 : (1 : ℚ) ≤ 2 ^ q.num.natAbs := one_le_pow₀ (by norm_num)
  have hk : (0 : ℚ) < 2 ^ k := by positivity
  have hsplit : (2 : ℚ) ^ (q.num.natAbs + q.den + (k + 1))
      = 2 ^ q.num.natAbs * 2 ^ q.den * (2 ^ k * 2) := by
    rw [pow_add, pow_add, pow_succ]
  rw [hsplit]
  have hA : (1 : ℚ) ≤ |q| * 2 ^ q.den := by
    calc (1 : ℚ) = 1 / (q.den : ℚ) * (q.den : ℚ) := by field_simp
      _ ≤ |q| * 2 ^ q.den := mul_le_mul hge hd2 hden.le (abs_nonneg q)
  have hB : (1 : ℚ) ≤ |q| * 2 ^ q.den * 2 ^ q.num.natAbs := by nlinarith
  nlinarith

theorem round_scaled_near (k : Nat) (m unit a : ℚ) (h1 : m * unit = a) (hu : 0 < unit)
    (hm : (2 : ℚ) ^ k ≤ m) :
    |((roundHalfEven m : Int) : ℚ) * unit - a| ≤ a / 2 ^ (k + 1) := by
  have hr := roundHalfEven_near m
  have hk : (0 : ℚ) < 2 ^ k := by positivity
  have hunit : unit ≤ a / 2 ^ k := by
    rw [le_div_iff₀ hk]
    have := mul_le_mul_of_nonneg_right hm hu.le
    linarith
  have e : ((roundHalfEven m : Int) : ℚ) * unit - a
      = (((roundHalfEven m : Int) : ℚ) - m) * unit := by
    rw [sub_mul, h1]
  rw [e, abs_mul, abs_of_pos hu]
  have h2 : a / 2 ^ (k + 1) = 1 / 2 * (a / 2 ^ k) := by
    rw [pow_succ]
    field_simp
    left
    ring
  rw [h2]
  exact mul_le_mul hr hunit hu.le (by norm_num)

/-- Rounding to `k + 1` significant bits moves a number by at most the
fraction `2^-(k+1)` of its magnitude. -/
theorem roundToBits_rel (k : Nat) (q : ℚ) :
    |roundToBits (k + 1) q - q| ≤ |q| / 2 ^ (k + 1) := by
  by_cases hq : q = 0
  · subst hq
    simp [roundToBits]
  · have habs : 0 < |q| := abs_pos.2 hq
    have hs := scaleSignificand_spec k (q.num.natAbs + q.den + (k + 1)) |q| 1 habs one_pos
      (scaleSignificand_fuel k q hq)
    rw [mul_one] at hs
    have hcore := round_scaled_near k _ _ (abs q) hs.1 hs.2.1 hs.2.2
    unfold roundToBits
    rw [if_neg hq]
    simp only []
    split
    · rename_i hpos
      have ha : abs q = q := abs_of_pos hpos
      rw [ha] at hcore ⊢
      exact hcore
    · rename_i hneg
      have hlt : q < 0 := lt_of_le_of_ne (not_lt.1 hneg) hq
      have ha : abs q = -q := abs_of_neg hlt
      have e2 : ∀ r : ℚ, abs ((-r) - q) = abs (r - abs q) := by
        intro r
        rw [ha, ← abs_neg]
        congr 1
        ring
      rw [e2]
      exact hcore

/-! ## Propagation of the rounding error -/

theorem unitRoundoff_pos : 0 < unitRoundoff := by
  unfold unitRoundoff
  norm_num

theorem toFloat_near (x : ℚ) : |toFloat x - x| ≤ unitRoundoff * |x| := by
  have h := roundToBits_rel 23 x
  unfold toFloat unitRoundoff
  rw [div_eq_mul_inv, mul_comm] at h
  simpa using h

theorem toDouble_near (x : ℚ) : |toDouble x - x| ≤ unitRoundoff * |x| := by
  have h := roundToBits_rel 52 x
  unfold toDouble unitRoundoff
  refine le_trans h ?_
  rw [div_eq_mul_inv, mul_comm]
  apply mul_le_mul_of_nonneg_right _ (abs_nonneg x)
  norm_num

theorem roundsWithin_toFloat : RoundsWithin unitRoundoff toFloat := toFloat_near

theorem roundsWithin_toDouble : RoundsWithin unitRoundoff toDouble := toDouble_near

theorem roundsWithin_nonneg (ρ : ℚ) (R : ℚ → ℚ) (hR : RoundsWithin ρ R) (hρ : ρ ≤ 1) (x : ℚ)
    (hx : 0 ≤ x) : 0 ≤ R x := by
  have h := hR x
  rw [abs_of_nonneg hx, abs_le] at h
  nlinarith [h.1]

theorem roundsWithin_comp (ρ1 ρ2 : ℚ) (R1 R2 : ℚ → ℚ) (h1 : RoundsWithin ρ1 R1)
    (h2 : RoundsWithin ρ2 R2) (hρ2 : 0 ≤ ρ2) :
    RoundsWithin (ρ1 + ρ2 + ρ1 * ρ2) (fun x => R2 (R1 x)) := by
  intro x
  have a := h1 x
  have b := h2 (R1 x)
  have hx : |R1 x| ≤ |x| + ρ1 * |x| := by
    calc |R1 x| = |(R1 x - x) + x| := by ring_nf
      _ ≤ |R1 x - x| + |x| := abs_add _ _
      _ ≤ |x| + ρ1 * |x| := by linarith
  calc |R2 (R1 x) - x| = |(R2 (R1 x) - R1 x) + (R1 x - x)| := by ring_nf
    _ ≤ |R2 (R1 x) - R1 x| + |R1 x - x| := abs_add _ _
    _ ≤ ρ2 * |R1 x| + ρ1 * |x| := by linarith
    _ ≤ ρ2 * (|x| + ρ1 * |x|) + ρ1 * |x| := by
        have := mul_le_mul_of_nonneg_left hx hρ2
        linarith
    _ = (ρ1 + ρ2 + ρ1 * ρ2) * |x| := by ring

theorem roundsWithin_mono (ρ ρ2 : ℚ) (R : ℚ → ℚ) (h : RoundsWithin ρ R) (hle : ρ ≤ ρ2) :
    RoundsWithin ρ2 R := by
  intro x
  exact le_trans (h x) (mul_le_mul_of_nonneg_right hle (abs_nonneg x))

/-- The conversion of a `double` result to `float` rounds twice. -/
theorem roundsWithin_toFloat_toDouble :
    RoundsWithin (3 * unitRoundoff) (fun x => toFloat (toDouble x)) := by
  apply roundsWithin_mono _ _ _
    (roundsWithin_comp _ _ _ _ roundsWithin_toDouble roundsWithin_toFloat unitRoundoff_pos.le)
  unfold unitRoundoff
  norm_num

/-- Rounding a value `x` that is within `e` of `y`, with `|y| ≤ B`. -/
theorem near_round (ρ : ℚ) (R : ℚ → ℚ) (hR : RoundsWithin ρ R) (hρ : 0 ≤ ρ) (x y e B e2 : ℚ)
    (h : |x - y| ≤ e) (hB : |y| ≤ B) (he2 : e + ρ * (B + e) ≤ e2) : |R x - y| ≤ e2 := by
  have hx : |x| ≤ B + e := by
    calc |x| = |(x - y) + y| := by ring_nf
      _ ≤ |x - y| + |y| := abs_add _ _
      _ ≤ B + e := by linarith
  calc |R x - y| = |(R x - x) + (x - y)| := by ring_nf
    _ ≤ |R x - x| + |x - y| := abs_add _ _
    _ ≤ ρ * |x| + e := by linarith [hR x]
    _ ≤ ρ * (B + e) + e := by
        have := mul_le_mul_of_nonneg_left hx hρ
        linarith
    _ ≤ e2 := by linarith

theorem near_mul (x y x2 y2 e f B C e2 : ℚ) (h : |x - y| ≤ e) (h2 : |x2 - y2| ≤ f)
    (hB : |y| ≤ B) (hC : |y2| ≤ C) (he2 : e * C + B * f + e * f ≤ e2) :
    |x * x2 - y * y2| ≤ e2 := by
  have he : 0 ≤ e := le_trans (abs_nonneg _) h
  have hf : 0 ≤ f := le_trans (abs_nonneg _) h2
  have hB0 : 0 ≤ B := le_trans (abs_nonneg _) hB
  have e1 : x * x2 - y * y2 = (x - y) * (x2 - y2) + (x - y) * y2 + y * (x2 - y2) := by ring
  calc |x * x2 - y * y2| = |(x - y) * (x2 - y2) + (x - y) * y2 + y * (x2 - y2)| := by rw [e1]
    _ ≤ |(x - y) * (x2 - y2)| + |(x - y) * y2| + |y * (x2 - y2)| := abs_add_three _ _ _
    _ = |x - y| * |x2 - y2| + |x - y| * |y2| + |y| * |x2 - y2| := by
        rw [abs_mul, abs_mul, abs_mul]
    _ ≤ e * f + e * C + B * f := by
        have a1 := mul_le_mul h h2 (abs_nonneg _) he
        have a2 := mul_le_mul h hC (abs_nonneg _) he
        have a3 := mul_le_mul hB h2 (abs_nonneg _) hB0
        linarith
    _ ≤ e2 := by linarith

theorem near_one_sub (x y e : ℚ) (h : |x - y| ≤ e) : |(1 - x) - (1 - y)| ≤ e := by
  have : (1 - x) - (1 - y) = -(x - y) := by ring
  rw [this, abs_neg]
  exact h

/-! ## The rounding error of a density and of an accumulated sum -/

theorem toFloat_one : toFloat 1 = 1 := by decide!

/-- The quotient of two counts `0 ≤ a ≤ b`, `b > 0`, computed in `float`
from the converted counts, is within `4 * unitRoundoff` of `a / b`, relative
to `a / b`. -/
theorem ratio_float_near (a b : Int) (ha : 0 ≤ a) (hb : 0 < b) :
    |toFloat (toFloat (a : ℚ) / toFloat (b : ℚ)) - (a : ℚ) / (b : ℚ)|
        ≤ 4 * unitRoundoff * ((a : ℚ) / (b : ℚ))
      ∧ 0 ≤ toFloat (toFloat (a : ℚ) / toFloat (b : ℚ)) := by
  have hu := unitRoundoff_pos
  have hu2 : unitRoundoff ≤ 1 / 16777216 := by
    unfold unitRoundoff
    norm_num
  have haq : (0 : ℚ) ≤ (a : ℚ) := by exact_mod_cast ha
  have hbq : (0 : ℚ) < (b : ℚ) := by exact_mod_cast hb
  have hA := toFloat_near (a : ℚ)
  have hB := toFloat_near (b : ℚ)
  rw [abs_of_nonneg haq, abs_le] at hA
  rw [abs_of_pos hbq, abs_le] at hB
  have hBpos : 0 < toFloat (b : ℚ) := by nlinarith [hB.1]
  have hA0 : 0 ≤ toFloat (a : ℚ) := by nlinarith [hA.1]
  have hq0 : 0 ≤ toFloat (a : ℚ) / toFloat (b : ℚ) := div_nonneg hA0 hBpos.le
  have hd0 : 0 ≤ (a : ℚ) / (b : ℚ) := div_nonneg haq hbq.le
  -- the quotient before its rounding
  have hquot : |toFloat (a : ℚ) / toFloat (b : ℚ) - (a : ℚ) / (b : ℚ)|
      ≤ (5 / 2) * unitRoundoff * ((a : ℚ) / (b : ℚ)) := by
    rw [div_sub_div _ _ hBpos.ne' hbq.ne', abs_div, abs_of_pos (mul_pos hBpos hbq),
      div_le_iff₀ (mul_pos hBpos hbq)]
    have hnum : |toFloat (a : ℚ) * (b : ℚ) - toFloat (b : ℚ) * (a : ℚ)|
        ≤ 2 * unitRoundoff * ((a : ℚ) * (b : ℚ)) := by
      rw [abs_le]
      constructor <;> nlinarith [hA.1, hA.2, hB.1, hB.2, mul_nonneg haq hbq.le]
    have hrhs : 2 * unitRoundoff * ((a : ℚ) * (b : ℚ))
        ≤ (5 / 2) * unitRoundoff * ((a : ℚ) / (b : ℚ)) * (toFloat (b : ℚ) * (b : ℚ)) := by
      have e : (5 / 2) * unitRoundoff * ((a : ℚ) / (b : ℚ)) * (toFloat (b : ℚ) * (b : ℚ))
          = (5 / 2) * unitRoundoff * (a : ℚ) * toFloat (b : ℚ) := by
        field_simp
        ring
      rw [e]
      have hBlow : (b : ℚ) * (4 / 5) ≤ toFloat (b : ℚ) := by nlinarith [hB.1]
      have hau : 0 ≤ unitRoundoff * (a : ℚ) := mul_nonneg hu.le haq
      nlinarith [mul_le_mul_of_nonneg_left hBlow hau]
    exact le_trans hnum hrhs
  have hqle : toFloat (a : ℚ) / toFloat (b : ℚ) ≤ 2 * ((a : ℚ) / (b : ℚ)) := by
    have := (abs_le.1 hquot).2
    nlinarith
  have hR := toFloat_near (toFloat (a : ℚ) / toFloat (b : ℚ))
  rw [abs_of_nonneg hq0] at hR
  refine ⟨?_, roundsWithin_nonneg _ _ roundsWithin_toFloat (by linarith) _ hq0⟩
  calc |toFloat (toFloat (a : ℚ) / toFloat (b : ℚ)) - (a : ℚ) / (b : ℚ)|
      = |(toFloat (toFloat (a : ℚ) / toFloat (b : ℚ)) - toFloat (a : ℚ) / toFloat (b : ℚ))
          + (toFloat (a : ℚ) / toFloat (b : ℚ) - (a : ℚ) / (b : ℚ))| := by ring_nf
    _ ≤ |toFloat (toFloat (a : ℚ) / toFloat (b : ℚ)) - toFloat (a : ℚ) / toFloat (b : ℚ)|
          + |toFloat (a : ℚ) / toFloat (b : ℚ) - (a : ℚ) / (b : ℚ)| := abs_add _ _
    _ ≤ unitRoundoff * (toFloat (a : ℚ) / toFloat (b : ℚ))
          + (5 / 2) * unitRoundoff * ((a : ℚ) / (b : ℚ)) := by linarith
    _ ≤ 4 * unitRoundoff * ((a : ℚ) / (b : ℚ)) := by
        have := (abs_le.1 hquot).2
        nlinarith [mul_nonneg hu.le hd0]

theorem get_Density_float_rel (s : Site) (h : s.oldNonneg) (q : Int) :
    |s.get_Density_float q - s.get_Density q| ≤ 4 * unitRoundoff * s.get_Density q
      ∧ 0 ≤ s.get_Density_float q := by
  have hb := get_Nold_bounds s h q
  unfold Site.get_Density_float Site.get_Density
  by_cases ht : s.get_TotalPopulation = 0
  · rw [if_pos ht, if_pos ht]
    simp
  · rw [if_neg ht, if_neg ht]
    exact ratio_float_near _ _ hb.1 (by omega)

theorem get_Density_float_near (s : Site) (h : s.oldNonneg) (q : Int) :
    |s.get_Density_float q - s.get_Density q| ≤ 4 * unitRoundoff
      ∧ 0 ≤ s.get_Density_float q := by
  have h1 := get_Density_float_rel s h q
  have h2 := get_Density_bounds s h q
  refine ⟨le_trans h1.1 ?_, h1.2⟩
  have := unitRoundoff_pos
  nlinarith [h2.1, h2.2]

theorem get_DensityPredOfPrey_float_near (d : Dynamic) (st p : Int) (h : (d.site st).oldNonneg)
    (hnd : (d.species p).predators.Nodup) :
    |get_DensityPredOfPrey_float d st p - get_DensityPredOfPrey d st p| ≤ 4 * unitRoundoff
      ∧ 0 ≤ get_DensityPredOfPrey_float d st p := by
  have hb := get_NumberIndPredators_bounds d st p h hnd
  have h2 := get_DensityPredOfPrey_bounds d st p h hnd
  have hu := unitRoundoff_pos
  unfold get_DensityPredOfPrey_float
  unfold get_DensityPredOfPrey at h2 ⊢
  simp only [] at h2 ⊢
  by_cases ht : (d.site st).get_TotalPopulation = 0
  · rw [if_neg (by simpa using ht), if_neg (by simpa using ht)]
    simp
    exact hu.le
  · rw [if_pos ht] at h2 ⊢
    rw [if_pos ht]
    have hr := ratio_float_near (get_NumberIndPredators d st p) (d.site st).get_TotalPopulation
      hb.1 (by omega)
    refine ⟨le_trans hr.1 ?_, hr.2⟩
    nlinarith [h2.1, h2.2]

/-- The error of a sum accumulated with a rounding after each addition: the
terms are within `e` of terms lying in `[0, 1]`, the rounding has relative
error at most `ρ`, and after `n` terms the accumulated value is within
`2 * n * (e + ρ * n)` of the exact sum. -/
theorem accum_near (ρ e : ℚ) (R : ℚ → ℚ) (hR : RoundsWithin ρ R) (hρ : 0 ≤ ρ) (he : 0 ≤ e)
    {α : Type} (tf t : α → ℚ) (l : List α)
    (ht : ∀ x ∈ l, |tf x - t x| ≤ e ∧ 0 ≤ t x ∧ t x ≤ 1)
    (acc S : ℚ) (k : Nat) (hS0 : 0 ≤ S) (hS : S ≤ (k : ℚ))
    (hacc : |acc - S| ≤ 2 * (k : ℚ) * (e + ρ * (k : ℚ)))
    (hsmall : ρ * ((k : ℚ) + (l.length : ℚ)) ≤ 1 / 4) :
    |l.foldl (fun a x => R (a + tf x)) acc - (S + (l.map t).sum)|
      ≤ 2 * ((k : ℚ) + (l.length : ℚ)) * (e + ρ * ((k : ℚ) + (l.length : ℚ))) := by
  induction l generalizing acc S k with
  | nil =>
    simp only [List.foldl_nil, List.map_nil, List.sum_nil, add_zero, List.length_nil,
      Nat.cast_zero]
    exact hacc
  | cons x rest ih =>
    have hx := ht x (List.mem_cons_self _ _)
    have hk0 : (0 : ℚ) ≤ (k : ℚ) := Nat.cast_nonneg k
    have hlen0 : (0 : ℚ) ≤ (rest.length : ℚ) := Nat.cast_nonneg _
    have hlen : (((x :: rest).length : Nat) : ℚ) = (rest.length : ℚ) + 1 := by
      simp
    rw [hlen] at hsmall
    have hρk : ρ * (k : ℚ) ≤ 1 / 4 := by nlinarith [mul_nonneg hρ hlen0]
    have hρ1 : ρ ≤ 1 / 4 := by nlinarith [mul_nonneg hρ hlen0, mul_nonneg hρ hk0]
    have hz : |(acc + tf x) - (S + t x)| ≤ 2 * (k : ℚ) * (e + ρ * (k : ℚ)) + e := by
      calc |(acc + tf x) - (S + t x)| = |(acc - S) + (tf x - t x)| := by ring_nf
        _ ≤ |acc - S| + |tf x - t x| := abs_add _ _
        _ ≤ 2 * (k : ℚ) * (e + ρ * (k : ℚ)) + e := by linarith [hx.1]
    have hSabs : |S + t x| ≤ (k : ℚ) + 1 := by
      rw [abs_of_nonneg (by linarith [hx.2.1])]
      linarith [hx.2.2]
    have hstep : |R (acc + tf x) - (S + t x)|
        ≤ 2 * (((k + 1 : Nat) : ℚ)) * (e + ρ * (((k + 1 : Nat) : ℚ))) := by
      apply near_round ρ R hR hρ _ _ _ _ _ hz hSabs
      push_cast
      have h1 : 0 ≤ ρ * (k : ℚ) := mul_nonneg hρ hk0
      have h2 : 0 ≤ e * (k : ℚ) := mul_nonneg he hk0
      have h3 : ρ * (2 * (k : ℚ) * (e + ρ * (k : ℚ)))
          ≤ e / 2 + ρ * (k : ℚ) / 2 := by
        have a1 : ρ * (k : ℚ) * e ≤ 1 / 4 * e := mul_le_mul_of_nonneg_right hρk he
        have a2 : ρ * (k : ℚ) * (ρ * (k : ℚ)) ≤ 1 / 4 * (ρ * (k : ℚ)) :=
          mul_le_mul_of_nonneg_right hρk h1
        nlinarith
      have h4 : ρ * e ≤ 1 / 4 * e := mul_le_mul_of_nonneg_right hρ1 he
      nlinarith
    have hres := ih (fun y hy => ht y (List.mem_cons_of_mem _ hy)) (R (acc + tf x)) (S + t x)
      (k + 1) (by linarith [hx.2.1]) (by push_cast; linarith [hx.2.2]) hstep
      (by push_cast; linarith)
    simp only [List.foldl_cons, List.map_cons, List.sum_cons]
    rw [hlen]
    have e1 : S + (t x + (rest.map t).sum) = S + t x + (rest.map t).sum := by ring
    have e2 : (k : ℚ) + ((rest.length : ℚ) + 1) = ((k + 1 : Nat) : ℚ) + (rest.length : ℚ) := by
      push_cast
      ring
    rw [e1, e2]
    exact hres

/-- The accumulation started from `0`. -/
theorem accum_near_zero (ρ e : ℚ) (R : ℚ → ℚ) (hR : RoundsWithin ρ R) (hρ : 0 ≤ ρ)
    (he : 0 ≤ e) {α : Type} (tf t : α → ℚ) (l : List α)
    (ht : ∀ x ∈ l, |tf x - t x| ≤ e ∧ 0 ≤ t x ∧ t x ≤ 1)
    (hsmall : ρ * (l.length : ℚ) ≤ 1 / 4) :
    |l.foldl (fun a x => R (a + tf x)) 0 - (l.map t).sum|
      ≤ 2 * (l.length : ℚ) * (e + ρ * (l.length : ℚ)) := by
  have h := accum_near ρ e R hR hρ he tf t l ht 0 0 0 (le_refl _) (by simp) (by simp)
    (by simpa using hsmall)
  simpa using h

/-! ## The rounding error of the accumulated terms of the rate calculators -/

/-- The term `a * (1 - b)` computed from values within `4 * unitRoundoff` of
`a` and `b`, both in `[0, 1]`, with a rounding after the difference and after
the product. -/
theorem term_near (R1 R2 : ℚ → ℚ) (h1 : RoundsWithin unitRoundoff R1)
    (h2 : RoundsWithin unitRoundoff R2) (af a bf b : ℚ)
    (ha : |af - a| ≤ 4 * unitRoundoff) (hb : |bf - b| ≤ 4 * unitRoundoff)
    (ha0 : 0 ≤ a) (ha1 : a ≤ 1) (hb0 : 0 ≤ b) (hb1 : b ≤ 1) :
    |R2 (af * R1 (1 - bf)) - a * (1 - b)| ≤ 13 * unitRoundoff := by
  have hu := unitRoundoff_pos
  have hu2 : unitRoundoff = 1 / 16777216 := by
    unfold unitRoundoff
    norm_num
  have hw : |R1 (1 - bf) - (1 - b)| ≤ 6 * unitRoundoff :=
    near_round unitRoundoff R1 h1 hu.le _ _ _ 1 _ (near_one_sub bf b _ hb)
      (by rw [abs_le]; constructor <;> linarith) (by rw [hu2]; norm_num)
  have hp : |af * R1 (1 - bf) - a * (1 - b)| ≤ 11 * unitRoundoff :=
    near_mul _ _ _ _ _ _ 1 1 _ ha hw (by rw [abs_le]; constructor <;> linarith)
      (by rw [abs_le]; constructor <;> linarith) (by rw [hu2]; norm_num)
  have hprod : |a * (1 - b)| ≤ 1 := by
    rw [abs_le]
    constructor <;> nlinarith
  exact near_round unitRoundoff R2 h2 hu.le _ _ _ 1 _ hp hprod (by rw [hu2]; norm_num)

theorem accum_dx_float_near (d : Dynamic) (sp st : Int) (h : (d.site st).oldNonneg)
    (hnd : ∀ p ∈ (d.species sp).preys, (d.species (p - 1)).predators.Nodup)
    (hn : (d.species sp).preys.length ≤ 100) :
    |accum_dx_float d sp st - accum_dx d sp st|
      ≤ 2 * ((d.species sp).preys.length : ℚ)
          * (13 * unitRoundoff + unitRoundoff * ((d.species sp).preys.length : ℚ)) := by
  have hu := unitRoundoff_pos
  have hu2 : unitRoundoff = 1 / 16777216 := by
    unfold unitRoundoff
    norm_num
  rw [accum_dx_eq]
  unfold accum_dx_float
  simp only []
  apply accum_near_zero unitRoundoff (13 * unitRoundoff) toFloat roundsWithin_toFloat hu.le
    (by linarith)
    (fun prey => toFloat (get_DensityPredOfPrey_float d st (prey - 1)
      * toFloat (1 - (d.site st).get_Density_float (prey - 1))))
    (fun p => get_DensityPredOfPrey d st (p - 1) * (1 - (d.site st).get_Density (p - 1)))
  · intro p hp
    have hP := get_DensityPredOfPrey_float_near d st (p - 1) h (hnd p hp)
    have hD := get_Density_float_near (d.site st) h (p - 1)
    have bP := get_DensityPredOfPrey_bounds d st (p - 1) h (hnd p hp)
    have bD := get_Density_bounds (d.site st) h (p - 1)
    refine ⟨term_near toFloat toFloat roundsWithin_toFloat roundsWithin_toFloat _ _ _ _
      hP.1 hD.1 bP.1 bP.2 bD.1 bD.2, ?_, ?_⟩
    · exact mul_nonneg bP.1 (by linarith [bD.2])
    · nlinarith [bP.1, bP.2, bD.1, bD.2]
  · have : ((d.species sp).preys.length : ℚ) ≤ 100 := by exact_mod_cast hn
    rw [hu2]
    linarith

theorem accum_dy_float_near (d : Dynamic) (sp st : Int) (h : (d.site st).oldNonneg)
    (hm : (d.species sp).predators.length ≤ 100) :
    |accum_dy_float d sp st - accum_dy d sp st|
      ≤ 2 * ((d.species sp).predators.length : ℚ)
          * (4 * unitRoundoff + unitRoundoff * ((d.species sp).predators.length : ℚ)) := by
  have hu := unitRoundoff_pos
  have hu2 : unitRoundoff = 1 / 16777216 := by
    unfold unitRoundoff
    norm_num
  rw [accum_dy_eq]
  unfold accum_dy_float
  apply accum_near_zero unitRoundoff (4 * unitRoundoff) toFloat roundsWithin_toFloat hu.le
    (by linarith)
    (fun pred => (d.site st).get_Density_float (pred - 1))
    (fun q => (d.site st).get_Density (q - 1))
  · intro q _
    have hD := get_Density_float_near (d.site st) h (q - 1)
    have bD := get_Density_bounds (d.site st) h (q - 1)
    exact ⟨hD.1, bD.1, bD.2⟩
  · have : ((d.species sp).predators.length : ℚ) ≤ 100 := by exact_mod_cast hm
    rw [hu2]
    linarith

theorem accum_bx_float_near (d : Dynamic) (sp st : Int) (h : (d.site st).oldNonneg)
    (hnd : ∀ p ∈ (d.species sp).preys, (d.species (p - 1)).predators.Nodup)
    (hn : (d.species sp).preys.length ≤ 100) :
    |accum_bx_float d sp st - accum_bx d sp st|
      ≤ 2 * ((d.species sp).preys.length : ℚ)
          * (13 * unitRoundoff + 3 * unitRoundoff * ((d.species sp).preys.length : ℚ)) := by
  have hu := unitRoundoff_pos
  have hu2 : unitRoundoff = 1 / 16777216 := by
    unfold unitRoundoff
    norm_num
  rw [accum_bx_eq]
  unfold accum_bx_float
  simp only []
  apply accum_near_zero (3 * unitRoundoff) (13 * unitRoundoff) (fun x => toFloat (toDouble x))
    roundsWithin_toFloat_toDouble (by linarith) (by linarith)
    (fun prey => toDouble ((d.site st).get_Density_float (prey - 1)
      * toDouble (1 - get_DensityPredOfPrey_float d st (prey - 1))))
    (fun p => (d.site st).get_Density (p - 1) * (1 - get_DensityPredOfPrey d st (p - 1)))
  · intro p hp
    have hP := get_DensityPredOfPrey_float_near d st (p - 1) h (hnd p hp)
    have hD := get_Density_float_near (d.site st) h (p - 1)
    have bP := get_DensityPredOfPrey_bounds d st (p - 1) h (hnd p hp)
    have bD := get_Density_bounds (d.site st) h (p - 1)
    refine ⟨term_near toDouble toDouble roundsWithin_toDouble roundsWithin_toDouble _ _ _ _
      hD.1 hP.1 bD.1 bD.2 bP.1 bP.2, ?_, ?_⟩
    · exact mul_nonneg bD.1 (by linarith [bP.2])
    · nlinarith [bP.1, bP.2, bD.1, bD.2]
  · have : ((d.species sp).preys.length : ℚ) ≤ 100 := by exact_mod_cast hn
    rw [hu2]
    linarith

/-! ## Error propagation in units of the unit roundoff -/

theorem near_round_u (c : ℚ) (R : ℚ → ℚ) (hR : RoundsWithin (c * unitRoundoff) R) (hc : 0 ≤ c)
    (x y K B K2 : ℚ) (h : |x - y| ≤ K * unitRoundoff) (hB : |y| ≤ B) (hK : K ≤ 4194304)
    (hside : K + c * B + c / 4 ≤ K2) : |R x - y| ≤ K2 * unitRoundoff := by
  have hu2 : unitRoundoff = 1 / 16777216 := by
    unfold unitRoundoff
    norm_num
  apply near_round (c * unitRoundoff) R hR (mul_nonneg hc unitRoundoff_pos.le) x y
    (K * unitRoundoff) B _ h hB
  rw [hu2] at *
  have h1 : c * K ≤ c * 4194304 := mul_le_mul_of_nonneg_left hK hc
  nlinarith

theorem near_mul_u (x y x2 y2 K L B C K2 : ℚ) (h : |x - y| ≤ K * unitRoundoff)
    (h2 : |x2 - y2| ≤ L * unitRoundoff) (hB : |y| ≤ B) (hC : |y2| ≤ C) (hL : L ≤ 4194304)
    (hside : K * C + B * L + K / 4 ≤ K2) : |x * x2 - y * y2| ≤ K2 * unitRoundoff := by
  have hu2 : unitRoundoff = 1 / 16777216 := by
    unfold unitRoundoff
    norm_num
  have hK0 : 0 ≤ K := by
    have := le_trans (abs_nonneg _) h
    rw [hu2] at this
    linarith
  apply near_mul x y x2 y2 (K * unitRoundoff) (L * unitRoundoff) B C _ h h2 hB hC
  rw [hu2]
  have h1 : K * L ≤ K * 4194304 := mul_le_mul_of_nonneg_left hL hK0
  nlinarith

theorem roundsWithin_toFloat_u : RoundsWithin (1 * unitRoundoff) toFloat := by
  rw [one_mul]
  exact roundsWithin_toFloat

theorem roundsWithin_toDouble_u : RoundsWithin (1 * unitRoundoff) toDouble := by
  rw [one_mul]
  exact roundsWithin_toDouble

theorem abs_mul_le_of_le (a b B C : ℚ) (ha : |a| ≤ B) (hb : |b| ≤ C) : |a * b| ≤ B * C := by
  rw [abs_mul]
  exact mul_le_mul ha hb (abs_nonneg _) (le_trans (abs_nonneg _) ha)

theorem abs_le_of_mem_unit (a : ℚ) (h0 : 0 ≤ a) (h1 : a ≤ 1) : |a| ≤ 1 := by
  rw [abs_le]
  constructor <;> linarith

theorem abs_one_sub_le_of_mem_unit (a : ℚ) (h0 : 0 ≤ a) (h1 : a ≤ 1) : |1 - a| ≤ 1 := by
  rw [abs_le]
  constructor <;> linarith

/-! ## `SOC_NDP` in `float` against its formula -/

theorem toFloat_int_pos (t : Int) (ht : 0 < t) : 0 < toFloat (t : ℚ) := by
  have htq : (0 : ℚ) < (t : ℚ) := by exact_mod_cast ht
  have h := toFloat_near (t : ℚ)
  rw [abs_of_pos htq, abs_le] at h
  have hu2 : unitRoundoff = 1 / 16777216 := by
    unfold unitRoundoff
    norm_num
  rw [hu2] at h
  nlinarith [h.1]

/-- At a site with non-negative counters and fewer than `2^22` individuals,
the density stored in a `float` is `1` exactly when the density is `1`. -/
theorem get_Density_float_eq_one_iff (s : Site) (h : s.oldNonneg) (q : Int)
    (htot : s.get_TotalPopulation < 2 ^ 22) :
    s.get_Density_float q = 1 ↔ s.get_Density q = 1 := by
  have hu2 : unitRoundoff = 1 / 16777216 := by
    unfold unitRoundoff
    norm_num
  have hb := get_Nold_bounds s h q
  have hrel := get_Density_float_rel s h q
  by_cases ht : s.get_TotalPopulation = 0
  · unfold Site.get_Density_float Site.get_Density
    rw [if_pos ht, if_pos ht]
  · have htpos : 0 < s.get_TotalPopulation := by omega
    have htq : (0 : ℚ) < ((s.get_TotalPopulation : Int) : ℚ) := by exact_mod_cast htpos
    have hD : s.get_Density q
        = ((s.get_Nold q : Int) : ℚ) / ((s.get_TotalPopulation : Int) : ℚ) := by
      unfold Site.get_Density
      rw [if_neg ht]
    constructor
    · intro hf
      by_contra hne
      have hlt : s.get_Nold q < s.get_TotalPopulation := by
        rcases lt_or_eq_of_le hb.2 with h1 | h1
        · exact h1
        · exfalso
          apply hne
          rw [hD, h1]
          exact div_self htq.ne'
      have hle : ((s.get_Nold q : Int) : ℚ) ≤ ((s.get_TotalPopulation : Int) : ℚ) - 1 := by
        have : s.get_Nold q ≤ s.get_TotalPopulation - 1 := by omega
        exact_mod_cast this
      have hDle : s.get_Density q ≤ 1 - 1 / ((s.get_TotalPopulation : Int) : ℚ) := by
        rw [hD, div_le_iff₀ htq]
        field_simp
        linarith
      have hD0 : 0 ≤ s.get_Density q := (get_Density_bounds s h q).1
      have hup := (abs_le.1 hrel.1).2
      rw [hf, hu2] at hup
      have htq2 : ((s.get_TotalPopulation : Int) : ℚ) < 4194304 := by
        have : s.get_TotalPopulation < 4194304 := by
          have e : (2 : Int) ^ 22 = 4194304 := by norm_num
          omega
        exact_mod_cast this
      have hinv : 1 / (4194304 : ℚ) < 1 / ((s.get_TotalPopulation : Int) : ℚ) :=
        one_div_lt_one_div_of_lt htq htq2
      nlinarith
    · intro hone
      have heq : s.get_Nold q = s.get_TotalPopulation := by
        rw [hD, div_eq_one_iff_eq htq.ne'] at hone
        exact_mod_cast hone
      unfold Site.get_Density_float
      rw [if_neg ht, heq, div_self (toFloat_int_pos _ htpos).ne']
      exact toFloat_one

theorem SOC_NDP_float_near (d : Dynamic) (sp st : Int) (h : (d.site st).oldNonneg)
    (hnd : ∀ p ∈ (d.species sp).preys, (d.species (p - 1)).predators.Nodup)
    (hn : (d.species sp).preys.length ≤ 100)
    (htot : (d.site st).get_TotalPopulation < 2 ^ 22) :
    |SOC_NDP_float d sp st - SOC_NDP d sp st|
      ≤ (32 * ((d.species sp).preys.length : ℚ) + 2 * ((d.species sp).preys.length : ℚ) ^ 2)
          * unitRoundoff := by
  have hu := unitRoundoff_pos
  have hu2 : unitRoundoff = 1 / 16777216 := by
    unfold unitRoundoff
    norm_num
  have hn0 : (0 : ℚ) ≤ ((d.species sp).preys.length : ℚ) := Nat.cast_nonneg _
  have hn1 : ((d.species sp).preys.length : ℚ) ≤ 100 := by exact_mod_cast hn
  have hnn := mul_nonneg hn0 hn0
  have hnn2 : ((d.species sp).preys.length : ℚ) * ((d.species sp).preys.length : ℚ)
      ≤ 100 * ((d.species sp).preys.length : ℚ) := mul_le_mul_of_nonneg_right hn1 hn0
  have hD := get_Density_float_near (d.site st) h sp
  have bD := get_Density_bounds (d.site st) h sp
  have hdx := accum_dx_float_near d sp st h hnd hn
  have bdx := accum_dx_bounds d sp st h hnd
  have hiff := get_Density_float_eq_one_iff (d.site st) h sp htot
  have hprod : |(d.site st).get_Density_float sp * accum_dx_float d sp st
        - (d.site st).get_Density sp * accum_dx d sp st|
      ≤ (31 * ((d.species sp).preys.length : ℚ) + 2 * ((d.species sp).preys.length : ℚ) ^ 2
          - 1 / 2 * ((d.species sp).preys.length : ℚ)) * unitRoundoff :=
    near_mul _ _ _ _ _ _ 1 ((d.species sp).preys.length : ℚ) _ hD.1 hdx
      (by rw [abs_le]; constructor <;> linarith [bD.1, bD.2])
      (by rw [abs_le]; constructor <;> linarith [bdx.1, bdx.2])
      (by rw [hu2]; nlinarith)
  have hmag : |(d.site st).get_Density sp * accum_dx d sp st|
      ≤ ((d.species sp).preys.length : ℚ) := by
    rw [abs_le]
    constructor <;> nlinarith [bD.1, bD.2, bdx.1, bdx.2]
  have hround := near_round unitRoundoff toFloat roundsWithin_toFloat hu.le _ _ _ _
    ((32 * ((d.species sp).preys.length : ℚ) + 2 * ((d.species sp).preys.length : ℚ) ^ 2)
      * unitRoundoff) hprod hmag (by rw [hu2]; nlinarith)
  unfold SOC_NDP_float SOC_NDP
  simp only []
  by_cases hc : (d.species sp).get_NumberPredators = 0 ∧ (d.site st).get_Density sp = 1
  · rw [if_pos ⟨hc.1, hiff.2 hc.2⟩, if_pos hc]
    simp only [sub_self, abs_zero]
    exact mul_nonneg (by nlinarith) hu.le
  · rw [if_neg (fun hf => hc ⟨hf.1, hiff.1 hf.2⟩), if_neg hc]
    exact hround

/-- With no predators and a density of `1` at a site with non-negative
counters and fewer than `2^22` individuals, `SOC_NDP` computed in `float`
returns `1`. -/
theorem SOC_NDP_float_eq_one (d : Dynamic) (sp st : Int) (h : (d.site st).oldNonneg)
    (htot : (d.site st).get_TotalPopulation < 2 ^ 22)
    (hc : (d.species sp).predators = [] ∧ (d.site st).get_Density sp = 1) :
    SOC_NDP_float d sp st = 1 := by
  have hiff := get_Density_float_eq_one_iff (d.site st) h sp htot
  have h0 : (d.species sp).get_NumberPredators = 0 := by
    unfold Species.get_NumberPredators
    rw [length_cast_eq_zero]
    exact hc.1
  unfold SOC_NDP_float
  simp only []
  rw [if_pos ⟨h0, hiff.2 hc.2⟩]

/-! ## `SOC_DP` in `float` against its formula -/

theorem toDouble_one : toDouble 1 = 1 := by decide!

/-- The product `P * (1.0 - s)` computed in `double` and stored in a `float`,
from a value within `K * unitRoundoff` of `P` in `[-1, 1]` and a value within
`M * unitRoundoff` of a sum `s` in `[0, 1]`. -/
theorem scaled_by_complement_near (Pf P sf s K M : ℚ) (hP : |Pf - P| ≤ K * unitRoundoff)
    (hPa : |P| ≤ 1) (hs : |sf - s| ≤ M * unitRoundoff) (hs0 : 0 ≤ s) (hs1 : s ≤ 1)
    (hK : K ≤ 100000) (hM : M ≤ 40000) :
    |toFloat (toDouble (Pf * toDouble (1 - sf))) - P * (1 - s)|
        ≤ (5 / 4 * K + M + 5) * unitRoundoff
      ∧ |P * (1 - s)| ≤ 1 := by
  have h1s : |1 - s| ≤ 1 := abs_one_sub_le_of_mem_unit s hs0 hs1
  have hmag : |P * (1 - s)| ≤ 1 := by
    have := abs_mul_le_of_le P (1 - s) 1 1 hPa h1s
    linarith
  refine ⟨?_, hmag⟩
  have hc : |toDouble (1 - sf) - (1 - s)| ≤ (M + 5 / 4) * unitRoundoff :=
    near_round_u 1 toDouble roundsWithin_toDouble_u (by norm_num) _ _ M 1 _
      (near_one_sub _ _ _ hs) h1s (by linarith) (by linarith)
  have hp : |Pf * toDouble (1 - sf) - P * (1 - s)| ≤ (5 / 4 * K + M + 5 / 4) * unitRoundoff :=
    near_mul_u _ _ _ _ K (M + 5 / 4) 1 1 _ hP hc hPa h1s (by linarith) (by linarith)
  exact near_round_u 3 _ roundsWithin_toFloat_toDouble (by norm_num) _ _ _ 1 _
    hp hmag (by linarith) (by linarith)

/-- The product of a value `P` in `[-1, 1]` and a sum `x` in `[0, n]`,
rounded to `float`, then multiplied by `1.0` in `double` and stored in a
`float`. -/
theorem scaled_by_sum_near (Pf P xf x K L n : ℚ) (hP : |Pf - P| ≤ K * unitRoundoff)
    (hPa : |P| ≤ 1) (hx : |xf - x| ≤ L * unitRoundoff) (hx0 : 0 ≤ x) (hxn : x ≤ n)
    (hn1 : 1 ≤ n) (hn : n ≤ 100) (hK0 : 0 ≤ K) (hK : K ≤ 25000) (hL : L ≤ 100000) :
    |toFloat (toDouble (toFloat (Pf * xf) * 1)) - P * x * 1|
      ≤ (5 / 4 * K * n + L + 5 * n) * unitRoundoff := by
  have hxa : |x| ≤ n := by
    rw [abs_le]
    constructor <;> linarith
  have hmag : |P * x| ≤ n := by
    have := abs_mul_le_of_le P x 1 n hPa hxa
    linarith
  have hKn : K * n ≤ 25000 * n := mul_le_mul_of_nonneg_right hK (by linarith)
  have hKn1 : K ≤ K * n := by nlinarith
  have hp : |Pf * xf - P * x| ≤ (5 / 4 * K * n + L) * unitRoundoff :=
    near_mul_u _ _ _ _ K L 1 n _ hP hx hPa hxa (by linarith) (by linarith)
  have hr : |toFloat (Pf * xf) - P * x| ≤ (5 / 4 * K * n + L + 5 / 4 * n) * unitRoundoff :=
    near_round_u 1 toFloat roundsWithin_toFloat_u (by norm_num) _ _ _ n _ hp hmag
      (by linarith) (by linarith)
  rw [mul_one, mul_one]
  exact near_round_u 3 _ roundsWithin_toFloat_toDouble (by norm_num) _ _ _ n _ hr hmag
    (by linarith) (by linarith)

/-- The value of `SOC_DP` computed in `float` against the value computed
with exact operations. -/
theorem SOC_DP_float_near (d : Dynamic) (sp st : Int) (h : (d.site st).oldNonneg)
    (hpreds : (d.species sp).predators.Nodup)
    (hnd : ∀ p ∈ (d.species sp).preys, (d.species (p - 1)).predators.Nodup)
    (hn : (d.species sp).preys.length ≤ 100) (hm : (d.species sp).predators.length ≤ 100) :
    |SOC_DP_float d sp st - SOC_DP d sp st|
      ≤ ((d.species sp).preys.length : ℚ)
          * (44 + 2 * ((d.species sp).preys.length : ℚ)
              + 10 * ((d.species sp).predators.length : ℚ)
              + 3 * ((d.species sp).predators.length : ℚ) ^ 2) * unitRoundoff := by
  have hu := unitRoundoff_pos
  have hn0 : (0 : ℚ) ≤ ((d.species sp).preys.length : ℚ) := Nat.cast_nonneg _
  have hn1 : ((d.species sp).preys.length : ℚ) ≤ 100 := by exact_mod_cast hn
  have hm0 : (0 : ℚ) ≤ ((d.species sp).predators.length : ℚ) := Nat.cast_nonneg _
  have hm1 : ((d.species sp).predators.length : ℚ) ≤ 100 := by exact_mod_cast hm
  have hD := get_Density_float_near (d.site st) h sp
  have bD := get_Density_bounds (d.site st) h sp
  have hdx := accum_dx_float_near d sp st h hnd hn
  have bdx := accum_dx_bounds d sp st h hnd
  have hdy := accum_dy_float_near d sp st h hm
  have bdy := sum_density_bounds (d.site st) h _ hpreds
  rw [← accum_dy_eq d sp st] at bdy
  unfold SOC_DP_float SOC_DP
  simp only []
  by_cases hp0 : (d.species sp).get_NumberPreys > 0
  · have hnpos : (1 : ℚ) ≤ ((d.species sp).preys.length : ℚ) := by
      unfold Species.get_NumberPreys at hp0
      have : 1 ≤ (d.species sp).preys.length := by omega
      exact_mod_cast this
    rw [if_pos hp0, if_pos hp0]
    generalize ((d.species sp).preys.length : ℚ) = n at *
    generalize ((d.species sp).predators.length : ℚ) = m at *
    generalize (d.site st).get_Density_float sp = Df at *
    generalize (d.site st).get_Density sp = D at *
    generalize accum_dx_float d sp st = xf at *
    generalize accum_dx d sp st = x at *
    generalize accum_dy_float d sp st = sf at *
    generalize accum_dy d sp st = s at *
    have hm2 : m ^ 2 ≤ 100 * m := by nlinarith
    have hm3 : 0 ≤ m ^ 2 := sq_nonneg m
    have hn2 : n ^ 2 ≤ 100 * n := by nlinarith
    have hn3 : 0 ≤ n ^ 2 := sq_nonneg n
    have hx2 : |xf - x| ≤ (26 * n + 2 * n ^ 2) * unitRoundoff := by
      refine le_trans hdx (le_of_eq ?_)
      ring
    have hs2 : |sf - s| ≤ (8 * m + 2 * m ^ 2) * unitRoundoff := by
      refine le_trans hdy (le_of_eq ?_)
      ring
    by_cases hq0 : (d.species sp).get_NumberPredators > 0
    · rw [if_pos hq0, if_pos hq0]
      have h1 := scaled_by_complement_near Df D sf s 4 _ hD.1
        (abs_le_of_mem_unit D bD.1 bD.2) hs2 bdy.1 bdy.2 (by norm_num) (by linarith)
      refine le_trans (scaled_by_sum_near _ _ xf x _ _ n h1.1 h1.2 hx2 bdx.1 bdx.2 hnpos hn1
        (by linarith) (by linarith) (by linarith)) ?_
      apply mul_le_mul_of_nonneg_right _ hu.le
      have e1 : 0 ≤ n * m := mul_nonneg hn0 hm0
      have e2 : 0 ≤ n * m ^ 2 := mul_nonneg hn0 hm3
      nlinarith
    · rw [if_neg hq0, if_neg hq0]
      refine le_trans (scaled_by_sum_near Df D xf x 4 _ n hD.1
        (abs_le_of_mem_unit D bD.1 bD.2) hx2 bdx.1 bdx.2 hnpos hn1
        (by norm_num) (by norm_num) (by linarith)) ?_
      apply mul_le_mul_of_nonneg_right _ hu.le
      have e1 : 0 ≤ n * m := mul_nonneg hn0 hm0
      have e2 : 0 ≤ n * m ^ 2 := mul_nonneg hn0 hm3
      nlinarith
  · rw [if_neg hp0, if_neg hp0, mul_one, toDouble_one, toFloat_one]
    simp only [mul_one, sub_self, abs_zero]
    have : 0 ≤ 44 + 2 * ((d.species sp).preys.length : ℚ)
        + 10 * ((d.species sp).predators.length : ℚ)
        + 3 * ((d.species sp).predators.length : ℚ) ^ 2 := by nlinarith
    exact mul_nonneg (mul_nonneg hn0 this) hu.le

/-- Without prey, `SOC_DP` computed in `float` returns `1`. -/
theorem SOC_DP_float_eq_one (d : Dynamic) (sp st : Int) (hp : (d.species sp).preys = []) :
    SOC_DP_float d sp st = 1 := by
  have h0 : ¬ (d.species sp).get_NumberPreys > 0 := by
    unfold Species.get_NumberPreys
    rw [length_cast_pos]
    exact fun hne => hne hp
  unfold SOC_DP_float
  simp only []
  rw [if_neg h0, mul_one, toDouble_one, toFloat_one]

/-! ## `SOC_BP` in `float` against its formula -/

/-- The product of a value `P` in `[-1, 1]` and a sum `x` in `[0, 1]`, rounded
to `float`. -/
theorem scaled_by_unit_sum_near (Pf P xf x K L : ℚ) (hP : |Pf - P| ≤ K * unitRoundoff)
    (hPa : |P| ≤ 1) (hx : |xf - x| ≤ L * unitRoundoff) (hx0 : 0 ≤ x) (hx1 : x ≤ 1)
    (hK : K ≤ 100000) (hL : L ≤ 100000) :
    |toFloat (Pf * xf) - P * x| ≤ (5 / 4 * K + L + 5 / 4) * unitRoundoff ∧ |P * x| ≤ 1 := by
  have hxa : |x| ≤ 1 := abs_le_of_mem_unit x hx0 hx1
  have hmag : |P * x| ≤ 1 := by
    have := abs_mul_le_of_le P x 1 1 hPa hxa
    linarith
  refine ⟨?_, hmag⟩
  have hp : |Pf * xf - P * x| ≤ (5 / 4 * K + L) * unitRoundoff :=
    near_mul_u _ _ _ _ K L 1 1 _ hP hx hPa hxa (by linarith) (by linarith)
  exact near_round_u 1 toFloat roundsWithin_toFloat_u (by norm_num) _ _ _ 1 _ hp hmag
    (by linarith) (by linarith)

/-- The last two steps of `SOC_BP`: the factor `1.0 - by`, applied when the
species has a predator and the accumulated `by` is positive, and the final
product by `1.0`. The test reads the `float` sum in the code and the exact sum
in the formula; where the two tests differ the factor is within the error of
the sum. -/
theorem complement_step_near (hasPred : Prop) [Decidable hasPred] (Pf P sf s K M : ℚ)
    (hP : |Pf - P| ≤ K * unitRoundoff) (hPa : |P| ≤ 1) (hs : |sf - s| ≤ M * unitRoundoff)
    (hs0 : 0 ≤ s) (hs1 : s ≤ 1) (hK0 : 0 ≤ K) (hK : K ≤ 100000) (hM : M ≤ 40000) :
    |toFloat (toDouble ((if hasPred ∧ sf > 0 then toFloat (toDouble (Pf * toDouble (1 - sf)))
          else Pf) * 1))
        - (if hasPred ∧ s > 0 then P * (1 - s) else P) * 1|
      ≤ (5 / 4 * K + M + 35 / 4) * unitRoundoff := by
  have hu := unitRoundoff_pos
  have hM0 : 0 ≤ M := by
    have := le_trans (abs_nonneg _) hs
    by_contra hneg
    have : M * unitRoundoff < 0 := mul_neg_of_neg_of_pos (not_le.1 hneg) hu
    linarith
  have hc := scaled_by_complement_near Pf P sf s K M hP hPa hs hs0 hs1 hK hM
  have hstep : |(if hasPred ∧ sf > 0 then toFloat (toDouble (Pf * toDouble (1 - sf))) else Pf)
        - (if hasPred ∧ s > 0 then P * (1 - s) else P)|
        ≤ (5 / 4 * K + M + 5) * unitRoundoff
      ∧ |(if hasPred ∧ s > 0 then P * (1 - s) else P)| ≤ 1 := by
    have hKM : K * unitRoundoff ≤ (5 / 4 * K + M + 5) * unitRoundoff :=
      mul_le_mul_of_nonneg_right (by linarith) hu.le
    by_cases hf : hasPred ∧ sf > 0
    · rw [if_pos hf]
      by_cases he : hasPred ∧ s > 0
      · rw [if_pos he]
        exact hc
      · rw [if_neg he]
        have hs00 : s = 0 := by
          have : ¬ s > 0 := fun h => he ⟨hf.1, h⟩
          linarith
        have e : P = P * (1 - s) := by
          rw [hs00]
          ring
        refine ⟨?_, hPa⟩
        have := hc.1
        rw [← e] at this
        exact this
    · rw [if_neg hf]
      by_cases he : hasPred ∧ s > 0
      · rw [if_pos he]
        refine ⟨?_, hc.2⟩
        have hsf : sf ≤ 0 := by
          have : ¬ sf > 0 := fun h => hf ⟨he.1, h⟩
          linarith
        have hsM : s ≤ M * unitRoundoff := by
          have := (abs_le.1 hs).1
          linarith
        have hPs : |P * s| ≤ M * unitRoundoff := by
          have := abs_mul_le_of_le P s 1 (M * unitRoundoff) hPa
            (by rw [abs_of_nonneg hs0]; exact hsM)
          linarith
        have e : Pf - P * (1 - s) = (Pf - P) + P * s := by ring
        rw [e]
        refine le_trans (abs_add _ _) ?_
        have : K * unitRoundoff + M * unitRoundoff ≤ (5 / 4 * K + M + 5) * unitRoundoff := by
          nlinarith
        linarith
      · rw [if_neg he]
        exact ⟨le_trans hP hKM, hPa⟩
  rw [mul_one, mul_one]
  exact near_round_u 3 _ roundsWithin_toFloat_toDouble (by norm_num) _ _ _ 1 _ hstep.1 hstep.2
    (by linarith) (by linarith)

/-- The value of `SOC_BP` computed in `float` against the value computed
with exact operations. -/
theorem SOC_BP_float_near (d : Dynamic) (sp st : Int) (h : (d.site st).oldNonneg)
    (hpreys : (d.species sp).preys.Nodup) (hpreds : (d.species sp).predators.Nodup)
    (hnd : ∀ p ∈ (d.species sp).preys, (d.species (p - 1)).predators.Nodup)
    (hn : (d.species sp).preys.length ≤ 100) (hm : (d.species sp).predators.length ≤ 100) :
    |SOC_BP_float d sp st - SOC_BP d sp st|
      ≤ (23 + 33 * ((d.species sp).preys.length : ℚ)
            + 8 * ((d.species sp).preys.length : ℚ) ^ 2
            + 8 * ((d.species sp).predators.length : ℚ)
            + 2 * ((d.species sp).predators.length : ℚ) ^ 2) * unitRoundoff := by
  have hu := unitRoundoff_pos
  have hn0 : (0 : ℚ) ≤ ((d.species sp).preys.length : ℚ) := Nat.cast_nonneg _
  have hn1 : ((d.species sp).preys.length : ℚ) ≤ 100 := by exact_mod_cast hn
  have hm0 : (0 : ℚ) ≤ ((d.species sp).predators.length : ℚ) := Nat.cast_nonneg _
  have hm1 : ((d.species sp).predators.length : ℚ) ≤ 100 := by exact_mod_cast hm
  have hD := get_Density_float_near (d.site st) h sp
  have bD := get_Density_bounds (d.site st) h sp
  have hbx := accum_bx_float_near d sp st h hnd hn
  have bbx := accum_bx_bounds d sp st h hpreys hnd
  have hdy := accum_dy_float_near d sp st h hm
  have bdy := sum_density_bounds (d.site st) h _ hpreds
  rw [← accum_dy_eq d sp st] at bdy
  unfold SOC_BP_float SOC_BP
  simp only []
  generalize ((d.species sp).preys.length : ℚ) = n at *
  generalize ((d.species sp).predators.length : ℚ) = m at *
  generalize (d.site st).get_Density_float sp = Df at *
  generalize (d.site st).get_Density sp = D at *
  generalize accum_bx_float d sp st = xf at *
  generalize accum_bx d sp st = x at *
  generalize accum_dy_float d sp st = sf at *
  generalize accum_dy d sp st = s at *
  have hm2 : m ^ 2 ≤ 100 * m := by nlinarith
  have hm3 : 0 ≤ m ^ 2 := sq_nonneg m
  have hn2 : n ^ 2 ≤ 100 * n := by nlinarith
  have hn3 : 0 ≤ n ^ 2 := sq_nonneg n
  have hx2 : |xf - x| ≤ (26 * n + 6 * n ^ 2) * unitRoundoff := by
    refine le_trans hbx (le_of_eq ?_)
    ring
  have hs2 : |sf - s| ≤ (8 * m + 2 * m ^ 2) * unitRoundoff := by
    refine le_trans hdy (le_of_eq ?_)
    ring
  have h1D : |1 - D| ≤ 1 := abs_one_sub_le_of_mem_unit D bD.1 bD.2
  have hB0 : |toFloat (toDouble (1 - Df)) - (1 - D)| ≤ 8 * unitRoundoff :=
    near_round_u 3 _ roundsWithin_toFloat_toDouble (by norm_num) _ _ 4 1 _
      (near_one_sub _ _ _ hD.1) h1D (by norm_num) (by norm_num)
  have hB1 : |(if (d.species sp).get_NumberPreys > 0
          then toFloat (toFloat (toDouble (1 - Df)) * xf) else toFloat (toDouble (1 - Df)))
        - (if (d.species sp).get_NumberPreys > 0 then (1 - D) * x else 1 - D)|
        ≤ (45 / 4 + 26 * n + 6 * n ^ 2) * unitRoundoff
      ∧ |(if (d.species sp).get_NumberPreys > 0 then (1 - D) * x else 1 - D)| ≤ 1 := by
    split
    · have := scaled_by_unit_sum_near _ _ xf x 8 _ hB0 h1D hx2 bbx.1 bbx.2 (by norm_num)
        (by linarith)
      refine ⟨le_trans this.1 (le_of_eq ?_), this.2⟩
      ring
    · refine ⟨le_trans hB0 ?_, h1D⟩
      apply mul_le_mul_of_nonneg_right _ hu.le
      linarith
  generalize (if (d.species sp).get_NumberPreys > 0
      then toFloat (toFloat (toDouble (1 - Df)) * xf) else toFloat (toDouble (1 - Df))) = B1f
    at hB1 ⊢
  generalize (if (d.species sp).get_NumberPreys > 0 then (1 - D) * x else 1 - D) = B1
    at hB1 ⊢
  refine le_trans (complement_step_near _ B1f B1 sf s _ _ hB1.1 hB1.2 hs2 bdy.1 bdy.2
    (by linarith) (by linarith) (by linarith)) ?_
  apply mul_le_mul_of_nonneg_right _ hu.le
  linarith

/-! ## The number of migrants computed in `float` -/

theorem sum_density_eq (s : Site) (ht : s.get_TotalPopulation ≠ 0) (ps : List Int) :
    (ps.map (fun p => s.get_Density (p - 1))).sum
      = (((ps.map (fun p => s.get_Nold (p - 1))).sum : Int) : ℚ)
          / ((s.get_TotalPopulation : Int) : ℚ) := by
  induction ps with
  | nil => simp
  | cons p rest ih =>
    rw [List.map_cons, List.sum_cons, ih, List.map_cons, List.sum_cons]
    unfold Site.get_Density
    rw [if_neg ht]
    push_cast
    ring

/-- With the `float` operations read as exact, `SOC_CC` of a species with prey
is the number of individuals of its prey at the site when the site is not
empty and the predation pressures on the prey add up to zero. -/
theorem SOC_CC_exact_of_no_pressure (d : Dynamic) (sp st : Int)
    (hp : (d.species sp).preys ≠ []) (hN : 0 < (d.site st).get_TotalPopulation)
    (h0 : ((d.species sp).preys.map (fun p => get_DensityPredOfPrey d st (p - 1))).sum = 0) :
    SOC_CC d sp st = ((d.species sp).preys.map (fun p => (d.site st).get_Nold (p - 1))).sum := by
  have hne : (d.site st).get_TotalPopulation ≠ 0 := by omega
  have hq : (((d.site st).get_TotalPopulation : Int) : ℚ) ≠ 0 := by exact_mod_cast hne
  unfold SOC_CC
  simp only [accum_cc_eq, Species.get_NumberPreys, length_cast_eq_zero, if_neg hp, h0, if_true]
  rw [sum_density_eq _ hne, one_mul, one_div, div_inv_eq_mul, div_mul_cancel₀ _ hq]
  exact Int.floor_intCast _

/-! ## The species drawn in a trial has an individual -/

theorem SOC_float_sites (d : Dynamic) (sp st : Int) : (SOC_float d sp st)._Sites = d._Sites :=
  rfl

theorem randomFraction_float_sites (E : Externals) (d : Dynamic) :
    (d.randomFraction_float E).2._Sites = d._Sites := rfl

theorem map_modifyNth_comm {α β : Type} (g : α → β) (f : α → α) (f2 : β → β)
    (h : ∀ a, g (f a) = f2 (g a)) (l : List α) (n : Nat) :
    (modifyNth f l n).map g = modifyNth f2 (l.map g) n := by
  induction l generalizing n with
  | nil => rfl
  | cons a l ih =>
    cases n with
    | zero => simp [modifyNth, h]
    | succ n => simp [modifyNth, ih]

theorem map_modifyI_comm {α β : Type} (g : α → β) (f : α → α) (f2 : β → β)
    (h : ∀ a, g (f a) = f2 (g a)) (l : List α) (i : Int) :
    (modifyI l i f).map g = modifyI (l.map g) i f2 := by
  unfold modifyI
  split
  · rfl
  · exact map_modifyNth_comm g f f2 h l _

theorem erase_site (d : Dynamic) (t : Int) :
    d.eraseMigrationInputs.site t = (d.site t).eraseMigrationInputs :=
  atI_map Site.eraseMigrationInputs rfl d._Sites t

theorem erase_species (d : Dynamic) (sp : Int) :
    d.eraseMigrationInputs.species sp = (d.species sp).eraseMigrationInputs :=
  atI_map Species.eraseMigrationInputs rfl d._Species sp

theorem erase_updSite (d : Dynamic) (t : Int) (f f2 : Site → Site)
    (h : ∀ s, (f s).eraseMigrationInputs = f2 s.eraseMigrationInputs) :
    (d.updSite t f).eraseMigrationInputs = d.eraseMigrationInputs.updSite t f2 := by
  unfold Dynamic.updSite Dynamic.eraseMigrationInputs
  simp only []
  rw [map_modifyI_comm Site.eraseMigrationInputs f f2 h]

theorem erase_get_NumberIndPredators (d : Dynamic) (st sp : Int) :
    get_NumberIndPredators d.eraseMigrationInputs st sp = get_NumberIndPredators d st sp := by
  unfold get_NumberIndPredators
  rw [erase_site, erase_species]
  rfl

theorem erase_get_NumberIndPreys (d : Dynamic) (st sp : Int) :
    get_NumberIndPreys d.eraseMigrationInputs st sp = get_NumberIndPreys d st sp := by
  unfold get_NumberIndPreys
  rw [erase_site, erase_species]
  rfl

theorem erase_get_DensityPredOfPrey (d : Dynamic) (st p : Int) :
    get_DensityPredOfPrey d.eraseMigrationInputs st p = get_DensityPredOfPrey d st p := by
  unfold get_DensityPredOfPrey
  rw [erase_get_NumberIndPredators, erase_site]
  rfl

theorem erase_SOC_CC (d : Dynamic) (sp st : Int) :
    SOC_CC d.eraseMigrationInputs sp st = SOC_CC d sp st := by
  unfold SOC_CC accum_cc
  simp only [erase_get_DensityPredOfPrey, erase_site, erase_species]
  rfl

theorem erase_number_mig (d : Dynamic) (s sp rm : Int) :
    Migration_number_mig d.eraseMigrationInputs s sp rm = Migration_number_mig d s sp rm := by
  unfold Migration_number_mig
  rw [erase_site]
  rfl

theorem erase_threshold_mig (d : Dynamic) (sp t : Int) :
    Migration_threshold_mig d.eraseMigrationInputs sp t = Migration_threshold_mig d sp t := by
  unfold Migration_threshold_mig
  rw [erase_SOC_CC, erase_site]
  rfl

theorem erase_set_Nnew (s : Site) (sp x : Int) :
    (s.set_Nnew sp (s.get_Nnew sp + x)).eraseMigrationInputs
      = s.eraseMigrationInputs.set_Nnew sp (s.eraseMigrationInputs.get_Nnew sp + x) := rfl

theorem erase_set_Nold (s : Site) (sp x : Int) :
    (s.set_Nold sp (s.get_Nold sp - x)).eraseMigrationInputs
      = s.eraseMigrationInputs.set_Nold sp (s.eraseMigrationInputs.get_Nold sp - x) := rfl

theorem erase_Migration_neighbour (ix_St1 ix_Sp1 : Int) (acc : Dynamic × Int)
    (nb : tNeighborhood) :
    Migration_neighbour ix_St1 ix_Sp1 (acc.1.eraseMigrationInputs, acc.2) nb.eraseWeight
      = ((Migration_neighbour ix_St1 ix_Sp1 acc nb).1.eraseMigrationInputs,
         (Migration_neighbour ix_St1 ix_Sp1 acc nb).2) := by
  have hid : nb.eraseWeight.id = nb.id := rfl
  unfold Migration_neighbour
  simp only [erase_number_mig, erase_threshold_mig, hid]
  split
  · split
    · split
      · rfl
      · split
        · simp only []
          rw [erase_updSite acc.1 (nb.id - 1)
            (fun s => s.set_Nnew ix_Sp1
              (s.get_Nnew ix_Sp1 + Migration_number_mig acc.1 ix_St1 ix_Sp1 acc.2))
            (fun s => s.set_Nnew ix_Sp1
              (s.get_Nnew ix_Sp1 + Migration_number_mig acc.1 ix_St1 ix_Sp1 acc.2))
            (fun s => erase_set_Nnew s ix_Sp1 _)]
        · simp only []
          rw [erase_updSite acc.1 (nb.id - 1)
            (fun s => s.set_Nnew ix_Sp1
              (s.get_Nnew ix_Sp1 + Migration_threshold_mig acc.1 ix_Sp1 (nb.id - 1)))
            (fun s => s.set_Nnew ix_Sp1
              (s.get_Nnew ix_Sp1 + Migration_threshold_mig acc.1 ix_Sp1 (nb.id - 1)))
            (fun s => erase_set_Nnew s ix_Sp1 _)]
    · rfl
  · rfl

theorem erase_Migration_neighbour_fold (ix_St1 ix_Sp1 : Int) (l : List tNeighborhood)
    (acc : Dynamic × Int) :
    (l.map tNeighborhood.eraseWeight).foldl (Migration_neighbour ix_St1 ix_Sp1)
        (acc.1.eraseMigrationInputs, acc.2)
      = ((l.foldl (Migration_neighbour ix_St1 ix_Sp1) acc).1.eraseMigrationInputs,
         (l.foldl (Migration_neighbour ix_St1 ix_Sp1) acc).2) := by
  induction l generalizing acc with
  | nil => rfl
  | cons nb rest ih =>
    simp only [List.map_cons, List.foldl_cons]
    rw [erase_Migration_neighbour, ih]

theorem erase_Migration_neighbours (d : Dynamic) (ix_St1 ix_Sp1 : Int) :
    Migration_neighbours d.eraseMigrationInputs ix_St1 ix_Sp1
      = ((Migration_neighbours d ix_St1 ix_Sp1).1.eraseMigrationInputs,
         (Migration_neighbours d ix_St1 ix_Sp1).2) := by
  have hn : (d.eraseMigrationInputs.site ix_St1).neighborhood
      = (d.site ix_St1).neighborhood.map tNeighborhood.eraseWeight := by
    rw [erase_site]
    rfl
  have ho : (d.eraseMigrationInputs.site ix_St1).get_Nold ix_Sp1
      = (d.site ix_St1).get_Nold ix_Sp1 := by
    rw [erase_site]
    rfl
  unfold Migration_neighbours
  simp only [hn, ho]
  split
  · exact erase_Migration_neighbour_fold ix_St1 ix_Sp1 _ (d, 0)
  · rfl

theorem erase_Migration_species (d : Dynamic) (ix_St1 ix_Sp1 : Int) :
    (Migration_species d.eraseMigrationInputs ix_St1 ix_Sp1).1
      = (Migration_species d ix_St1 ix_Sp1).1.eraseMigrationInputs := by
  unfold Migration_species
  simp only [erase_Migration_neighbours]
  rw [erase_updSite (Migration_neighbours d ix_St1 ix_Sp1).1 ix_St1
    (fun s => s.set_Nold ix_Sp1 (s.get_Nold ix_Sp1 - (Migration_neighbours d ix_St1 ix_Sp1).2))
    (fun s => s.set_Nold ix_Sp1 (s.get_Nold ix_Sp1 - (Migration_neighbours d ix_St1 ix_Sp1).2))
    (fun s => erase_set_Nold s ix_Sp1 _)]

theorem foldl_erase {β : Type} (step : Dynamic → β → Dynamic)
    (h : ∀ d b, step d.eraseMigrationInputs b = (step d b).eraseMigrationInputs)
    (l : List β) (d : Dynamic) :
    l.foldl step d.eraseMigrationInputs = (l.foldl step d).eraseMigrationInputs := by
  induction l generalizing d with
  | nil => rfl
  | cons b rest ih =>
    simp only [List.foldl_cons]
    rw [h, ih]

theorem erase_Migration_site (d : Dynamic) (ix_St1 : Int) :
    Migration_site d.eraseMigrationInputs ix_St1
      = (Migration_site d ix_St1).eraseMigrationInputs := by
  have hs : (d.eraseMigrationInputs.site ix_St1).speciesOrdered
      = (d.site ix_St1).speciesOrdered := by
    rw [erase_site]
    rfl
  unfold Migration_site
  rw [hs]
  exact foldl_erase _ (fun d1 id => erase_Migration_species d1 ix_St1 (id - 1)) _ d

/-- The three loops of `Migration` commute with the blanking of the edge
weights, the preference values and the migration probabilities. -/
theorem erase_Migration_loop (d : Dynamic) :
    Migration_loop d.eraseMigrationInputs = (Migration_loop d).eraseMigrationInputs := by
  unfold Migration_loop
  exact foldl_erase _ (fun d1 id => erase_Migration_site d1 (id - 1)) d.sitesOrdered d

theorem erase_reorder_Sites_draw (n i fuel : Nat) (d : Dynamic) :
    reorder_Sites_draw n i fuel d.eraseMigrationInputs
      = (reorder_Sites_draw n i fuel d).map (fun r => (r.1, r.2.eraseMigrationInputs)) := by
  induction fuel generalizing d with
  | zero => rfl
  | succ k ih =>
    have h1 : d.eraseMigrationInputs.random.1 = d.random.1 := rfl
    have h2 : d.eraseMigrationInputs.random.2 = d.random.2.eraseMigrationInputs := rfl
    unfold reorder_Sites_draw
    rw [h1, h2]
    split
    · exact ih _
    · rfl

theorem erase_reorder_Sites_from (fuel : Nat) (l : List Nat) (d : Dynamic) :
    reorder_Sites_from fuel l d.eraseMigrationInputs
      = (reorder_Sites_from fuel l d).map Dynamic.eraseMigrationInputs := by
  induction l generalizing d with
  | nil => rfl
  | cons i rest ih =>
    have hlen : d.eraseMigrationInputs._Sites.length = d._Sites.length := by
      unfold Dynamic.eraseMigrationInputs
      simp only [List.length_map]
    unfold reorder_Sites_from
    rw [hlen, erase_reorder_Sites_draw]
    cases hdraw : reorder_Sites_draw d._Sites.length i fuel d with
    | none => rfl
    | some r =>
      simp only [Option.map_some']
      exact ih { r.2 with sitesOrdered := reorder_Sites_swap r.2.sitesOrdered i r.1 }

theorem erase_reorder_Sites (fuel : Nat) (d : Dynamic) :
    reorder_Sites fuel d.eraseMigrationInputs
      = (reorder_Sites fuel d).map Dynamic.eraseMigrationInputs := by
  have hlen : d.eraseMigrationInputs._Sites.length = d._Sites.length := by
    unfold Dynamic.eraseMigrationInputs
    simp only [List.length_map]
  unfold reorder_Sites
  rw [hlen]
  exact erase_reorder_Sites_from fuel _ d

theorem erase_updSite_of_frame (d : Dynamic) (t : Int) (f : Site → Site)
    (h : ∀ s, (f s).eraseMigrationInputs = s.eraseMigrationInputs) :
    (d.updSite t f).eraseMigrationInputs = d.eraseMigrationInputs := by
  unfold Dynamic.updSite Dynamic.eraseMigrationInputs
  simp only []
  rw [map_modifyI_of_frame f Site.eraseMigrationInputs h]

theorem foldl_erase_to {β : Type} (step step2 : Dynamic → β → Dynamic)
    (h : ∀ d b, (step d b).eraseMigrationInputs = step2 d.eraseMigrationInputs b)
    (l : List β) (d : Dynamic) :
    (l.foldl step d).eraseMigrationInputs = l.foldl step2 d.eraseMigrationInputs := by
  induction l generalizing d with
  | nil => rfl
  | cons b rest ih =>
    simp only [List.foldl_cons]
    rw [ih, h]

theorem erase_set_Pref_reorder (E : Externals) (d : Dynamic) (ix_St1 : Int) :
    (set_Pref_reorder E d ix_St1).eraseMigrationInputs
      = set_Pref_reorder E d.eraseMigrationInputs ix_St1 := by
  have hs : (d.eraseMigrationInputs.site ix_St1).speciesOrdered
      = (d.site ix_St1).speciesOrdered := by
    rw [erase_site]
    rfl
  have hu := erase_updSite d ix_St1
    (fun s => { s with speciesOrdered :=
      (E.shuffle (d.site ix_St1).speciesOrdered d.seedStream d.drawn).1 })
    (fun s => { s with speciesOrdered :=
      (E.shuffle (d.site ix_St1).speciesOrdered d.seedStream d.drawn).1 })
    (fun _ => rfl)
  unfold set_Pref_reorder
  simp only [hs]
  have hsplit : ∀ (a : Dynamic) (n : Nat),
      ({ a with drawn := n } : Dynamic).eraseMigrationInputs
        = { a.eraseMigrationInputs with drawn := n } := fun _ _ => rfl
  rw [hsplit, hu]
  rfl

/-- After the blanking, the loop body of `set_Pref` for a site is its call of
`reorder_Species`: the preference values it stores are blanked. -/
theorem erase_set_Pref_site (E : Externals) (d : Dynamic) (ix_St1 : Int) :
    (set_Pref_site E d ix_St1).eraseMigrationInputs
      = set_Pref_reorder E d.eraseMigrationInputs ix_St1 := by
  have hfold : ∀ (l : List Int) (d1 : Dynamic),
      (l.foldl
        (fun d id =>
          d.updSite ix_St1 (fun s => s.set_Pref (id - 1)
            ((get_NumberIndPreys d ix_St1 (id - 1)
              - get_NumberIndPredators d ix_St1 (id - 1) : Int) : ℚ))) d1).eraseMigrationInputs
        = d1.eraseMigrationInputs := by
    intro l
    induction l with
    | nil => intro d1; rfl
    | cons id rest ih =>
      intro d1
      simp only [List.foldl_cons]
      rw [ih]
      exact erase_updSite_of_frame d1 ix_St1 _ (fun _ => rfl)
  rw [← erase_set_Pref_reorder]
  exact hfold _ _

theorem erase_set_Pref (E : Externals) (d : Dynamic) :
    (set_Pref E d).eraseMigrationInputs
      = d.sitesOrdered.foldl (fun e id => set_Pref_reorder E e (id - 1))
          d.eraseMigrationInputs := by
  unfold set_Pref
  exact foldl_erase_to _ _ (fun d1 id => erase_set_Pref_site E d1 (id - 1)) _ d

/-- The blanked result of a migration pass is a function of the blanked state
it starts from. -/
theorem erase_Migration (E : Externals) (fuel : Nat) (d : Dynamic) (cont : Int) :
    (Migration E fuel d cont).map Dynamic.eraseMigrationInputs
      = (reorder_Sites fuel d.eraseMigrationInputs).map
          (fun e => Migration_loop
            (e.sitesOrdered.foldl (fun e id => set_Pref_reorder E e (id - 1)) e)) := by
  unfold Migration
  rw [erase_reorder_Sites, Option.map_map, Option.map_map]
  congr 1
  funext d1
  simp only [Function.comp]
  rw [← erase_Migration_loop, erase_set_Pref]
  rfl

/-! # The claims -/

/-! ## C1 -/

/-- C1, the code at the failing input: `stateTwoSites` has no negative
counter, and an individual trial of either species at site 2 leaves its
counters as they are; yet after one migration pass the `new` counter of
species 1 at site 2 is `-6`, and the next rate-accounting merge leaves its
`old` counter negative, whichever of the two orders `reorder_Species` gives to
the species. -/
theorem C1_old_negative_after_migration_and_merge :
    (∀ s ∈ stateTwoSites._Sites, ∀ e ∈ s.list_Species,
        0 ≤ e.nOld ∧ 0 ≤ e.nNew ∧ 0 ≤ e.nNew_born)
      ∧ ((MonteCarlo_trial extKeep stateTwoSites 1 0 0).site 1).list_Species
          = (stateTwoSites.site 1).list_Species
      ∧ ((MonteCarlo_trial extKeep stateTwoSites 1 1 0).site 1).list_Species
          = (stateTwoSites.site 1).list_Species
      ∧ (Migration extKeep 3 stateTwoSites 0).map
          (fun d => ((d.site 1).get_Nold 0, (d.site 1).get_Nnew 0)) = some (5, -6)
      ∧ (Migration extKeep 3 stateTwoSites 0).map
          (fun d => ((MonteCarlo_rateAccounting d 1).site 1).get_Nold 0) = some (-1)
      ∧ (Migration extReverse 3 stateTwoSites 0).map
          (fun d => ((MonteCarlo_rateAccounting d 1).site 1).get_Nold 0) = some (-2) := by
  decide!

/-! ## C2 -/

/-- C2: when every neighbour id names a site and every site has one record per
species, a migration pass leaves, for every species, the sum over all sites of
`old + new` unchanged. -/
theorem C2_migration_conserves_species_total (E : Externals) (fuel : Nat) (d : Dynamic)
    (cont : Int) (dAfter : Dynamic) (hv : d.idsValid)
    (h : Migration E fuel d cont = some dAfter) (sp : Int) :
    totalOldNew dAfter sp = totalOldNew d sp := by
  unfold Migration at h
  cases hr : reorder_Sites fuel d with
  | none => rw [hr] at h; cases h
  | some d1 =>
    rw [hr] at h
    simp only [Option.map_some', Option.some.injEq] at h
    have f1 := reorder_Sites_frame fuel d d1 hr
    have c1 : (set_Pref E d1).core = d.core :=
      (set_Pref_core E d1).trans (core_of_frame d1 d f1.1 f1.2)
    have hshape : (set_Pref E d1).shape = d.shape := by
      rw [shape_eq_core, shape_eq_core, c1]
    have hv1 : (set_Pref E d1).idsValid := idsValid_of_shape_eq _ _ hshape hv
    have := (Migration_loop_conserves (set_Pref E d1) hv1).2 sp
    rw [← h, this, totalOldNew_eq_core, totalOldNew_eq_core, c1]

/-- Witness of C2 on `stateTwoSites`: the pass returns a state, and the total
of species 1 (index 0) is the same before and after. -/
theorem C2_migration_conserves_species_total_witness :
    stateTwoSites.idsValid ∧
      ∃ dAfter, Migration extKeep 3 stateTwoSites 0 = some dAfter
        ∧ totalOldNew dAfter 0 = totalOldNew stateTwoSites 0 :=
  ⟨by decide!,
   match h : Migration extKeep 3 stateTwoSites 0 with
   | some dAfter =>
     ⟨dAfter, rfl,
      C2_migration_conserves_species_total extKeep 3 stateTwoSites 0 dAfter (by decide!) h 0⟩
   | none =>
     absurd (show (Migration extKeep 3 stateTwoSites 0).isSome = true by decide!)
       (by rw [h]; simp)⟩

/-! ## C3 -/

/-- C4 (amended): whenever `DynamicPrey` registers a newborn for `sp` at `st`,
the population of `sp` at `st` at that instant (its `old` counter, which the
registration does not change) is strictly below the carrying capacity stored
in the species record by the last call of `SOC` (`get_CC`); in the herbivore
branch, when this stored value is `SOC_CC(sp, st)` at entry, the population is
also strictly below `SOC_CC(sp, st)` recomputed at that instant. -/
theorem C4_birth_below_stored_capacity (E : Externals) (d : Dynamic) (st sp cont : Int)
    (hborn : ((DynamicPrey E d st sp cont).site st).get_NnewBorn sp
              ≠ (d.site st).get_NnewBorn sp) :
    ((DynamicPrey E d st sp cont).site st).get_NumberIndSpecies sp
        < ((DynamicPrey E d st sp cont).species sp).get_CC
      ∧ ((d.species sp).ver_IsPredator = false →
          (d.species sp).get_CC = SOC_CC d sp st →
          ((DynamicPrey E d st sp cont).site st).get_NumberIndSpecies sp
            < SOC_CC (DynamicPrey E d st sp cont) sp st) := by
  unfold DynamicPrey at hborn ⊢
  by_cases hp : (d.species sp).ver_IsPredator = true
  · have hr : List.range 1 = [0] := rfl
    simp only [hp, if_true, hr, List.foldl_cons, List.foldl_nil] at hborn ⊢
    refine ⟨DynamicPrey_comida_guard E st sp cont _ _ (d, false) hborn, ?_⟩
    intro h
    cases h
  · simp only [hp, if_false, Bool.false_eq_true] at hborn ⊢
    have hnp : (d.species sp).preys = [] := (ver_IsPredator_eq_false _).1 (by simpa using hp)
    split at hborn
    · rename_i hlt
      rw [if_pos hlt]
      split at hborn
      · rename_i hb
        rw [if_pos hb]
        have hpop : (((d.randomFraction E).2.updSite st (fun s => s.to_Born sp)).site st).get_NumberIndSpecies sp
            = (d.site st).get_NumberIndSpecies sp :=
          get_NumberIndSpecies_updSite_to_Born _ _ _ _
        refine ⟨?_, fun _ hcc => ?_⟩
        · rw [hpop]
          exact hlt
        · rw [hpop, SOC_CC_of_no_prey
            ((d.randomFraction E).2.updSite st (fun s => s.to_Born sp)) sp st hnp]
          have hcap : (((d.randomFraction E).2.updSite st (fun s => s.to_Born sp)).site st).carryingCapacity
              = (d.site st).carryingCapacity :=
            carryingCapacity_updSite_to_Born _ _ _
          rw [hcap, ← SOC_CC_of_no_prey d sp st hnp, ← hcc]
          exact hlt
      · exact absurd rfl hborn
    · exact absurd rfl hborn

/-- Witness of the amended C4 on `statePredationAtCall`: the predator eats,
a newborn is registered, and its population is below its stored capacity. -/
theorem C4_birth_below_stored_capacity_witness :
    ((DynamicPrey extKeep statePredationAtCall 0 1 0).site 0).get_NumberIndSpecies 1
        < ((DynamicPrey extKeep statePredationAtCall 0 1 0).species 1).get_CC :=
  (C4_birth_below_stored_capacity extKeep statePredationAtCall 0 1 0 (by decide!)).1

/-- C4, as stated, fails: in the trial of `statePredation` for the predator,
which survives the natural-death test, the call `DynamicPrey(st, sp)` kills
one prey and registers a newborn for the predator, although its population
(1) is then not below `SOC_CC` recomputed from the site (1): the guard
compared it with the capacity stored before the kill (2). The final state has
the `old` counters of the instant of the check, the registration changing only
`new` and `newborn`. -/
theorem C4_counterexample :
    (MonteCarlo_naturalDeathTest extKeep statePredation 0 1).2 = false
      ∧ ((DynamicPrey extKeep statePredationAtCall 0 1 0).site 0).get_NnewBorn 1
          = (statePredationAtCall.site 0).get_NnewBorn 1 + 1
      ∧ ((DynamicPrey extKeep statePredationAtCall 0 1 0).site 0).olds = [1, 1, 1]
      ∧ ((DynamicPrey extKeep statePredationAtCall 0 1 0).site 0).get_NumberIndSpecies 1 = 1
      ∧ SOC_CC (DynamicPrey extKeep statePredationAtCall 0 1 0) 1 0 = 1
      ∧ (statePredationAtCall.species 1).get_CC = 2
      ∧ ¬ ((DynamicPrey extKeep statePredationAtCall 0 1 0).site 0).get_NumberIndSpecies 1
            < SOC_CC (DynamicPrey extKeep statePredationAtCall 0 1 0) 1 0 := by
  decide!

/-! ## C5 -/

/-- C5, as stated, fails on the `float` arithmetic of the code: at the site
of `stateThreeThreeOne` (counts 3, 3 and 1) species 2 has a predator-free
prey list of one species, the formula of the claim gives `36 / 343`, and
`SOC_NDP` returns the `float` `14086991 / 2^27`, one unit in the last place
below the `float` nearest to `36 / 343`. -/
theorem C5_counterexample :
    (stateThreeThreeOne.site 0).oldNonneg
      ∧ ¬ ((stateThreeThreeOne.species 1).predators = []
            ∧ (stateThreeThreeOne.site 0).get_Density 1 = 1)
      ∧ (stateThreeThreeOne.site 0).get_Density 1
          * ((stateThreeThreeOne.species 1).preys.map (fun p =>
              get_DensityPredOfPrey stateThreeThreeOne 0 (p - 1)
                * (1 - (stateThreeThreeOne.site 0).get_Density (p - 1)))).sum = 36 / 343
      ∧ toFloat (36 / 343) = 14086992 / 2 ^ 27
      ∧ SOC_NDP_float stateThreeThreeOne 1 0 = 14086991 / 2 ^ 27 := by
  decide!

/-- C5 (amended): at a site with non-negative `old` counters and fewer than
`2^22` individuals, for a species `sp` with at most 100 prey whose predator
lists hold no id twice, the value that `SOC_NDP(sp, st)` computes in `float`
is exactly `1` when `sp` has no predators and its density is `1`; otherwise it
is within `(32 n + 2 n^2) * 2^-24`, `n` the number of prey of `sp`, of the
density of `sp` times the sum, over the prey `p` of `sp`, of the predation
pressure on `p` times `1 - density(p)`. -/
theorem C5_SOC_NDP_float_formula (d : Dynamic) (sp st : Int) (h : (d.site st).oldNonneg)
    (hnd : ∀ p ∈ (d.species sp).preys, (d.species (p - 1)).predators.Nodup)
    (hn : (d.species sp).preys.length ≤ 100)
    (htot : (d.site st).get_TotalPopulation < 2 ^ 22) :
    ((d.species sp).predators = [] ∧ (d.site st).get_Density sp = 1 →
        SOC_NDP_float d sp st = 1)
      ∧ (¬ ((d.species sp).predators = [] ∧ (d.site st).get_Density sp = 1) →
          |SOC_NDP_float d sp st
              - (d.site st).get_Density sp
                * ((d.species sp).preys.map (fun p =>
                    get_DensityPredOfPrey d st (p - 1)
                      * (1 - (d.site st).get_Density (p - 1)))).sum|
            ≤ (32 * ((d.species sp).preys.length : ℚ)
                + 2 * ((d.species sp).preys.length : ℚ) ^ 2) * unitRoundoff) := by
  refine ⟨SOC_NDP_float_eq_one d sp st h htot, fun hc => ?_⟩
  have hnear := SOC_NDP_float_near d sp st h hnd hn htot
  rw [SOC_NDP_exact_formula, if_neg hc] at hnear
  exact hnear

/-- Witness of the amended C5 on `stateThreeThreeOne`, species 2 (index 1),
which has one prey. -/
theorem C5_SOC_NDP_float_formula_witness :
    |SOC_NDP_float stateThreeThreeOne 1 0
        - (stateThreeThreeOne.site 0).get_Density 1
          * ((stateThreeThreeOne.species 1).preys.map (fun p =>
              get_DensityPredOfPrey stateThreeThreeOne 0 (p - 1)
                * (1 - (stateThreeThreeOne.site 0).get_Density (p - 1)))).sum|
      ≤ (32 * ((stateThreeThreeOne.species 1).preys.length : ℚ)
          + 2 * ((stateThreeThreeOne.species 1).preys.length : ℚ) ^ 2) * unitRoundoff :=
  (C5_SOC_NDP_float_formula stateThreeThreeOne 1 0 (by decide) (by decide) (by decide)
    (by decide)).2 (by decide!)

/-! ## C6 -/

/-- C6, as stated, fails on the `float` arithmetic of the code: at the site
of `stateChainOneFive` (counts 0, 1 and 5) species 2 has one prey and one
predator, the formula of the claim gives `1 / 216`, and `SOC_DP` returns the
`float` `1242757 / 2^28`. -/
theorem C6_counterexample :
    (stateChainOneFive.site 0).oldNonneg
      ∧ (stateChainOneFive.species 1).preys ≠ []
      ∧ (stateChainOneFive.species 1).predators ≠ []
      ∧ (stateChainOneFive.site 0).get_Density 1
          * ((stateChainOneFive.species 1).preys.map (fun p =>
              get_DensityPredOfPrey stateChainOneFive 0 (p - 1)
                * (1 - (stateChainOneFive.site 0).get_Density (p - 1)))).sum
          * (1 - ((stateChainOneFive.species 1).predators.map
                    (fun q => (stateChainOneFive.site 0).get_Density (q - 1))).sum) = 1 / 216
      ∧ SOC_DP_float stateChainOneFive 1 0 = 1242757 / 2 ^ 28
      ∧ SOC_DP_float stateChainOneFive 1 0 ≠ 1 / 216 := by
  decide!

/-- C6 (amended): the value that `SOC_DP(sp, st)` computes in `float` is
exactly `1` when `sp` has no prey; otherwise, at a site with non-negative
`old` counters, for a species with `n ≤ 100` prey and `m ≤ 100` predators
whose predator list and whose prey's predator lists hold no id twice, it is
within `n * (44 + 2 n + 10 m + 3 m^2) * 2^-24` of `density(sp) * dx`, further
multiplied by `1 - (sum of the densities of the predators of sp)` when `sp` has
a predator, with `dx` the sum over the prey `p` of the predation pressure on
`p` times `1 - density(p)`. -/
theorem C6_SOC_DP_float_formula (d : Dynamic) (sp st : Int) :
    ((d.species sp).preys = [] → SOC_DP_float d sp st = 1)
      ∧ ((d.species sp).preys ≠ [] → (d.site st).oldNonneg →
          (d.species sp).predators.Nodup →
          (∀ p ∈ (d.species sp).preys, (d.species (p - 1)).predators.Nodup) →
          (d.species sp).preys.length ≤ 100 → (d.species sp).predators.length ≤ 100 →
          |SOC_DP_float d sp st
              - (if (d.species sp).predators = [] then
                  (d.site st).get_Density sp
                    * ((d.species sp).preys.map (fun p =>
                        get_DensityPredOfPrey d st (p - 1)
                          * (1 - (d.site st).get_Density (p - 1)))).sum
                else
                  (d.site st).get_Density sp
                    * ((d.species sp).preys.map (fun p =>
                        get_DensityPredOfPrey d st (p - 1)
                          * (1 - (d.site st).get_Density (p - 1)))).sum
                    * (1 - ((d.species sp).predators.map
                              (fun q => (d.site st).get_Density (q - 1))).sum))|
            ≤ ((d.species sp).preys.length : ℚ)
                * (44 + 2 * ((d.species sp).preys.length : ℚ)
                    + 10 * ((d.species sp).predators.length : ℚ)
                    + 3 * ((d.species sp).predators.length : ℚ) ^ 2) * unitRoundoff) := by
  refine ⟨SOC_DP_float_eq_one d sp st, fun hp h hpreds hnd hn hm => ?_⟩
  have hnear := SOC_DP_float_near d sp st h hpreds hnd hn hm
  rw [SOC_DP_exact_formula, if_neg hp] at hnear
  exact hnear

/-- Witness of the amended C6 on `stateChainOneFive`, species 2 (index 1),
which has one prey and one predator. -/
theorem C6_SOC_DP_float_formula_witness :
    |SOC_DP_float stateChainOneFive 1 0
        - (if (stateChainOneFive.species 1).predators = [] then
            (stateChainOneFive.site 0).get_Density 1
              * ((stateChainOneFive.species 1).preys.map (fun p =>
                  get_DensityPredOfPrey stateChainOneFive 0 (p - 1)
                    * (1 - (stateChainOneFive.site 0).get_Density (p - 1)))).sum
          else
            (stateChainOneFive.site 0).get_Density 1
              * ((stateChainOneFive.species 1).preys.map (fun p =>
                  get_DensityPredOfPrey stateChainOneFive 0 (p - 1)
                    * (1 - (stateChainOneFive.site 0).get_Density (p - 1)))).sum
              * (1 - ((stateChainOneFive.species 1).predators.map
                        (fun q => (stateChainOneFive.site 0).get_Density (q - 1))).sum))|
      ≤ ((stateChainOneFive.species 1).preys.length : ℚ)
          * (44 + 2 * ((stateChainOneFive.species 1).preys.length : ℚ)
              + 10 * ((stateChainOneFive.species 1).predators.length : ℚ)
              + 3 * ((stateChainOneFive.species 1).predators.length : ℚ) ^ 2) * unitRoundoff :=
  (C6_SOC_DP_float_formula stateChainOneFive 1 0).2 (by decide) (by decide) (by decide)
    (by decide) (by decide) (by decide)

/-! ## C7 -/

/-- C7: at the site of `stateFivePreyOnePredator` (5 individuals of species
1, the only prey of species 2, and 1 individual of species 2) the formula of
the claim gives `floor ((5/6) / (1/6)) = 5` for species 2, while `SOC_CC`
divides the `float` `13981013 / 2^24` by the `float` `11184811 / 2^26`, rounds
the quotient to `5 - 2^-21` and returns its `floor`, 4. At the site of
`stateLargeCapacity`, of capacity `2^24 + 1`, `SOC_CC` of the basal species
returns `2^24`, the capacity stored in a `float`. -/
theorem C7_SOC_CC_float_off_formula :
    (stateFivePreyOnePredator.species 1).preys ≠ []
      ∧ ⌊((stateFivePreyOnePredator.species 1).preys.map
              (fun p => (stateFivePreyOnePredator.site 0).get_Density (p - 1))).sum
            / (if ((stateFivePreyOnePredator.species 1).preys.map
                    (fun p => get_DensityPredOfPrey stateFivePreyOnePredator 0 (p - 1))).sum = 0
               then 1 / (((stateFivePreyOnePredator.site 0).get_TotalPopulation : Int) : ℚ)
               else ((stateFivePreyOnePredator.species 1).preys.map
                    (fun p => get_DensityPredOfPrey stateFivePreyOnePredator 0 (p - 1))).sum)⌋ = 5
      ∧ accum_cc_float stateFivePreyOnePredator 1 0 = (13981013 / 2 ^ 24, 11184811 / 2 ^ 26)
      ∧ toFloat ((13981013 / 2 ^ 24) / (11184811 / 2 ^ 26)) = 5 - 1 / 2 ^ 21
      ∧ SOC_CC_float stateFivePreyOnePredator 1 0 = 4
      ∧ (stateLargeCapacity.species 0).preys = []
      ∧ (stateLargeCapacity.site 0).get_CarryingCapacity = 16777217
      ∧ SOC_CC_float stateLargeCapacity 0 0 = 16777216 := by
  decide!

/-! ## C8 -/

/-- C8, as stated, fails on the `float` arithmetic of the code: at the site
of `stateThreeThreeOne` the formula of the claim gives `48 / 343` for species
2 and `SOC_BP` returns the `float` `9391327 / 2^26`; at the site of
`stateSevenPredators` the formula gives `0` for species 1 and `SOC_BP` returns
`-2^-23`. -/
theorem C8_counterexample :
    (1 - (stateThreeThreeOne.site 0).get_Density 1)
        * (if (stateThreeThreeOne.species 1).preys ≠ [] then
            ((stateThreeThreeOne.species 1).preys.map (fun p =>
              (stateThreeThreeOne.site 0).get_Density (p - 1)
                * (1 - get_DensityPredOfPrey stateThreeThreeOne 0 (p - 1)))).sum
           else 1)
        * (if (stateThreeThreeOne.species 1).predators ≠ []
              ∧ ((stateThreeThreeOne.species 1).predators.map
                    (fun q => (stateThreeThreeOne.site 0).get_Density (q - 1))).sum > 0
           then 1 - ((stateThreeThreeOne.species 1).predators.map
                        (fun q => (stateThreeThreeOne.site 0).get_Density (q - 1))).sum
           else 1) = 48 / 343
      ∧ SOC_BP_float stateThreeThreeOne 1 0 = 9391327 / 2 ^ 26
      ∧ (1 - (stateSevenPredators.site 0).get_Density 0)
          * (if (stateSevenPredators.species 0).preys ≠ [] then
              ((stateSevenPredators.species 0).preys.map (fun p =>
                (stateSevenPredators.site 0).get_Density (p - 1)
                  * (1 - get_DensityPredOfPrey stateSevenPredators 0 (p - 1)))).sum
             else 1)
          * (if (stateSevenPredators.species 0).predators ≠ []
                ∧ ((stateSevenPredators.species 0).predators.map
                      (fun q => (stateSevenPredators.site 0).get_Density (q - 1))).sum > 0
             then 1 - ((stateSevenPredators.species 0).predators.map
                          (fun q => (stateSevenPredators.site 0).get_Density (q - 1))).sum
             else 1) = 0
      ∧ SOC_BP_float stateSevenPredators 0 0 = -(1 / 2 ^ 23) := by
  decide!

/-- C8 (amended): at a site with non-negative `old` counters, for a species
`sp` with `n ≤ 100` prey and `m ≤ 100` predators whose prey list, predator
list and prey's predator lists hold no id twice, the value that
`SOC_BP(sp, st)` computes in `float` is within
`(23 + 33 n + 8 n^2 + 8 m + 2 m^2) * 2^-24` of `1 - density(sp)`, multiplied by
the sum over the prey `p` of `density(p) * (1 - predation pressure on p)` when
`sp` has a prey, and multiplied by `1 - by` when `sp` has a predator and the
summed density `by` of its predators is positive. -/
theorem C8_SOC_BP_float_formula (d : Dynamic) (sp st : Int) (h : (d.site st).oldNonneg)
    (hpreys : (d.species sp).preys.Nodup) (hpreds : (d.species sp).predators.Nodup)
    (hnd : ∀ p ∈ (d.species sp).preys, (d.species (p - 1)).predators.Nodup)
    (hn : (d.species sp).preys.length ≤ 100) (hm : (d.species sp).predators.length ≤ 100) :
    |SOC_BP_float d sp st
        - (1 - (d.site st).get_Density sp)
          * (if (d.species sp).preys ≠ [] then
              ((d.species sp).preys.map (fun p =>
                (d.site st).get_Density (p - 1)
                  * (1 - get_DensityPredOfPrey d st (p - 1)))).sum
             else 1)
          * (if (d.species sp).predators ≠ []
                ∧ ((d.species sp).predators.map
                      (fun q => (d.site st).get_Density (q - 1))).sum > 0
             then 1 - ((d.species sp).predators.map
                          (fun q => (d.site st).get_Density (q - 1))).sum
             else 1)|
      ≤ (23 + 33 * ((d.species sp).preys.length : ℚ)
            + 8 * ((d.species sp).preys.length : ℚ) ^ 2
            + 8 * ((d.species sp).predators.length : ℚ)
            + 2 * ((d.species sp).predators.length : ℚ) ^ 2) * unitRoundoff := by
  have hnear := SOC_BP_float_near d sp st h hpreys hpreds hnd hn hm
  rw [SOC_BP_exact_formula] at hnear
  exact hnear

/-- Witness of the amended C8 on `stateThreeThreeOne`, species 2 (index 1),
which has one prey and no predator. -/
theorem C8_SOC_BP_float_formula_witness :
    |SOC_BP_float stateThreeThreeOne 1 0
        - (1 - (stateThreeThreeOne.site 0).get_Density 1)
          * (if (stateThreeThreeOne.species 1).preys ≠ [] then
              ((stateThreeThreeOne.species 1).preys.map (fun p =>
                (stateThreeThreeOne.site 0).get_Density (p - 1)
                  * (1 - get_DensityPredOfPrey stateThreeThreeOne 0 (p - 1)))).sum
             else 1)
          * (if (stateThreeThreeOne.species 1).predators ≠ []
                ∧ ((stateThreeThreeOne.species 1).predators.map
                      (fun q => (stateThreeThreeOne.site 0).get_Density (q - 1))).sum > 0
             then 1 - ((stateThreeThreeOne.species 1).predators.map
                          (fun q => (stateThreeThreeOne.site 0).get_Density (q - 1))).sum
             else 1)|
      ≤ (23 + 33 * ((stateThreeThreeOne.species 1).preys.length : ℚ)
            + 8 * ((stateThreeThreeOne.species 1).preys.length : ℚ) ^ 2
            + 8 * ((stateThreeThreeOne.species 1).predators.length : ℚ)
            + 2 * ((stateThreeThreeOne.species 1).predators.length : ℚ) ^ 2) * unitRoundoff :=
  C8_SOC_BP_float_formula stateThreeThreeOne 1 0 (by decide) (by decide) (by decide)
    (by decide) (by decide) (by decide)

/-! ## C9 -/

/-- C9: in a neighbour step with `number_mig > 0` towards a valid target, with
`v = SOC_CC(sp, target) - population(sp, target)`: if `v = 0` nothing changes;
if `number_mig ≤ v` exactly `number_mig` is added to the `new` counter of the
target and to `realMigration`; otherwise exactly `v` is added to both. -/
theorem C9_neighbour_step_moves (d : Dynamic) (ix_St1 ix_Sp1 realMigration : Int)
    (auxNeigh : tNeighborhood)
    (ht : inRange d._Sites (auxNeigh.id - 1))
    (hsp : inRange (d.site (auxNeigh.id - 1)).list_Species ix_Sp1)
    (hm : Migration_number_mig d ix_St1 ix_Sp1 realMigration > 0) :
    (Migration_threshold_mig d ix_Sp1 (auxNeigh.id - 1) = 0 →
        Migration_neighbour ix_St1 ix_Sp1 (d, realMigration) auxNeigh = (d, realMigration))
    ∧ (Migration_number_mig d ix_St1 ix_Sp1 realMigration
          ≤ Migration_threshold_mig d ix_Sp1 (auxNeigh.id - 1) →
        ((Migration_neighbour ix_St1 ix_Sp1 (d, realMigration) auxNeigh).1.site
            (auxNeigh.id - 1)).get_Nnew ix_Sp1
          = (d.site (auxNeigh.id - 1)).get_Nnew ix_Sp1
              + Migration_number_mig d ix_St1 ix_Sp1 realMigration
        ∧ (Migration_neighbour ix_St1 ix_Sp1 (d, realMigration) auxNeigh).2
          = realMigration + Migration_number_mig d ix_St1 ix_Sp1 realMigration)
    ∧ (Migration_threshold_mig d ix_Sp1 (auxNeigh.id - 1) ≠ 0 →
       ¬ Migration_number_mig d ix_St1 ix_Sp1 realMigration
          ≤ Migration_threshold_mig d ix_Sp1 (auxNeigh.id - 1) →
        ((Migration_neighbour ix_St1 ix_Sp1 (d, realMigration) auxNeigh).1.site
            (auxNeigh.id - 1)).get_Nnew ix_Sp1
          = (d.site (auxNeigh.id - 1)).get_Nnew ix_Sp1
              + Migration_threshold_mig d ix_Sp1 (auxNeigh.id - 1)
        ∧ (Migration_neighbour ix_St1 ix_Sp1 (d, realMigration) auxNeigh).2
          = realMigration + Migration_threshold_mig d ix_Sp1 (auxNeigh.id - 1)) := by
  have key : ∀ x : Int,
      ((d.updSite (auxNeigh.id - 1)
          (fun s => s.set_Nnew ix_Sp1 (s.get_Nnew ix_Sp1 + x))).site
            (auxNeigh.id - 1)).get_Nnew ix_Sp1
        = (d.site (auxNeigh.id - 1)).get_Nnew ix_Sp1 + x := by
    intro x
    rw [site_updSite, if_pos ⟨rfl, ht⟩, get_Nnew_set_Nnew, if_pos ⟨rfl, hsp⟩]
  unfold Migration_neighbour
  simp only [gt_iff_lt, zero_lt_one, if_true, hm]
  refine ⟨?_, ?_, ?_⟩
  · intro hv
    simp only [hv, if_true]
  · intro hle
    have hv : Migration_threshold_mig d ix_Sp1 (auxNeigh.id - 1) ≠ 0 := by omega
    simp only [hv, if_false]
    by_cases hlt : Migration_number_mig d ix_St1 ix_Sp1 realMigration
        < Migration_threshold_mig d ix_Sp1 (auxNeigh.id - 1)
    · simp only [hlt, if_true]
      exact ⟨key _, by trivial⟩
    · have heq : Migration_threshold_mig d ix_Sp1 (auxNeigh.id - 1)
          = Migration_number_mig d ix_St1 ix_Sp1 realMigration := by omega
      simp only [hlt, if_false]
      rw [heq]
      exact ⟨key _, by trivial⟩
  · intro hv hnle
    have hlt : ¬ Migration_number_mig d ix_St1 ix_Sp1 realMigration
        < Migration_threshold_mig d ix_Sp1 (auxNeigh.id - 1) := by omega
    simp only [hv, hlt, if_false]
    exact ⟨key _, by trivial⟩

/-- Witness of C9 on `stateThreeSites`: in the step from site 1 towards site 3,
5 migrants meet a vacancy of 100 and are all added to the `new` counter of
site 3 and to `realMigration`. -/
theorem C9_neighbour_step_moves_witness :
    ((Migration_neighbour 0 0 (stateThreeSites, 0) ⟨3, 1⟩).1.site
        ((⟨3, 1⟩ : tNeighborhood).id - 1)).get_Nnew 0
      = (stateThreeSites.site ((⟨3, 1⟩ : tNeighborhood).id - 1)).get_Nnew 0
          + Migration_number_mig stateThreeSites 0 0 0
    ∧ (Migration_neighbour 0 0 (stateThreeSites, 0) ⟨3, 1⟩).2
      = 0 + Migration_number_mig stateThreeSites 0 0 0 :=
  (C9_neighbour_step_moves stateThreeSites 0 0 0 ⟨3, 1⟩ (by decide!) (by decide!)
    (by decide!)).2.1 (by decide!)

/-! ## C10 -/

/-- C11, the code at the failing input: in the individual trial of the
predator (index 1) of `statePredation`, which survives the natural-death test,
the five calls of `DynamicPrey` register two newborns for the predator: each
call starts again with `pario = 0`. -/
theorem C11_two_newborns_in_one_trial :
    (MonteCarlo_naturalDeathTest extKeep statePredation 0 1).2 = false
      ∧ (statePredation.site 0).get_NnewBorn 1 = 0
      ∧ (statePredation.site 0).get_Nnew 1 = 0
      ∧ ((DynamicPrey extKeep statePredationAtCall 0 1 0).site 0).get_NnewBorn 1 = 1
      ∧ ((DynamicPrey extKeep (DynamicPrey extKeep statePredationAtCall 0 1 0) 0 1 0).site
            0).get_NnewBorn 1 = 2
      ∧ ((MonteCarlo_trial extKeep statePredation 0 1 0).site 0).get_NnewBorn 1 = 2
      ∧ ((MonteCarlo_trial extKeep statePredation 0 1 0).site 0).get_Nnew 1 = 2 := by
  decide!

/-! ## C12 -/

/-- C12, as stated, fails: in `stateChainAtCall` the call of `DynamicPrey` for
the top predator (index 2) selects its prey (index 1); the draw `u2 = 0.2` is
not below the death probability `9/64` of the prey, which survives; the next
value of the stream, `0.2`, is below the birth probability `9/32` of the
predator, whose population (1) is below its carrying capacity (2), and no
birth has occurred; yet no newborn is registered and no counter changes. -/
theorem C12_counterexample :
    (get_RandomSpecies stateChainAtCall 0 0 (DynamicPrey_sum stateChainAtCall 0 2)
        (DynamicPrey_auxIndex stateChainAtCall 0 2)).1 = 1
      ∧ ((SOC stateChainAtCall 1 0).species 1).deathProbability = 9 / 64
      ∧ (stateChainAtCall.species 2).birthProbability = 9 / 32
      ∧ (((DynamicPrey extKeep stateChainAtCall 0 2 0).seedStream
            (DynamicPrey extKeep stateChainAtCall 0 2 0).drawn % extKeep.PRECISION : Nat) : ℚ)
          / (extKeep.PRECISION : ℚ) = 1 / 5
      ∧ (stateChainAtCall.site 0).get_NumberIndSpecies 2 = 1
      ∧ (stateChainAtCall.species 2).get_CC = 2
      ∧ SOC_CC stateChainAtCall 2 0 = 2
      ∧ ((DynamicPrey extKeep stateChainAtCall 0 2 0).site 0).get_NnewBorn 2 = 0
      ∧ ((DynamicPrey extKeep stateChainAtCall 0 2 0).site 0).list_Species
          = (stateChainAtCall.site 0).list_Species := by
  decide!

/-- C12 (amended): in a feeding sub-trial in which a prey species is selected,
the birth check of the predator is made only when the draw `u2` killed the
prey. When the prey is spared, no counter of any site changes and the flag
`pario` keeps its value. When the prey is killed, a newborn is registered for
the predator exactly when the next draw `u3` is below its birth probability,
its population is below its stored carrying capacity and `pario` is `0`. -/
theorem C12_birth_check_follows_kill (E : Externals) (st sp cont sum : Int) (aux : List Int)
    (acc : Dynamic × Bool)
    (hsel : (get_RandomSpecies acc.1 st cont sum aux).1 ≠ -1)
    (hst : inRange acc.1._Sites st) (hsp : inRange (acc.1.site st).list_Species sp) :
    let sel := get_RandomSpecies acc.1 st cont sum aux
    let u := (SOC sel.2 sel.1 st).randomFraction E
    let p := (u.2.updSite st (fun s => (s.to_Die sel.1).dec_MCdata sel.1)).randomFraction E
    ((u.2.species sel.1).ver_Death u.1 = false →
        (DynamicPrey_comida E st sp cont sum aux acc).1._Sites = acc.1._Sites
          ∧ (DynamicPrey_comida E st sp cont sum aux acc).2 = acc.2)
    ∧ ((u.2.species sel.1).ver_Death u.1 = true →
        (((DynamicPrey_comida E st sp cont sum aux acc).1.site st).get_NnewBorn sp
            = (acc.1.site st).get_NnewBorn sp + 1
          ↔ ((p.2.species sp).ver_Birth p.1 = true
              ∧ (p.2.species sp).get_CC > (p.2.site st).get_NumberIndSpecies sp
              ∧ acc.2 = false))) := by
  intro sel u p
  have hsites : sel.2._Sites = acc.1._Sites := get_RandomSpecies_sites _ _ _ _ _
  have hu : u.2._Sites = acc.1._Sites := hsites
  have hst2 : inRange u.2._Sites st := by rw [hu]; exact hst
  have hsiteu : u.2.site st = acc.1.site st := site_congr _ _ hu st
  have hp : p.2.site st = ((acc.1.site st).to_Die sel.1).dec_MCdata sel.1 := by
    show (u.2.updSite st (fun s => (s.to_Die sel.1).dec_MCdata sel.1)).site st = _
    rw [site_updSite, if_pos ⟨rfl, hst2⟩, hsiteu]
  have hborn0 : (p.2.site st).get_NnewBorn sp = (acc.1.site st).get_NnewBorn sp := by
    rw [hp]
    exact get_NnewBorn_kill _ _ _
  have hsp2 : inRange (p.2.site st).list_Species sp := by
    rw [hp]
    unfold inRange at *
    rw [length_kill]
    exact hsp
  have hst3 : inRange p.2._Sites st := by
    show inRange (u.2.updSite st _)._Sites st
    unfold inRange at *
    rw [sites_length_updSite]
    exact hst2
  constructor
  · intro hd
    unfold DynamicPrey_comida
    simp only []
    rw [if_pos hsel]
    have hd2 : ¬ ((u.2.species sel.1).ver_Death u.1 = true) := by simp [hd]
    rw [if_neg hd2]
    exact ⟨hu, by trivial⟩
  · intro hd
    unfold DynamicPrey_comida
    simp only []
    rw [if_pos hsel, if_pos hd]
    by_cases hb : (p.2.species sp).ver_Birth p.1 = true
        ∧ (p.2.species sp).get_CC > (p.2.site st).get_NumberIndSpecies sp ∧ acc.2 = false
    · rw [if_pos hb]
      simp only []
      rw [site_updSite, if_pos ⟨rfl, hst3⟩, get_NnewBorn_to_Born _ _ hsp2, hborn0]
      exact ⟨fun _ => hb, fun _ => rfl⟩
    · rw [if_neg hb]
      simp only []
      rw [hborn0]
      constructor
      · intro h
        omega
      · intro h
        exact absurd h hb

/-- Witness of the amended C12 on `stateChainAtCall`, where the prey is
spared: no site changes and the flag stays `false`. -/
theorem C12_birth_check_follows_kill_witness :
    (DynamicPrey_comida extKeep 0 2 0 (DynamicPrey_sum stateChainAtCall 0 2)
        (DynamicPrey_auxIndex stateChainAtCall 0 2) (stateChainAtCall, false)).1._Sites
        = stateChainAtCall._Sites
      ∧ (DynamicPrey_comida extKeep 0 2 0 (DynamicPrey_sum stateChainAtCall 0 2)
        (DynamicPrey_auxIndex stateChainAtCall 0 2) (stateChainAtCall, false)).2 = false :=
  (C12_birth_check_follows_kill extKeep 0 2 0 (DynamicPrey_sum stateChainAtCall 0 2)
    (DynamicPrey_auxIndex stateChainAtCall 0 2) (stateChainAtCall, false)
    (by decide!) (by decide!) (by decide!)).1 (by decide!)

/-! ## C13 -/

/-- C13: in an individual trial in which the draw is below the natural-death
probability of the sampled species, the `old` count of that species at that
site decreases by exactly one, its `new` and `newborn` counters keep their
values, and the record of every other species and of every other site is
unchanged. -/
theorem C13_natural_death_only_decrements (E : Externals) (d : Dynamic)
    (st sp realization : Int) (hst : inRange d._Sites st)
    (hsp : inRange (d.site st).list_Species sp)
    (hdie : (MonteCarlo_naturalDeathTest E d st sp).2 = true) :
    ((MonteCarlo_trial E d st sp realization).site st).get_Nold sp = (d.site st).get_Nold sp - 1
      ∧ ((MonteCarlo_trial E d st sp realization).site st).get_Nnew sp = (d.site st).get_Nnew sp
      ∧ ((MonteCarlo_trial E d st sp realization).site st).get_NnewBorn sp
          = (d.site st).get_NnewBorn sp
      ∧ ∀ t q : Int, ¬ (t = st ∧ q = sp) →
          atI ((MonteCarlo_trial E d st sp realization).site t).list_Species q
            = atI (d.site t).list_Species q := by
  have hs : (MonteCarlo_naturalDeathTest E d st sp).1._Sites = d._Sites := rfl
  have hst2 : inRange (MonteCarlo_naturalDeathTest E d st sp).1._Sites st := by
    rw [hs]; exact hst
  have key : ∀ t : Int, (MonteCarlo_trial E d st sp realization).site t
      = if st = t then ((d.site st).to_Die sp).dec_MCdata sp else d.site t := by
    intro t
    unfold MonteCarlo_trial
    simp only []
    rw [if_pos hdie, site_updSite]
    by_cases h : st = t
    · rw [if_pos ⟨h, hst2⟩, if_pos h, site_congr _ _ hs st]
    · rw [if_neg (fun h2 => h h2.1), if_neg h, site_congr _ _ hs t]
  refine ⟨?_, ?_, ?_, ?_⟩
  · rw [key st, if_pos rfl]
    unfold Site.get_Nold
    rw [atI_kill, if_pos ⟨rfl, hsp⟩]
    rfl
  · rw [key st, if_pos rfl]
    unfold Site.get_Nnew
    rw [atI_kill, if_pos ⟨rfl, hsp⟩]
  · rw [key st, if_pos rfl]
    unfold Site.get_NnewBorn
    rw [atI_kill, if_pos ⟨rfl, hsp⟩]
  · intro t q hne
    rw [key t]
    by_cases h : st = t
    · rw [if_pos h, atI_kill]
      rw [if_neg (fun h2 => hne ⟨h.symm, h2.1.symm⟩), h]
    · rw [if_neg h]

/-- Witness of C13 on `stateAlone`, where the only species fills its site and
has no predator, so that its natural-death probability is `1`. -/
theorem C13_natural_death_only_decrements_witness :
    ((MonteCarlo_trial extKeep stateAlone 0 0 0).site 0).get_Nold 0
        = (stateAlone.site 0).get_Nold 0 - 1
      ∧ ((MonteCarlo_trial extKeep stateAlone 0 0 0).site 0).get_Nnew 0
        = (stateAlone.site 0).get_Nnew 0
      ∧ ((MonteCarlo_trial extKeep stateAlone 0 0 0).site 0).get_NnewBorn 0
        = (stateAlone.site 0).get_NnewBorn 0 :=
  ⟨(C13_natural_death_only_decrements extKeep stateAlone 0 0 0 (by decide!) (by decide!)
      (by decide!)).1,
   (C13_natural_death_only_decrements extKeep stateAlone 0 0 0 (by decide!) (by decide!)
      (by decide!)).2.1,
   (C13_natural_death_only_decrements extKeep stateAlone 0 0 0 (by decide!) (by decide!)
      (by decide!)).2.2.1⟩

/-! ## C14 -/

/-- C14: for a species with at least one prey, at a site where none of its
prey has `old > 0`, a call of `DynamicPrey` leaves the sites as they are: no
newborn is registered and no population counter changes. -/
theorem C14_no_prey_alive_no_change (E : Externals) (d : Dynamic) (st sp cont : Int)
    (hpred : (d.species sp).ver_IsPredator = true)
    (hnone : ∀ prey ∈ (d.species sp).preys, ¬ (d.site st).get_Nold (prey - 1) > 0) :
    (DynamicPrey E d st sp cont)._Sites = d._Sites := by
  have haux := DynamicPrey_auxIndex_eq_nil d st sp hnone
  have hsum : DynamicPrey_sum d st sp = 0 := by
    unfold DynamicPrey_sum
    rw [haux]
    rfl
  have hr : List.range 1 = [0] := rfl
  unfold DynamicPrey
  simp only [hpred, if_true, hr, List.foldl_cons, List.foldl_nil, hsum, haux]
  unfold DynamicPrey_comida get_RandomSpecies
  simp

/-- Witness of C14 on `statePredatorsOnly`, whose predator finds no prey. -/
theorem C14_no_prey_alive_no_change_witness :
    (DynamicPrey extKeep statePredatorsOnly 0 1 0)._Sites = statePredatorsOnly._Sites :=
  C14_no_prey_alive_no_change extKeep statePredatorsOnly 0 1 0 (by decide!) (by decide!)

/-! ## C15 -/

/-- C15, as stated, fails: at the site of `stateAtCapacity` the total
population at the start of the trial phase is 2 and no trial changes it; the
loop, whose condition is `in < 10 * log 2` for this total, executes 7 trials,
while `floor (10 * log 2)` is 6. -/
theorem C15_counterexample :
    ((MonteCarlo_rateAccounting stateAtCapacity 0).site 0).calculate_SumOld = 2
      ∧ guardIsLog guardUpToTwo 2
      ∧ (MonteCarlo_site guardUpToTwo extKeep 20 0 stateAtCapacity 0).map (fun r => r.2) = some 7
      ∧ ⌊10 * Real.log ((2 : Int) : ℝ)⌋ = 6 :=
  ⟨by decide!, guardUpToTwo_isLog, by decide!, floor_ten_log_two⟩

/-- C15 (amended): for a site whose total population at the start of the
trial phase is `sumOld ≥ 1`, the trial loop returns, and the number `n` of
trials executed satisfies `0 ≤ n ≤ ceil (10 * log sumOld)`; the total
`sumOldEnd` of the site when the loop is left is at most `sumOld`, and
`10 * log sumOldEnd ≤ n` when `sumOldEnd ≥ 1`; in particular
`n = ceil (10 * log sumOld)` when the total is the same at the end. -/
theorem C15_trial_count (g : Int → Int → Bool) (E : Externals) (fuel : Nat)
    (realization : Int) (d : Dynamic) (st : Int)
    (hg : guardIsLog g ((MonteCarlo_rateAccounting d st).site st).calculate_SumOld)
    (h1 : 1 ≤ ((MonteCarlo_rateAccounting d st).site st).calculate_SumOld)
    (hfuel : ⌈10 * Real.log
        ((((MonteCarlo_rateAccounting d st).site st).calculate_SumOld : Int) : ℝ)⌉.toNat < fuel) :
    ∃ r : Dynamic × Int,
      MonteCarlo_site g E fuel realization d st = some r
        ∧ 0 ≤ r.2
        ∧ r.2 ≤ ⌈10 * Real.log
            ((((MonteCarlo_rateAccounting d st).site st).calculate_SumOld : Int) : ℝ)⌉
        ∧ (r.1.site st).calculate_SumOld
            ≤ ((MonteCarlo_rateAccounting d st).site st).calculate_SumOld
        ∧ (1 ≤ (r.1.site st).calculate_SumOld →
            10 * Real.log (((r.1.site st).calculate_SumOld : Int) : ℝ) ≤ (r.2 : ℝ))
        ∧ ((r.1.site st).calculate_SumOld
              = ((MonteCarlo_rateAccounting d st).site st).calculate_SumOld →
            r.2 = ⌈10 * Real.log
              ((((MonteCarlo_rateAccounting d st).site st).calculate_SumOld : Int) : ℝ)⌉) := by
  have hceil : 0 ≤ ⌈10 * Real.log
      ((((MonteCarlo_rateAccounting d st).site st).calculate_SumOld : Int) : ℝ)⌉ := by
    apply Int.ceil_nonneg
    have hc : (1 : ℝ) ≤ ((((MonteCarlo_rateAccounting d st).site st).calculate_SumOld : Int) : ℝ) := by
      exact_mod_cast h1
    have := Real.log_nonneg hc
    linarith
  obtain ⟨r, hr, h2, h3, h4, h5⟩ :=
    MonteCarlo_trialLoop_spec g E st realization _ hg fuel (MonteCarlo_rateAccounting d st) 0
      (le_refl _) (le_refl _) (by simpa using hfuel)
  rw [max_eq_right hceil] at h3
  have hlow : 1 ≤ (r.1.site st).calculate_SumOld →
      10 * Real.log (((r.1.site st).calculate_SumOld : Int) : ℝ) ≤ (r.2 : ℝ) := by
    intro hge
    by_contra hcon
    have hlt : (r.2 : ℝ) < 10 * Real.log (((r.1.site st).calculate_SumOld : Int) : ℝ) :=
      lt_of_not_le hcon
    have := (hg r.2 _ h2 h4).2 ⟨hge, hlt⟩
    rw [h5] at this
    cases this
  refine ⟨r, hr, h2, h3, h4, hlow, fun heq => ?_⟩
  apply le_antisymm h3
  apply Int.ceil_le.2
  rw [← heq]
  exact hlow (by rw [heq]; exact h1)

/-- Witness of the amended C15 on `stateAtCapacity`, with `guardUpToTwo` and
20 units of fuel. -/
theorem C15_trial_count_witness :
    ∃ r : Dynamic × Int,
      MonteCarlo_site guardUpToTwo extKeep 20 0 stateAtCapacity 0 = some r
        ∧ 0 ≤ r.2
        ∧ r.2 ≤ ⌈10 * Real.log
            ((((MonteCarlo_rateAccounting stateAtCapacity 0).site 0).calculate_SumOld : Int) : ℝ)⌉ :=
  have e : ((MonteCarlo_rateAccounting stateAtCapacity 0).site 0).calculate_SumOld = 2 := by
    decide!
  (C15_trial_count guardUpToTwo extKeep 20 0 stateAtCapacity 0
      (by rw [e]; exact guardUpToTwo_isLog) (by rw [e]; decide)
      (by rw [e, ceil_ten_log_two]; decide)).imp
    (fun _ h => ⟨h.1, h.2.1, h.2.2.1⟩)

/-! ## C16 -/

/-- C17: after the rate-accounting phase of a site, for every species,
`old` is the former `old + new`, `oldIni` equals the new `old`, and `new` and
`newborn` are `0`; hence `old + new` is preserved. -/
theorem C17_rate_accounting_merges (d : Dynamic) (st sp : Int) (h0 : 0 ≤ sp)
    (h1 : sp < (d._Species.length : Int)) :
    ((MonteCarlo_rateAccounting d st).site st).get_Nold sp
        = (d.site st).get_Nold sp + (d.site st).get_Nnew sp
      ∧ ((MonteCarlo_rateAccounting d st).site st).get_NoldIni sp
        = ((MonteCarlo_rateAccounting d st).site st).get_Nold sp
      ∧ ((MonteCarlo_rateAccounting d st).site st).get_Nnew sp = 0
      ∧ ((MonteCarlo_rateAccounting d st).site st).get_NnewBorn sp = 0
      ∧ ((MonteCarlo_rateAccounting d st).site st).get_Nold sp
          + ((MonteCarlo_rateAccounting d st).site st).get_Nnew sp
        = (d.site st).get_Nold sp + (d.site st).get_Nnew sp := by
  have h := rateAccounting_record d st sp h0 h1
  unfold Site.get_Nold Site.get_NoldIni Site.get_Nnew Site.get_NnewBorn
  rw [h]
  simp [mergedRecord]

/-- Witness of C17 on `stateAfterBirths`, species 1. -/
theorem C17_rate_accounting_merges_witness :
    ((MonteCarlo_rateAccounting stateAfterBirths 0).site 0).get_Nold 0
        = (stateAfterBirths.site 0).get_Nold 0 + (stateAfterBirths.site 0).get_Nnew 0
      ∧ ((MonteCarlo_rateAccounting stateAfterBirths 0).site 0).get_NoldIni 0
        = ((MonteCarlo_rateAccounting stateAfterBirths 0).site 0).get_Nold 0
      ∧ ((MonteCarlo_rateAccounting stateAfterBirths 0).site 0).get_Nnew 0 = 0
      ∧ ((MonteCarlo_rateAccounting stateAfterBirths 0).site 0).get_NnewBorn 0 = 0
      ∧ ((MonteCarlo_rateAccounting stateAfterBirths 0).site 0).get_Nold 0
          + ((MonteCarlo_rateAccounting stateAfterBirths 0).site 0).get_Nnew 0
        = (stateAfterBirths.site 0).get_Nold 0 + (stateAfterBirths.site 0).get_Nnew 0 :=
  C17_rate_accounting_merges stateAfterBirths 0 0 (by decide) (by decide!)

/-! ## C18 -/

/-- C18, the code at the failing input: with the single site of
`stateOneSite`, `niter = 2` and `tm = 1`, `MonteCarlo` returns for no random
stream and no amount of fuel, and neither does a call of `Migration`: in
`reorder_Sites` the draw `random() % 1` always equals `i = 0`. -/
theorem C18_single_site_never_returns (g : Int → Int → Bool) (E : Externals) (fuel : Nat)
    (realization : Int) (stream : Nat → Nat) :
    MonteCarlo g E fuel 2 1 realization (stateOneSite stream) = none
      ∧ Migration E fuel (stateOneSite stream) realization = none
      ∧ reorder_Sites fuel (stateOneSite stream) = none :=
  ⟨MonteCarlo_one_site g E fuel realization (stateOneSite stream) rfl,
   Migration_one_site E fuel (stateOneSite stream) realization rfl,
   by
    have h := Migration_one_site extKeep fuel (stateOneSite stream) 0 rfl
    unfold Migration at h
    cases hr : reorder_Sites fuel (stateOneSite stream) with
    | none => rfl
    | some d1 => rw [hr] at h; cases h⟩

/-! ## C19 -/

/-- C19, as stated, fails: at the site of `stateTwoPrey`, whose counts are
non-negative and whose total population is 16, the natural-death probability
of species 1 (14 individuals, two prey species with one individual each) is
`735/512`, above `1`. -/
theorem C19_counterexample :
    (stateTwoPrey.site 0).oldNonneg
      ∧ (stateTwoPrey.site 0).get_TotalPopulation = 16
      ∧ SOC_NDP stateTwoPrey 0 0 = 735 / 512
      ∧ ¬ SOC_NDP stateTwoPrey 0 0 ≤ 1 := by
  decide!

/-- C19 (amended): at a site with non-negative counts, for a species whose
prey have predator lists without repeated id, the natural-death probability
computed by `SOC_NDP` is at least `0` and at most the larger of `1` and the
number of prey species; it lies in `[0, 1]` when the species has at most one
prey. -/
theorem C19_SOC_NDP_bounds (d : Dynamic) (sp st : Int) (h : (d.site st).oldNonneg)
    (hnd : ∀ p ∈ (d.species sp).preys, (d.species (p - 1)).predators.Nodup) :
    0 ≤ SOC_NDP d sp st
      ∧ SOC_NDP d sp st ≤ max 1 ((d.species sp).preys.length : ℚ)
      ∧ ((d.species sp).preys.length ≤ 1 → SOC_NDP d sp st ≤ 1) := by
  have hdx := accum_dx_bounds d sp st h hnd
  have hp := get_Density_bounds (d.site st) h sp
  have key : 0 ≤ SOC_NDP d sp st
      ∧ SOC_NDP d sp st ≤ max 1 ((d.species sp).preys.length : ℚ) := by
    unfold SOC_NDP
    simp only []
    split
    · exact ⟨by norm_num, le_max_left _ _⟩
    · constructor
      · exact mul_nonneg hp.1 hdx.1
      · calc (d.site st).get_Density sp * accum_dx d sp st
            ≤ 1 * ((d.species sp).preys.length : ℚ) :=
              mul_le_mul hp.2 hdx.2 hdx.1 (by norm_num)
          _ = ((d.species sp).preys.length : ℚ) := one_mul _
          _ ≤ max 1 ((d.species sp).preys.length : ℚ) := le_max_right _ _
  refine ⟨key.1, key.2, fun hlen => ?_⟩
  have hc : ((d.species sp).preys.length : ℚ) ≤ 1 := by exact_mod_cast hlen
  exact le_trans key.2 (max_le (le_refl _) hc)

/-- Witness of the amended C19 on `stateTwoPrey`: the natural-death
probability of species 1 is between `0` and `2`. -/
theorem C19_SOC_NDP_bounds_witness :
    0 ≤ SOC_NDP stateTwoPrey 0 0
      ∧ SOC_NDP stateTwoPrey 0 0 ≤ max 1 (((stateTwoPrey.species 0).preys.length : Nat) : ℚ) :=
  ⟨(C19_SOC_NDP_bounds stateTwoPrey 0 0 (by decide!) (by decide!)).1,
   (C19_SOC_NDP_bounds stateTwoPrey 0 0 (by decide!) (by decide!)).2.1⟩

/-! ## C20 -/

/-- C20, as stated, fails: timestep 0 at the site of `stateRoomToGrow` runs 7
trials, which register 35 newborns for species 1 whose `oldIni` is 1; the
rate-accounting phase of the next timestep stores the reproductive exitus
`35`, and `SOC_MP` is then `-17`. -/
theorem C20_counterexample :
    (MonteCarlo_site guardUpToTwo extKeep 20 0 stateRoomToGrow 0).map (fun r => r.2) = some 7
      ∧ (stateAfterTimestep.site 0).get_NnewBorn 0 = 35
      ∧ (stateAfterTimestep.site 0).get_NoldIni 0 = 1
      ∧ ((MonteCarlo_rateAccounting stateAfterTimestep 0).site 0).get_ReproductiveExitus 0 = 35
      ∧ SOC_MP (MonteCarlo_rateAccounting stateAfterTimestep 0) 0 0 = -17
      ∧ ¬ 0 ≤ SOC_MP (MonteCarlo_rateAccounting stateAfterTimestep 0) 0 0 := by
  decide!

/-- C20 (amended): after the rate-accounting phase of a site, the migration
probability `SOC_MP = 0.5 * (1 - reproductiveExitus)` of a species lies in
`[0, 1]`, indeed in `[0, 1/2]`, whenever the counters read by the phase
satisfied `0 ≤ newborn ≤ oldIni`. -/
theorem C20_SOC_MP_bounds (d : Dynamic) (st sp : Int) (hst : inRange d._Sites st)
    (h0 : 0 ≤ sp) (h1 : sp < (d._Species.length : Int))
    (hex : inRange (d.site st).reproductiveExitus sp)
    (hnb : 0 ≤ (d.site st).get_NnewBorn sp)
    (hle : (d.site st).get_NnewBorn sp ≤ (d.site st).get_NoldIni sp) :
    0 ≤ SOC_MP (MonteCarlo_rateAccounting d st) sp st
      ∧ SOC_MP (MonteCarlo_rateAccounting d st) sp st ≤ 1 / 2
      ∧ SOC_MP (MonteCarlo_rateAccounting d st) sp st ≤ 1 := by
  have he := rateAccounting_exitus d st sp hst h0 h1 hex
  have hb : 0 ≤ exitusOf (atI (d.site st).list_Species sp)
      ∧ exitusOf (atI (d.site st).list_Species sp) ≤ 1 := by
    unfold Site.get_NnewBorn at hnb hle
    unfold Site.get_NoldIni at hle
    unfold exitusOf
    split
    · exact ⟨by norm_num, le_refl _⟩
    · rename_i hne
      have hpos : (0 : ℚ) < (((atI (d.site st).list_Species sp).nOld_ini : Int) : ℚ) := by
        have : 0 < (atI (d.site st).list_Species sp).nOld_ini := by omega
        exact_mod_cast this
      have hn0 : (0 : ℚ) ≤ (((atI (d.site st).list_Species sp).nNew_born : Int) : ℚ) := by
        exact_mod_cast hnb
      have hn1 : (((atI (d.site st).list_Species sp).nNew_born : Int) : ℚ)
          ≤ (((atI (d.site st).list_Species sp).nOld_ini : Int) : ℚ) := by exact_mod_cast hle
      exact ⟨div_nonneg hn0 hpos.le, (div_le_one hpos).2 hn1⟩
  unfold SOC_MP
  simp only []
  rw [he]
  refine ⟨?_, ?_, ?_⟩ <;> linarith [hb.1, hb.2]

/-- Witness of the amended C20 on `statePredation`, whose counters have
`newborn = 0` and `oldIni = 1` for species 2. -/
theorem C20_SOC_MP_bounds_witness :
    0 ≤ SOC_MP (MonteCarlo_rateAccounting statePredation 0) 1 0
      ∧ SOC_MP (MonteCarlo_rateAccounting statePredation 0) 1 0 ≤ 1 / 2
      ∧ SOC_MP (MonteCarlo_rateAccounting statePredation 0) 1 0 ≤ 1 :=
  C20_SOC_MP_bounds statePredation 0 1 (by decide!) (by decide) (by decide!) (by decide!)
    (by decide!) (by decide!)

/-! ## C21 -/

/-- C23: at a site whose species vector holds id `i + 1` at index `i`,
`get_DensityPredOfPrey(st, p)`, computed by the id-matching double loop of
`get_NumberIndPredators`, equals the predation pressure of the specification
computed by direct indexing: the sum over the predator ids `q` of `p` of
`old[q - 1]`, divided by the total population of the site, and `0` when the
total is zero. -/
theorem C23_pressure_by_direct_indexing (d : Dynamic) (st p : Int)
    (h : (d.site st).idsInOrder) :
    get_DensityPredOfPrey d st p = predationPressureOnPrey d st p
      ∧ get_NumberIndPredators d st p
          = ((d.species p).predators.map (fun q => (d.site st).get_Nold (q - 1))).sum := by
  have hnum : get_NumberIndPredators d st p
      = ((d.species p).predators.map (fun q => (d.site st).get_Nold (q - 1))).sum := by
    rw [get_NumberIndPredators_eq]
    congr 1
    apply List.map_congr_left
    intro q _
    rw [sum_id_match_eq_atI 0 q _ h]
    unfold Site.get_Nold
    congr 2
    omega
  refine ⟨?_, hnum⟩
  unfold get_DensityPredOfPrey predationPressureOnPrey
  simp only []
  rw [hnum]
  by_cases ht : (d.site st).get_TotalPopulation = 0
  · rw [if_neg (by simpa using ht), if_pos ht]
  · rw [if_pos ht, if_neg ht]

/-- Witness of C23 on `stateChain`: the pressure on species 2 (index 1), whose
predator is species 3, at the site holding 1, 2 and 1 individuals. -/
theorem C23_pressure_by_direct_indexing_witness :
    (stateChain.site 0).idsInOrder
      ∧ get_DensityPredOfPrey stateChain 0 1 = predationPressureOnPrey stateChain 0 1
      ∧ get_DensityPredOfPrey stateChain 0 1 = 1 / 4 :=
  ⟨by decide, (C23_pressure_by_direct_indexing stateChain 0 1 (by decide)).1, by decide!⟩

/-! ## C24 -/

/-- C24: at the site of `stateFivePrey` (6 individuals, none of them a
predator of species 1, the only prey of species 2), the summed predation
pressure on the prey of species 2 is zero and its prey count 5 individuals,
the value of `SOC_CC` when its `float` operations are read as exact; computed
with the rounding of `float`, `d_prey` is `13981013 / 2^24`, the divisor
`1.0/(float)TotalInds` is `11184811 / 2^26`, their quotient rounds to
`5 - 2^-21`, and `SOC_CC` returns `floor` of it, 4. -/
theorem C24_SOC_CC_float_below_prey_count :
    (stateFivePrey.species 1).preys ≠ []
      ∧ (stateFivePrey.site 0).get_TotalPopulation = 6
      ∧ ((stateFivePrey.species 1).preys.map
            (fun p => get_DensityPredOfPrey_float stateFivePrey 0 (p - 1))).sum = 0
      ∧ ((stateFivePrey.species 1).preys.map
            (fun p => (stateFivePrey.site 0).get_Nold (p - 1))).sum = 5
      ∧ SOC_CC stateFivePrey 1 0 = 5
      ∧ (accum_cc_float stateFivePrey 1 0).1 = 13981013 / 2 ^ 24
      ∧ toFloat (toDouble (1 / toFloat 6)) = 11184811 / 2 ^ 26
      ∧ toFloat ((13981013 / 2 ^ 24) / (11184811 / 2 ^ 26)) = 5 - 1 / 2 ^ 21
      ∧ SOC_CC_float stateFivePrey 1 0 = 4 := by
  decide!

/-! ## C25 -/

/-- C25: at a site, a trial (the draw of a species by `get_RandSP`, then the
individual trial) never increases the total `old` population; the trial loop,
started after the rate-accounting phase with the total `sumOld0`, returns, and
the number of trials it has executed is at most `ceil (10 * log sumOld0)` when
`sumOld0 ≥ 1` and is `0`, the state being left as it was, when `sumOld0 ≤ 1`;
the total when the loop is left is at most `sumOld0`. -/
theorem C25_trial_loop_terminates (g : Int → Int → Bool) (E : Externals) (fuel : Nat)
    (realization : Int) (d : Dynamic) (st : Int)
    (hg : guardIsLog g ((MonteCarlo_rateAccounting d st).site st).calculate_SumOld)
    (hfuel : ⌈10 * Real.log
        ((((MonteCarlo_rateAccounting d st).site st).calculate_SumOld : Int) : ℝ)⌉.toNat < fuel) :
    (∀ (d1 : Dynamic) (sp : Int),
        ((MonteCarlo_trial E (get_RandSP d1 st).2 st sp realization).site st).calculate_SumOld
          ≤ (d1.site st).calculate_SumOld)
      ∧ ∃ r : Dynamic × Int,
          MonteCarlo_site g E fuel realization d st = some r
            ∧ 0 ≤ r.2
            ∧ (1 ≤ ((MonteCarlo_rateAccounting d st).site st).calculate_SumOld →
                r.2 ≤ ⌈10 * Real.log
                  ((((MonteCarlo_rateAccounting d st).site st).calculate_SumOld : Int) : ℝ)⌉)
            ∧ (((MonteCarlo_rateAccounting d st).site st).calculate_SumOld ≤ 1 →
                r = (MonteCarlo_rateAccounting d st, 0))
            ∧ (r.1.site st).calculate_SumOld
                ≤ ((MonteCarlo_rateAccounting d st).site st).calculate_SumOld := by
  constructor
  · intro d1 sp
    have hsel : (get_RandSP d1 st).2.site st = d1.site st :=
      site_congr _ _ (get_RandSP_sites d1 st) st
    rw [← hsel]
    exact sumOld_MonteCarlo_trial E _ st sp realization
  · obtain ⟨r, hr, h2, h3, h4, _⟩ :=
      MonteCarlo_trialLoop_spec g E st realization _ hg fuel (MonteCarlo_rateAccounting d st) 0
        (le_refl _) (le_refl _) (by simpa using hfuel)
    refine ⟨r, hr, h2, fun h1 => ?_, fun h1 => ?_, h4⟩
    · have hceil : 0 ≤ ⌈10 * Real.log
          ((((MonteCarlo_rateAccounting d st).site st).calculate_SumOld : Int) : ℝ)⌉ := by
        apply Int.ceil_nonneg
        have hc : (1 : ℝ)
            ≤ ((((MonteCarlo_rateAccounting d st).site st).calculate_SumOld : Int) : ℝ) := by
          exact_mod_cast h1
        have := Real.log_nonneg hc
        linarith
      rw [max_eq_right hceil] at h3
      exact h3
    · have hgf := guard_false_of_le_one g _ hg h1
      cases fuel with
      | zero => omega
      | succ k =>
        unfold MonteCarlo_trialLoop at hr
        rw [hgf] at hr
        simp only [Bool.false_eq_true, if_false, Option.some.injEq] at hr
        exact hr.symm

/-- Witness of C25 on `stateRoomToGrow`, whose site holds 2 individuals, with
`guardUpToTwo` and 20 units of fuel. -/
theorem C25_trial_loop_terminates_witness :
    ∃ r : Dynamic × Int,
      MonteCarlo_site guardUpToTwo extKeep 20 0 stateRoomToGrow 0 = some r
        ∧ 0 ≤ r.2
        ∧ (r.1.site 0).calculate_SumOld
            ≤ ((MonteCarlo_rateAccounting stateRoomToGrow 0).site 0).calculate_SumOld :=
  have e : ((MonteCarlo_rateAccounting stateRoomToGrow 0).site 0).calculate_SumOld = 2 := by
    decide!
  (C25_trial_loop_terminates guardUpToTwo extKeep 20 0 stateRoomToGrow 0
      (by rw [e]; exact guardUpToTwo_isLog)
      (by rw [e, ceil_ten_log_two]; decide)).2.imp
    (fun _ h => ⟨h.1, h.2.1, h.2.2.2.2⟩)

/-! ## C26 -/

/-- C26: two migration passes started from states that differ only in the
weights of the neighbourhood edges, in the preference values of the sites and
in the migration probabilities of the species, the random stream and the
number of values drawn from it being the same, both return or both fail to
return, and their results again differ only in these values: in particular
the species records, with the `old` and `new` counters, are the same at every
site. -/
theorem C26_migration_ignores_weights_and_preferences (E : Externals) (fuel : Nat)
    (d1 d2 : Dynamic) (cont : Int)
    (h : d1.eraseMigrationInputs = d2.eraseMigrationInputs) :
    (Migration E fuel d1 cont).map Dynamic.eraseMigrationInputs
        = (Migration E fuel d2 cont).map Dynamic.eraseMigrationInputs
      ∧ (Migration E fuel d1 cont).map (fun r => r._Sites.map (fun s => s.list_Species))
        = (Migration E fuel d2 cont).map (fun r => r._Sites.map (fun s => s.list_Species)) := by
  have h1 : (Migration E fuel d1 cont).map Dynamic.eraseMigrationInputs
      = (Migration E fuel d2 cont).map Dynamic.eraseMigrationInputs := by
    rw [erase_Migration, erase_Migration, h]
  refine ⟨h1, ?_⟩
  have hc : ∀ r : Dynamic, r._Sites.map (fun s => s.list_Species)
      = r.eraseMigrationInputs._Sites.map (fun s => s.list_Species) := by
    intro r
    unfold Dynamic.eraseMigrationInputs
    simp only [List.map_map]
    rfl
  have h2 := congrArg (Option.map (fun e : Dynamic => e._Sites.map (fun s => s.list_Species))) h1
  rw [Option.map_map, Option.map_map] at h2
  have hfun : (fun r : Dynamic => r._Sites.map (fun s => s.list_Species))
      = (fun e : Dynamic => e._Sites.map (fun s => s.list_Species))
          ∘ Dynamic.eraseMigrationInputs := by
    funext r
    exact hc r
  rw [hfun]
  exact h2

/-- Witness of C26: `stateThreeSites` and `stateThreeSitesReweighted` differ
in the weights, the preference values and the migration probability only, and
the migration pass leaves the same counters at their three sites. -/
theorem C26_migration_ignores_weights_and_preferences_witness :
    stateThreeSites.eraseMigrationInputs = stateThreeSitesReweighted.eraseMigrationInputs
      ∧ (Migration extKeep 10 stateThreeSites 0).map
          (fun r => r._Sites.map (fun s => s.list_Species))
        = (Migration extKeep 10 stateThreeSitesReweighted 0).map
          (fun r => r._Sites.map (fun s => s.list_Species))
      ∧ (Migration extKeep 10 stateThreeSitesReweighted 0).map
          (fun r => r._Sites.map (fun s => s.olds)) = some [[6], [0], [0]] :=
  ⟨rfl,
   (C26_migration_ignores_weights_and_preferences extKeep 10 stateThreeSites
      stateThreeSitesReweighted 0 rfl).2,
   by decide!⟩

end DynamicModel
